import Mathlib

/-!
Workout statistics: a verification development of `main.go`.

The program computes distance, mean speed and burned calories for three kinds of
workout (running, walking, swimming) and renders a one-line report.

Embedding:

* `float64` is modelled by `F64`: a rational, or one of the IEEE special values `+Inf`,
  `-Inf`, `NaN`.  The special values follow IEEE 754, so a division by zero yields an
  infinity or `NaN` as it does in Go.  Two arithmetics are defined on `F64`.
  - The exact arithmetic (`+`, `*`, `/`, `pow2`, and the functions `distance`,
    `meanSpeed`, `Calories`, `TrainingInfo`) does not round a finite result.  It is used
    for what rounding does not decide: the formulas, the dispatch, the report line and
    the values of the workouts of `main` at two decimals.
  - The binary64 arithmetic (`addR`, `mulR`, `divR`, `pow2R`, and the functions
    `distance64`, `meanSpeed64`, `Calories64`, `TrainingInfo64`) rounds the result of
    every operation with `F64.round`: to the nearest binary64 number, ties to even, with
    gradual underflow and with overflow to an infinity.  Every operation is rounded on
    its own (no fused multiply-add, as on amd64); a constant is converted to `float64`
    where it is used; `math.Pow(x, 2)` follows the standard library: the mantissa is
    squared and the exponent is scaled back.  The zero has no sign: a result that
    underflows is the zero, whatever its sign was.  It is used for the properties that
    rounding, overflow or underflow decide.
* `int` and `time.Duration` (an `int64` count of nanoseconds) are modelled by `Int`.
  The program performs no integer arithmetic that can overflow: integers are only
  converted to `float64`, or divided by a positive constant.
* Struct embedding (`Running` embeds `Training`) is modelled by `extends`;
  a promoted method `r.meanSpeed()` is the method of the embedded `Training`.
* The interface `CaloriesCalculator` is modelled by the closed sum of the types of the
  program that implement it.
* `fmt.Sprintf` is modelled verb by verb: `%s` and `%.2f` are defined, `%v` on a
  `float64` is a parameter of `Message`.
-/

/-! ## `float64` -/

/-- A `float64` value: `NaN`, a signed infinity, or a finite number. -/
inductive F64 where
  | nan : F64
  | inf (neg : Bool) : F64
  | fin (q : ℚ) : F64
  deriving DecidableEq

namespace F64

/-- Conversion `float64(n)` of an integer. -/
def ofInt (n : Int) : F64 := fin (n : ℚ)

/-- Float addition `x + y`. -/
def add : F64 → F64 → F64
  | fin a, fin b => fin (a + b)
  | fin _, inf n => inf n
  | inf n, fin _ => inf n
  | inf n, inf m => if n = m then inf n else nan
  | _, _ => nan

/-- Float multiplication `x * y`. -/
def mul : F64 → F64 → F64
  | fin a, fin b => fin (a * b)
  | fin a, inf n => if a = 0 then nan else inf (if 0 < a then n else !n)
  | inf n, fin b => if b = 0 then nan else inf (if 0 < b then n else !n)
  | inf n, inf m => inf (n != m)
  | _, _ => nan

/-- Float division `x / y`; a zero divisor is the positive zero. -/
def div : F64 → F64 → F64
  | fin a, fin b =>
    if b = 0 then (if a = 0 then nan else inf (decide (a < 0))) else fin (a / b)
  | fin _, inf _ => fin 0
  | inf n, fin b => inf (if 0 ≤ b then n else !n)
  | _, _ => nan

/-- The call `math.Pow(x, 2)`. -/
def pow2 : F64 → F64
  | fin a => fin (a ^ 2)
  | inf _ => inf false
  | nan => nan

instance : Add F64 := ⟨add⟩
instance : Mul F64 := ⟨mul⟩
instance : Div F64 := ⟨div⟩

/-- The test that a float is neither `NaN` nor an infinity. -/
def isFinite : F64 → Bool
  | fin _ => true
  | _ => false

end F64

/-! ## `time.Duration` -/

/-- A `time.Duration`: a signed count of nanoseconds. -/
abbrev Duration := Int

namespace Duration

/-- The constant `time.Minute`. -/
def Minute : Duration := 60 * 1000000000

/-- The constant `time.Hour`. -/
def Hour : Duration := 60 * Minute

/-- The method `Duration.Hours` of the standard library: whole hours plus the fraction. -/
def Hours (d : Duration) : F64 :=
  let hour := Int.tdiv d Hour
  let nsec := Int.tmod d Hour
  F64.ofInt hour + F64.ofInt nsec / F64.fin (60 * 60 * 1000000000)

/-- The method `Duration.Minutes` of the standard library. -/
def Minutes (d : Duration) : F64 :=
  let min := Int.tdiv d Minute
  let nsec := Int.tmod d Minute
  F64.ofInt min + F64.ofInt nsec / F64.fin (60 * 1000000000)

end Duration

/-! ## Constants -/

/-- Meters in a kilometer. -/
def MInKm : ℚ := 1000
/-- Minutes in an hour. -/
def MinInHours : ℚ := 60
/-- Length of one step, in meters. -/
def LenStep : ℚ := 0.65
/-- Multiplier of the mean speed in the running formula. -/
def CaloriesMeanSpeedMultiplier : ℚ := 18
/-- Shift of the mean speed in the running formula. -/
def CaloriesMeanSpeedShift : ℚ := 1.79
/-- Multiplier of the weight in the walking formula. -/
def CaloriesWeightMultiplier : ℚ := 0.035
/-- Multiplier of the speed-to-height ratio in the walking formula. -/
def CaloriesSpeedHeightMultiplier : ℚ := 0.029
/-- Factor from km/h to m/s. -/
def KmHInMsec : ℚ := 0.278
/-- Centimeters in a meter. -/
def CmInM : ℚ := 100
/-- Length of one stroke, in meters. -/
def SwimmingLenStep : ℚ := 1.38
/-- Shift of the mean speed in the swimming formula. -/
def SwimmingCaloriesMeanSpeedShift : ℚ := 1.1
/-- Multiplier of the weight in the swimming formula. -/
def SwimmingCaloriesWeightMultiplier : ℚ := 2

/-! ## The data model -/

/-- The struct `Training`: the inputs shared by all kinds of workout. -/
structure Training where
  TrainingType : String
  Action : Int
  LenStep : F64
  Duration : Duration
  Weight : F64

/-- The struct `InfoMessage`: the summary of a workout. -/
structure InfoMessage where
  TrainingType : String
  Duration : Duration
  Distance : F64
  Speed : F64
  Calories : F64

/-- The struct `Running`. -/
structure Running extends Training

/-- The struct `Walking`. -/
structure Walking extends Training where
  Height : F64

/-- The struct `Swimming`. -/
structure Swimming extends Training where
  LengthPool : Int
  CountPool : Int

/-! ## Methods of `Training` -/

/-- The method `Training.distance`. -/
def Training.distance (t : Training) : F64 :=
  F64.ofInt t.Action * t.LenStep / F64.fin MInKm

/-- The method `Training.meanSpeed`. -/
def Training.meanSpeed (t : Training) : F64 :=
  let distance := t.distance
  distance / Duration.Hours t.Duration

/-- The method `Training.Calories`. -/
def Training.Calories (_t : Training) : F64 := F64.fin 0

/-- The method `Training.TrainingInfo`. -/
def Training.TrainingInfo (t : Training) : InfoMessage :=
  let distance := t.distance
  let speed := t.meanSpeed
  let calories := t.Calories
  { TrainingType := t.TrainingType
    Duration := t.Duration
    Distance := distance
    Speed := speed
    Calories := calories }

/-! ## Methods of the three kinds -/

/-- The method `Running.Calories`; `r.meanSpeed()` is the promoted `Training.meanSpeed`. -/
def Running.Calories (r : Running) : F64 :=
  (F64.fin CaloriesMeanSpeedMultiplier * r.toTraining.meanSpeed
      + F64.fin CaloriesMeanSpeedShift) * r.Weight / F64.fin MInKm
    * Duration.Hours r.Duration * F64.fin MinInHours

/-- The method `Running.TrainingInfo`. -/
def Running.TrainingInfo (r : Running) : InfoMessage :=
  r.toTraining.TrainingInfo

/-- The method `Walking.Calories`; `w.meanSpeed()` is the promoted `Training.meanSpeed`. -/
def Walking.Calories (w : Walking) : F64 :=
  (F64.fin CaloriesWeightMultiplier * w.Weight
      + (F64.pow2 (w.toTraining.meanSpeed * F64.fin KmHInMsec) / (w.Height / F64.fin CmInM))
        * F64.fin CaloriesSpeedHeightMultiplier * w.Weight)
    * Duration.Hours w.Duration * F64.fin MinInHours

/-- The method `Walking.TrainingInfo`. -/
def Walking.TrainingInfo (w : Walking) : InfoMessage :=
  w.toTraining.TrainingInfo

/-- The method `Swimming.meanSpeed`. -/
def Swimming.meanSpeed (s : Swimming) : F64 :=
  F64.ofInt s.LengthPool * F64.ofInt s.CountPool / F64.fin MInKm / Duration.Hours s.Duration

/-- The method `Swimming.Calories`; here `s.meanSpeed()` is `Swimming.meanSpeed`. -/
def Swimming.Calories (s : Swimming) : F64 :=
  (s.meanSpeed + F64.fin SwimmingCaloriesMeanSpeedShift)
    * F64.fin SwimmingCaloriesWeightMultiplier * s.Weight * Duration.Hours s.Duration

/-- The method `Swimming.TrainingInfo`. -/
def Swimming.TrainingInfo (s : Swimming) : InfoMessage :=
  s.toTraining.TrainingInfo

/-! ## The report line -/

/-- Rounding of a non-negative rational to the nearest natural number, ties to even:
the rounding `strconv` applies to the exact value when it drops digits. -/
def roundHalfEven (x : ℚ) : Nat :=
  let f := ⌊x⌋.toNat
  let r := x - f
  if r < 1 / 2 then f
  else if 1 / 2 < r then f + 1
  else if f % 2 = 0 then f else f + 1

/-- The verb `%.2f` of `fmt.Sprintf` on a `float64`: sign, integer part, a point and two
digits for a finite value; `NaN`, `+Inf` and `-Inf` for the special values. -/
def fmtFixed2 : F64 → String
  | F64.nan => "NaN"
  | F64.inf false => "+Inf"
  | F64.inf true => "-Inf"
  | F64.fin q =>
    let n := roundHalfEven (|q| * 100)
    String.mk ((if q < 0 then ['-'] else []) ++ Nat.toDigits 10 (n / 100)
      ++ ['.', Nat.digitChar (n / 10 % 10), Nat.digitChar (n % 10)])

/-- The method `InfoMessage.Message`.  The verb `%v` of `fmt.Sprintf` on a `float64` prints
the shortest decimal that identifies the binary value; it depends on the binary
representation, which `F64` abstracts, and is the parameter `fmtV`. -/
def InfoMessage.Message (fmtV : F64 → String) (i : InfoMessage) : String :=
  "Тип тренировки: " ++ i.TrainingType
    ++ "; Длительность: " ++ fmtV (Duration.Minutes i.Duration)
    ++ " мин; Дистанция: " ++ fmtFixed2 i.Distance
    ++ " км.; Ср. скорость: " ++ fmtFixed2 i.Speed
    ++ "; Потрачено ккал: " ++ fmtFixed2 i.Calories

/-! ## The interface and the driving routine -/

/-- The interface `CaloriesCalculator`: the types of the program with the methods
`Calories` and `TrainingInfo`. -/
inductive CaloriesCalculator where
  | training (t : Training)
  | running (r : Running)
  | walking (w : Walking)
  | swimming (s : Swimming)

/-- Dynamic dispatch of `Calories`. -/
def CaloriesCalculator.Calories : CaloriesCalculator → F64
  | training t => t.Calories
  | running r => r.Calories
  | walking w => w.Calories
  | swimming s => s.Calories

/-- Dynamic dispatch of `TrainingInfo`. -/
def CaloriesCalculator.TrainingInfo : CaloriesCalculator → InfoMessage
  | training t => t.TrainingInfo
  | running r => r.TrainingInfo
  | walking w => w.TrainingInfo
  | swimming s => s.TrainingInfo

/-- The function `ReadData`. -/
def ReadData (fmtV : F64 → String) (training : CaloriesCalculator) : String :=
  let calories := training.Calories
  let info := training.TrainingInfo
  let info := { info with Calories := calories }
  info.Message fmtV

/-! ## The workouts of `main` -/

/-- The value `swimming` of `main`. -/
def main.swimming : Swimming :=
  { TrainingType := "Плавание"
    Action := 2000
    LenStep := F64.fin SwimmingLenStep
    Duration := Duration.Minute * 90
    Weight := F64.fin 85
    LengthPool := 50
    CountPool := 5 }

/-- The value `walking` of `main`. -/
def main.walking : Walking :=
  { TrainingType := "Ходьба"
    Action := 20000
    LenStep := F64.fin LenStep
    Duration := Duration.Hour * 3 + Duration.Minute * 45
    Weight := F64.fin 85
    Height := F64.fin 185 }

/-- The value `running` of `main`. -/
def main.running : Running :=
  { TrainingType := "Бег"
    Action := 5000
    LenStep := F64.fin LenStep
    Duration := Duration.Minute * 30
    Weight := F64.fin 85 }

/-- The swimming workout of `main` with another unit count and another per-unit length. -/
def main.swimmingOtherUnits : Swimming :=
  { main.swimming with Action := 4000, LenStep := F64.fin LenStep }

/-- The summary that `ReadData` renders for the running workout of `main`. -/
def main.runningInfo : InfoMessage :=
  { TrainingType := "Бег"
    Duration := Duration.Minute * 30
    Distance := F64.fin 3.25
    Speed := F64.fin 6.5
    Calories := F64.fin 302.9145 }

/-- A summary with a finite distance, the speed `NaN` and the calories `+Inf`. -/
def main.degenerateInfo : InfoMessage :=
  { TrainingType := "Бег"
    Duration := 0
    Distance := F64.fin 2
    Speed := F64.nan
    Calories := F64.inf false }

/-! ## Reading a fixed-point rendering -/

/-- The number that a string of decimal digits denotes. -/
def digitsValue (cs : List Char) : Nat :=
  cs.foldl (fun acc c => 10 * acc + (c.toNat - 48)) 0

/-- Reads a rendering in fixed-point with exactly two digits after the decimal point: an
optional minus sign, one or more digits, a point and two digits.  The result is the sign
and the number of hundredths shown; any other string is rejected. -/
def readFixed2 (s : String) : Option (Bool × Nat) :=
  let neg := decide (s.data.head? = some '-')
  let body := if neg then s.data.tail else s.data
  match body.reverse with
  | c0 :: c1 :: '.' :: ip =>
    if ip ≠ [] ∧ ip.all Char.isDigit = true ∧ c1.isDigit = true ∧ c0.isDigit = true then
      some (neg, digitsValue (ip.reverse ++ [c1, c0]))
    else none
  | _ => none

/-- The test that the string `s` shows the number `q` rounded to two decimals, in
fixed-point with exactly two digits after the decimal point. -/
def IsRounded2 (s : String) (q : ℚ) : Bool :=
  match readFixed2 s with
  | some (neg, n) => neg == decide (q < 0) && decide (abs ((n : ℚ) / 100 - abs q) ≤ 1 / 200)
  | none => false

/-! ## Comparisons of floats -/

namespace F64

/-- Float comparison `x < y`: false when either side is `NaN`. -/
def lt : F64 → F64 → Bool
  | fin a, fin b => decide (a < b)
  | fin _, inf n => !n
  | inf n, fin _ => n
  | inf n, inf m => n && !m
  | _, _ => false

/-- Float comparison `x <= y`: false when either side is `NaN`. -/
def le : F64 → F64 → Bool
  | fin a, fin b => decide (a ≤ b)
  | fin _, inf n => !n
  | inf n, fin _ => n
  | inf n, inf m => n || !m
  | _, _ => false

/-- The test `x == 0`. -/
def isZero : F64 → Bool
  | fin q => decide (q = 0)
  | _ => false

end F64

/-! ## Binary64 rounding -/

namespace F64

/-- The exponent of the binade of a rational: `⌊log₂ |q|⌋`, and `-1022` for the subnormal
range. -/
def binade (q : ℚ) : ℤ := max (Int.log 2 |q|) (-1022)

/-- The spacing of the binary64 numbers in the binade of `q`. -/
def ulp (q : ℚ) : ℚ := 2 ^ (binade q - 52)

/-- The magnitude of the binary64 number nearest to `q`, ties to the even mantissa. -/
def roundMag (q : ℚ) : ℚ := roundHalfEven (|q| / ulp q) * ulp q

/-- Rounding of an exact result to binary64: to the nearest number, ties to the even
mantissa, and to an infinity when the rounded magnitude reaches `2 ^ 1024`. -/
def round (q : ℚ) : F64 :=
  if (2 : ℚ) ^ (1024 : ℤ) ≤ roundMag q then inf (decide (q < 0))
  else fin (if q < 0 then -roundMag q else roundMag q)

/-- Rounding of the result of an exact operation. -/
def rnd : F64 → F64
  | fin q => round q
  | x => x

/-- Conversion `float64(n)` of an integer, rounded. -/
def ofIntR (n : Int) : F64 := round (n : ℚ)

/-- Float addition `x + y`, rounded. -/
def addR (x y : F64) : F64 := rnd (x + y)

/-- Float multiplication `x * y`, rounded. -/
def mulR (x y : F64) : F64 := rnd (x * y)

/-- Float division `x / y`, rounded. -/
def divR (x y : F64) : F64 := rnd (x / y)

/-- The call `math.Pow(x, 2)` as the library computes it: `Frexp` splits `x` into a
mantissa in `[1/2, 1)` and an exponent, the mantissa is squared (rounded), and `Ldexp`
scales the square back (rounded again when the result is subnormal). -/
def pow2R : F64 → F64
  | nan => nan
  | inf _ => inf false
  | fin q =>
    if q = 0 then fin 0
    else
      let e := Int.log 2 |q| + 1
      let m := |q| / 2 ^ e
      match round (m * m) with
      | fin x1 => round (x1 * 2 ^ (2 * e))
      | other => other

end F64

namespace F64

/-- Float comparison `x == y`: false when either side is `NaN`. -/
def eq : F64 → F64 → Bool
  | fin a, fin b => decide (a = b)
  | inf n, inf m => n == m
  | _, _ => false

/-- The float is a non-negative number or `+Inf`. -/
def NonNeg : F64 → Prop
  | fin r => 0 ≤ r
  | inf b => b = false
  | nan => False

/-- The float is a number at least `2 ^ k`, or `+Inf`. -/
def AtLeast (k : ℤ) : F64 → Prop
  | fin r => (2 : ℚ) ^ k ≤ r
  | inf b => b = false
  | nan => False

/-- The float is a number between `2 ^ a` and `2 ^ b`. -/
def Within (a b : ℤ) : F64 → Prop
  | fin r => (2 : ℚ) ^ a ≤ r ∧ r ≤ (2 : ℚ) ^ b
  | _ => False

/-- One plus the relative spacing `2 ^ (-52)` of binary64: the factor by which a rounding
to nearest can change a normal number is below it. -/
def onePlusEps : ℚ := 1 + 2 ^ (-52 : ℤ)

/-- The float is a number between `v / (1 + 2 ^ (-52)) ^ k` and `v × (1 + 2 ^ (-52)) ^ k`:
it is the number `v` up to `k` roundings. -/
def Near (k : ℕ) (v : ℚ) : F64 → Prop
  | fin r => v / onePlusEps ^ k ≤ r ∧ r ≤ v * onePlusEps ^ k
  | _ => False

end F64

/-! ## The computations in binary64 arithmetic

Each function below is the function of the same name with every operation rounded to
binary64, one operation at a time, and every constant converted to `float64`. -/

/-- The method `Duration.Hours` of the standard library, in binary64 arithmetic. -/
def Duration.Hours64 (d : Duration) : F64 :=
  let hour := Int.tdiv d Duration.Hour
  let nsec := Int.tmod d Duration.Hour
  (F64.ofIntR hour).addR ((F64.ofIntR nsec).divR (F64.round (60 * 60 * 1000000000)))

/-- The method `Training.distance`, in binary64 arithmetic. -/
def Training.distance64 (t : Training) : F64 :=
  ((F64.ofIntR t.Action).mulR t.LenStep).divR (F64.round MInKm)

/-- The method `Training.meanSpeed`, in binary64 arithmetic. -/
def Training.meanSpeed64 (t : Training) : F64 :=
  let distance := t.distance64
  distance.divR (Duration.Hours64 t.Duration)

/-- The method `Running.Calories`, in binary64 arithmetic. -/
def Running.Calories64 (r : Running) : F64 :=
  ((((((F64.round CaloriesMeanSpeedMultiplier).mulR r.toTraining.meanSpeed64).addR
      (F64.round CaloriesMeanSpeedShift)).mulR r.Weight).divR (F64.round MInKm)).mulR
    (Duration.Hours64 r.Duration)).mulR (F64.round MinInHours)

/-- The method `Walking.Calories`, in binary64 arithmetic. -/
def Walking.Calories64 (w : Walking) : F64 :=
  (((((F64.round CaloriesWeightMultiplier).mulR w.Weight).addR
      ((((F64.pow2R (w.toTraining.meanSpeed64.mulR (F64.round KmHInMsec))).divR
          (w.Height.divR (F64.round CmInM))).mulR
        (F64.round CaloriesSpeedHeightMultiplier)).mulR w.Weight)).mulR
    (Duration.Hours64 w.Duration)).mulR (F64.round MinInHours))

/-- The method `Swimming.meanSpeed`, in binary64 arithmetic. -/
def Swimming.meanSpeed64 (s : Swimming) : F64 :=
  (((F64.ofIntR s.LengthPool).mulR (F64.ofIntR s.CountPool)).divR (F64.round MInKm)).divR
    (Duration.Hours64 s.Duration)

/-- The method `Swimming.Calories`, in binary64 arithmetic. -/
def Swimming.Calories64 (s : Swimming) : F64 :=
  (((s.meanSpeed64.addR (F64.round SwimmingCaloriesMeanSpeedShift)).mulR
      (F64.round SwimmingCaloriesWeightMultiplier)).mulR s.Weight).mulR
    (Duration.Hours64 s.Duration)

/-! ## Inputs in binary64

The workouts of `main` with the per-unit length converted to `float64`, and variations of
them at the boundaries of the type. -/

/-- The constant `math.SmallestNonzeroFloat64`, the smallest positive `float64`. -/
def F64.SmallestNonzeroFloat64 : F64 := F64.fin (2 ^ (-1074 : ℤ))

/-- The value `running` of `main`, with its per-unit length as a `float64`. -/
def main.running64 : Running :=
  { main.running with LenStep := F64.round LenStep }

/-- The value `walking` of `main`, with its per-unit length as a `float64`. -/
def main.walking64 : Walking :=
  { main.walking with LenStep := F64.round LenStep }

/-- The value `swimming` of `main`, with its per-unit length as a `float64`. -/
def main.swimming64 : Swimming :=
  { main.swimming with LenStep := F64.round SwimmingLenStep }

/-- The running workout of `main` without a step. -/
def main.runningNoSteps : Running :=
  { main.running64 with Action := 0 }

/-- The walking workout of `main` without a step. -/
def main.walkingNoSteps : Walking :=
  { main.walking64 with Action := 0 }

/-- The running workout of `main` without a step and with the per-unit length `+Inf`. -/
def main.runningNoStepsInfLen : Running :=
  { main.running with Action := 0, LenStep := F64.inf false }

/-- The running workout of `main` without a step and with the smallest positive weight. -/
def main.runningNoStepsTinyWeight : Running :=
  { main.running64 with Action := 0, Weight := F64.SmallestNonzeroFloat64 }

/-- The walking workout of `main` without a step and with the smallest positive weight. -/
def main.walkingNoStepsTinyWeight : Walking :=
  { main.walking64 with Action := 0, Weight := F64.SmallestNonzeroFloat64 }

/-- The walking workout of `main` with the smallest positive height. -/
def main.walkingTinyHeight : Walking :=
  { main.walking64 with Height := F64.SmallestNonzeroFloat64 }

/-- The walking workout of `main` without a step and with the smallest positive height. -/
def main.walkingNoStepsTinyHeight : Walking :=
  { main.walking64 with Action := 0, Height := F64.SmallestNonzeroFloat64 }

/-- The running workout of `main` without a step, for the weight `2 ^ 1023`, lasting one
day. -/
def main.runningNoStepsHugeWeight : Running :=
  { main.running64 with
    Action := 0, Duration := Duration.Hour * 24, Weight := F64.fin (2 ^ (1023 : ℤ)) }

/-- The walking workout of `main` without a step and with the weight `+Inf`. -/
def main.walkingNoStepsInfWeight : Walking :=
  { main.walking64 with Action := 0, Weight := F64.inf false }

/-- The walking workout of `main` with the per-unit length `+Inf` and the height `+Inf`. -/
def main.walkingInfLenInfHeight : Walking :=
  { main.walking64 with LenStep := F64.inf false, Height := F64.inf false }

/-! ## The computations in binary64 with every divisor checked

Each function below is the binary64 function of the same name with every division replaced
by `divCheckedR`: it is `none` when some divisor it evaluates is zero. -/

/-- A binary64 division that records a zero divisor: `none` when the divisor is zero, the
rounded quotient otherwise. -/
def F64.divCheckedR (x y : F64) : Option F64 :=
  if y.isZero then none else some (x.divR y)

/-- `Duration.Hours` with its divisors checked: the integer divisor `Hour` and the float
divisor `60 * 60 * 1e9`. -/
def Duration.HoursChecked64 (d : Duration) : Option F64 :=
  if Duration.Hour = 0 then none
  else
    let hour := Int.tdiv d Duration.Hour
    let nsec := Int.tmod d Duration.Hour
    (F64.divCheckedR (F64.ofIntR nsec) (F64.round (60 * 60 * 1000000000))).map
      (fun frac => (F64.ofIntR hour).addR frac)

/-- `Training.distance` with its divisor checked. -/
def Training.distanceChecked64 (t : Training) : Option F64 :=
  F64.divCheckedR ((F64.ofIntR t.Action).mulR t.LenStep) (F64.round MInKm)

/-- `Training.meanSpeed` with its divisors checked. -/
def Training.meanSpeedChecked64 (t : Training) : Option F64 :=
  t.distanceChecked64.bind fun distance =>
  (Duration.HoursChecked64 t.Duration).bind fun hours =>
  F64.divCheckedR distance hours

/-- The method `Training.TrainingInfo`, in binary64 arithmetic. -/
def Training.TrainingInfo64 (t : Training) : InfoMessage :=
  let distance := t.distance64
  let speed := t.meanSpeed64
  let calories := t.Calories
  { TrainingType := t.TrainingType
    Duration := t.Duration
    Distance := distance
    Speed := speed
    Calories := calories }

/-- `Training.TrainingInfo` with its divisors checked. -/
def Training.TrainingInfoChecked64 (t : Training) : Option InfoMessage :=
  t.distanceChecked64.bind fun distance =>
  t.meanSpeedChecked64.bind fun speed =>
  some
    { TrainingType := t.TrainingType
      Duration := t.Duration
      Distance := distance
      Speed := speed
      Calories := t.Calories }

/-- `Running.Calories` with its divisors checked. -/
def Running.CaloriesChecked64 (r : Running) : Option F64 :=
  r.toTraining.meanSpeedChecked64.bind fun speed =>
  (F64.divCheckedR
      ((((F64.round CaloriesMeanSpeedMultiplier).mulR speed).addR
        (F64.round CaloriesMeanSpeedShift)).mulR r.Weight)
      (F64.round MInKm)).bind fun q =>
  (Duration.HoursChecked64 r.Duration).bind fun hours =>
  some ((q.mulR hours).mulR (F64.round MinInHours))

/-- `Walking.Calories` with its divisors checked. -/
def Walking.CaloriesChecked64 (w : Walking) : Option F64 :=
  w.toTraining.meanSpeedChecked64.bind fun speed =>
  (F64.divCheckedR w.Height (F64.round CmInM)).bind fun meters =>
  (F64.divCheckedR (F64.pow2R (speed.mulR (F64.round KmHInMsec))) meters).bind fun q =>
  (Duration.HoursChecked64 w.Duration).bind fun hours =>
  some (((((F64.round CaloriesWeightMultiplier).mulR w.Weight).addR
      ((q.mulR (F64.round CaloriesSpeedHeightMultiplier)).mulR w.Weight)).mulR hours).mulR
    (F64.round MinInHours))

/-- `Swimming.meanSpeed` with its divisors checked. -/
def Swimming.meanSpeedChecked64 (s : Swimming) : Option F64 :=
  (F64.divCheckedR ((F64.ofIntR s.LengthPool).mulR (F64.ofIntR s.CountPool))
    (F64.round MInKm)).bind fun km =>
  (Duration.HoursChecked64 s.Duration).bind fun hours =>
  F64.divCheckedR km hours

/-- `Swimming.Calories` with its divisors checked. -/
def Swimming.CaloriesChecked64 (s : Swimming) : Option F64 :=
  s.meanSpeedChecked64.bind fun speed =>
  (Duration.HoursChecked64 s.Duration).bind fun hours =>
  some ((((speed.addR (F64.round SwimmingCaloriesMeanSpeedShift)).mulR
      (F64.round SwimmingCaloriesWeightMultiplier)).mulR s.Weight).mulR hours)

/-- The running workout of `main` with another unit count and another per-unit length. -/
def main.runningWith (n : Int) (L : F64) : Running :=
  { main.running with Action := n, LenStep := L }

/-! ## The closed form of the calories of running -/

/-- The closed form `(18 × distance + 1.79 × hours) × Weight × 60 / 1000` of the calories of
running, in exact arithmetic. -/
def Running.affineCalories (distance hours weight : ℚ) : ℚ :=
  (18 * distance + 1.79 * hours) * weight * 60 / 1000

/-- The closed form `(18 × distance + 1.79 × hours) × Weight × 60 / 1000` of the calories of
running, evaluated in binary64 from left to right. -/
def Running.affineCalories64 (distance hours weight : F64) : F64 :=
  ((((((F64.round CaloriesMeanSpeedMultiplier).mulR distance).addR
      ((F64.round CaloriesMeanSpeedShift).mulR hours)).mulR weight).mulR
    (F64.round MinInHours)).divR (F64.round MInKm))

/-- The running workout of `100000` steps for a weight of `85`, lasting `d`. -/
def main.runningFor (d : Duration) : Running :=
  { TrainingType := "Бег"
    Action := 100000
    LenStep := F64.round LenStep
    Duration := d
    Weight := F64.fin 85 }

/-- The running workout of `main` lasting 60 minutes instead of 30, with its per-unit length
as a `float64`. -/
def main.running64OneHour : Running :=
  { main.running64 with Duration := Duration.Minute * 60 }

/-! # Theorems -/

/-! ## Arithmetic of finite floats -/

namespace F64

theorem fin_add_fin (a b : ℚ) : fin a + fin b = fin (a + b) := rfl

theorem fin_mul_fin (a b : ℚ) : fin a * fin b = fin (a * b) := rfl

theorem fin_div_fin (a b : ℚ) (h : b ≠ 0) : fin a / fin b = fin (a / b) := by
  show div (fin a) (fin b) = fin (a / b)
  simp [div, h]

theorem pow2_fin (a : ℚ) : pow2 (fin a) = fin (a ^ 2) := rfl

end F64

/-! ## Durations -/

/-- In exact arithmetic `Hours` is the count of nanoseconds divided by `3.6e12`. -/
theorem Duration.Hours_eq (d : Duration) :
    Duration.Hours d = F64.fin ((d : ℚ) / 3600000000000) := by
  have h := Int.tdiv_add_tmod d Duration.Hour
  have hH : (Duration.Hour : Int) = 3600000000000 := by
    norm_num [Duration.Hour, Duration.Minute]
  rw [hH] at h
  have hq : (d : ℚ) = 3600000000000 * (Int.tdiv d 3600000000000 : ℚ)
      + (Int.tmod d 3600000000000 : ℚ) := by exact_mod_cast h.symm
  unfold Duration.Hours
  simp only [F64.ofInt, hH]
  rw [F64.fin_div_fin _ _ (by norm_num), F64.fin_add_fin]
  congr 1
  rw [hq]
  field_simp
  ring

/-- In exact arithmetic `Minutes` is the count of nanoseconds divided by `6e10`. -/
theorem Duration.Minutes_eq (d : Duration) :
    Duration.Minutes d = F64.fin ((d : ℚ) / 60000000000) := by
  have h := Int.tdiv_add_tmod d Duration.Minute
  have hM : (Duration.Minute : Int) = 60000000000 := by norm_num [Duration.Minute]
  rw [hM] at h
  have hq : (d : ℚ) = 60000000000 * (Int.tdiv d 60000000000 : ℚ)
      + (Int.tmod d 60000000000 : ℚ) := by exact_mod_cast h.symm
  unfold Duration.Minutes
  simp only [F64.ofInt, hM]
  rw [F64.fin_div_fin _ _ (by norm_num), F64.fin_add_fin]
  congr 1
  rw [hq]
  field_simp
  ring

/-- A non-zero duration is a non-zero number of hours. -/
theorem Duration.hours_ne_zero (d : Duration) (h : d ≠ 0) :
    (d : ℚ) / 3600000000000 ≠ 0 := by
  have : (d : ℚ) ≠ 0 := by exact_mod_cast h
  exact div_ne_zero this (by norm_num)

/-! ## Decimal digits -/

theorem digitChar_spec : ∀ k, k < 10 →
    (Nat.digitChar k).isDigit = true ∧ (Nat.digitChar k).toNat - 48 = k
      ∧ Nat.digitChar k ≠ '-' := by
  decide

theorem digitsValue_append_singleton (l : List Char) (c : Char) :
    digitsValue (l ++ [c]) = 10 * digitsValue l + (c.toNat - 48) := by
  simp [digitsValue, List.foldl_append]

theorem toDigitsCore_spec (fuel : Nat) : ∀ (n : Nat) (ds : List Char), n < fuel →
    ∃ l, Nat.toDigitsCore 10 fuel n ds = l ++ ds ∧ l ≠ []
      ∧ (∀ c ∈ l, c.isDigit = true) ∧ digitsValue l = n := by
  induction fuel with
  | zero => intro n ds h; omega
  | succ fuel ih =>
    intro n ds h
    obtain ⟨hd1, hd2, _⟩ := digitChar_spec (n % 10) (Nat.mod_lt _ (by norm_num))
    by_cases h0 : n / 10 = 0
    · refine ⟨[Nat.digitChar (n % 10)], ?_, by simp, ?_, ?_⟩
      · simp [Nat.toDigitsCore, h0]
      · intro c hc
        simp at hc
        rw [hc]; exact hd1
      · have := digitsValue_append_singleton [] (Nat.digitChar (n % 10))
        simp only [List.nil_append] at this
        rw [this, hd2]
        simp [digitsValue]
        omega
    · obtain ⟨l, hl, hne, hdig, hval⟩ := ih (n / 10) (Nat.digitChar (n % 10) :: ds) (by omega)
      refine ⟨l ++ [Nat.digitChar (n % 10)], ?_, by simp, ?_, ?_⟩
      · simp [Nat.toDigitsCore, h0, hl]
      · intro c hc
        rcases List.mem_append.1 hc with hc | hc
        · exact hdig c hc
        · simp at hc
          rw [hc]; exact hd1
      · rw [digitsValue_append_singleton, hval, hd2]
        omega

theorem toDigits_spec (n : Nat) :
    Nat.toDigits 10 n ≠ [] ∧ (∀ c ∈ Nat.toDigits 10 n, c.isDigit = true)
      ∧ digitsValue (Nat.toDigits 10 n) = n := by
  obtain ⟨l, hl, hne, hdig, hval⟩ := toDigitsCore_spec (n + 1) n [] (by omega)
  have : Nat.toDigits 10 n = l := by simp [Nat.toDigits, hl]
  rw [this]
  exact ⟨hne, hdig, hval⟩

/-! ## Rounding to two decimals -/

theorem roundHalfEven_spec (x : ℚ) (hx : 0 ≤ x) :
    abs ((roundHalfEven x : ℚ) - x) ≤ 1 / 2 := by
  have hf0 : (0 : ℤ) ≤ ⌊x⌋ := Int.floor_nonneg.2 hx
  have hcast : ((⌊x⌋.toNat : ℕ) : ℚ) = ((⌊x⌋ : ℤ) : ℚ) := by
    have : ((⌊x⌋.toNat : ℕ) : ℤ) = ⌊x⌋ := Int.toNat_of_nonneg hf0
    exact_mod_cast this
  have h1 : ((⌊x⌋ : ℤ) : ℚ) ≤ x := Int.floor_le x
  have h2 : x < ((⌊x⌋ : ℤ) : ℚ) + 1 := Int.lt_floor_add_one x
  unfold roundHalfEven
  simp only
  rw [abs_le]
  split_ifs with ha hb hc
  · rw [hcast] at ha ⊢
    constructor <;> linarith
  · rw [hcast] at hb
    push_cast
    rw [hcast]
    constructor <;> linarith
  · rw [hcast] at ha hb ⊢
    constructor <;> linarith
  · rw [hcast] at ha hb
    push_cast
    rw [hcast]
    constructor <;> linarith

theorem roundHalfEven_of_close (x : ℚ) (n : ℕ) (hx : 0 ≤ x)
    (h : abs (x - n) < 1 / 2) : roundHalfEven x = n := by
  have hs := roundHalfEven_spec x hx
  rw [abs_le] at hs
  rw [abs_lt] at h
  have h3 : abs (((roundHalfEven x : ℤ) : ℚ) - ((n : ℤ) : ℚ)) < 1 := by
    rw [abs_lt]
    push_cast
    constructor <;> linarith
  have h4 : abs ((roundHalfEven x : ℤ) - (n : ℤ)) < 1 := by exact_mod_cast h3
  have h5 : (roundHalfEven x : ℤ) - (n : ℤ) = 0 := Int.abs_lt_one_iff.1 h4
  omega

/-- The rendering of a finite float by `%.2f` reads back as its sign and a number of
hundredths within half a hundredth of its magnitude. -/
theorem fmtFixed2_fin_read (q : ℚ) :
    ∃ n : Nat, readFixed2 (fmtFixed2 (F64.fin q)) = some (decide (q < 0), n)
      ∧ abs ((n : ℚ) / 100 - abs q) ≤ 1 / 200 := by
  simp only [fmtFixed2]
  obtain ⟨hne, hdig, hval⟩ := toDigits_spec (roundHalfEven (|q| * 100) / 100)
  obtain ⟨h1d, h1v, _⟩ := digitChar_spec (roundHalfEven (|q| * 100) / 10 % 10)
    (Nat.mod_lt _ (by norm_num))
  obtain ⟨h0d, h0v, _⟩ := digitChar_spec (roundHalfEven (|q| * 100) % 10)
    (Nat.mod_lt _ (by norm_num))
  have hr := roundHalfEven_spec (|q| * 100) (by positivity)
  generalize roundHalfEven (|q| * 100) = n at hne hdig hval h1d h1v h0d h0v hr ⊢
  generalize Nat.toDigits 10 (n / 100) = D at hne hdig hval ⊢
  refine ⟨n, ?_, ?_⟩
  · obtain ⟨d, Ds, rfl⟩ := List.exists_cons_of_ne_nil hne
    have hd : d ≠ '-' := by
      intro h
      have := hdig d (by simp)
      rw [h] at this
      exact absurd this (by decide)
    have hall : (Ds.reverse ++ [d]).all Char.isDigit = true := by
      rw [List.all_eq_true]
      intro c hc
      apply hdig
      simp at hc
      simp
      tauto
    have hv : digitsValue (d :: Ds ++ [Nat.digitChar (n / 10 % 10), Nat.digitChar (n % 10)])
        = n := by
      have e : d :: Ds ++ [Nat.digitChar (n / 10 % 10), Nat.digitChar (n % 10)]
          = ((d :: Ds) ++ [Nat.digitChar (n / 10 % 10)]) ++ [Nat.digitChar (n % 10)] := by
        simp
      rw [e, digitsValue_append_singleton, digitsValue_append_singleton, hval, h1v, h0v]
      omega
    by_cases hq : q < 0
    · rw [List.cons_append] at hv
      simp [readFixed2, hq, hall, h1d, h0d, hv]
    · rw [List.cons_append] at hv
      simp [readFixed2, hq, hd, hall, h1d, h0d, hv]
  · rw [abs_le] at hr ⊢
    constructor <;> linarith

/-- The rendering of a finite float by `%.2f` shows the value rounded to two decimals. -/
theorem fmtFixed2_fin_isRounded2 (q : ℚ) : IsRounded2 (fmtFixed2 (F64.fin q)) q = true := by
  obtain ⟨n, hn, hle⟩ := fmtFixed2_fin_read q
  simp only [IsRounded2, hn, beq_self_eq_true, Bool.true_and, decide_eq_true_eq]
  exact hle

/-- Evaluation of `%.2f` at a finite non-negative value whose hundredths are not a tie. -/
theorem fmtFixed2_fin_eq (q : ℚ) (n : ℕ) (h0 : 0 ≤ q) (h : abs (q * 100 - n) < 1 / 2) :
    fmtFixed2 (F64.fin q)
      = String.mk (Nat.toDigits 10 (n / 100)
          ++ ['.', Nat.digitChar (n / 10 % 10), Nat.digitChar (n % 10)]) := by
  simp only [fmtFixed2]
  rw [abs_of_nonneg h0, roundHalfEven_of_close (q * 100) n (by positivity) h,
    if_neg (not_lt.2 h0)]
  rfl

/-! ## C1 -/

/-- C1 (the code departs from the claim): `Swimming.TrainingInfo` delegates to the embedded
`Training`, whose `meanSpeed` is the stride-based one.  On the swimming workout of `main`
the `Speed` of the summary is `2000 × 1.38 / 1000 / 1.5 = 1.84`, not the swimming mean
speed `50 × 5 / 1000 / 1.5 = 1/6`, and doubling `Action` with the pool and the duration
fixed doubles it; the report shows `1.84` where the swimming mean speed would show `0.17`. -/
theorem Swimming.TrainingInfo_speed_is_stride_based :
    (∀ s : Swimming, s.TrainingInfo.Speed = s.toTraining.meanSpeed)
      ∧ main.swimming.TrainingInfo.Speed = F64.fin (46 / 25)
      ∧ main.swimming.meanSpeed = F64.fin (1 / 6)
      ∧ ({ main.swimming with Action := 4000 } : Swimming).TrainingInfo.Speed
          = F64.fin (92 / 25)
      ∧ ({ main.swimming with Action := 4000 } : Swimming).meanSpeed = F64.fin (1 / 6)
      ∧ fmtFixed2 main.swimming.TrainingInfo.Speed = "1.84"
      ∧ fmtFixed2 main.swimming.meanSpeed = "0.17" := by
  have h1 : main.swimming.TrainingInfo.Speed = F64.fin (46 / 25) := by
    simp only [main.swimming, Swimming.TrainingInfo, Training.TrainingInfo, Training.meanSpeed,
      Training.distance, Duration.Hours_eq, F64.ofInt, MInKm, SwimmingLenStep, Duration.Minute]
    norm_num [F64.fin_div_fin, F64.fin_mul_fin]
  have h2 : main.swimming.meanSpeed = F64.fin (1 / 6) := by
    simp only [main.swimming, Swimming.meanSpeed, Duration.Hours_eq, F64.ofInt, MInKm,
      Duration.Minute]
    norm_num [F64.fin_div_fin, F64.fin_mul_fin]
  refine ⟨fun _ => rfl, h1, h2, ?_, ?_, ?_, ?_⟩
  · simp only [main.swimming, Swimming.TrainingInfo, Training.TrainingInfo, Training.meanSpeed,
      Training.distance, Duration.Hours_eq, F64.ofInt, MInKm, SwimmingLenStep, Duration.Minute]
    norm_num [F64.fin_div_fin, F64.fin_mul_fin]
  · simp only [main.swimming, Swimming.meanSpeed, Duration.Hours_eq, F64.ofInt, MInKm,
      Duration.Minute]
    norm_num [F64.fin_div_fin, F64.fin_mul_fin]
  · rw [h1, fmtFixed2_fin_eq (46 / 25) 184 (by norm_num) (by norm_num)]
    decide
  · rw [h2, fmtFixed2_fin_eq (1 / 6) 17 (by norm_num)
      (by rw [abs_lt]; constructor <;> norm_num)]
    decide

/-! ## C2, C3, C4 -/

/-- C2: `Swimming.Calories` is `(v + 1.1) × 2 × Weight × hours` with `v` the swimming mean
speed `LengthPool × CountPool / 1000 / hours`; for a finite weight and a non-zero duration
this is the number given by the formula, in which `Action` and `LenStep` do not occur. -/
theorem Swimming.Calories_swimming_formula (s : Swimming) :
    s.Calories
        = (s.meanSpeed + F64.fin 1.1) * F64.fin 2 * s.Weight * Duration.Hours s.Duration
      ∧ s.meanSpeed
        = F64.ofInt s.LengthPool * F64.ofInt s.CountPool / F64.fin 1000
            / Duration.Hours s.Duration
      ∧ Duration.Hours s.Duration = F64.fin ((s.Duration : ℚ) / 3600000000000)
      ∧ ∀ w : ℚ, s.Weight = F64.fin w → s.Duration ≠ 0 →
          s.Calories
            = F64.fin ((((s.LengthPool : ℚ) * s.CountPool / 1000
                  / ((s.Duration : ℚ) / 3600000000000)) + 1.1) * 2 * w
                * ((s.Duration : ℚ) / 3600000000000)) := by
  refine ⟨rfl, rfl, Duration.Hours_eq _, ?_⟩
  intro w hw hd
  have hh := Duration.hours_ne_zero s.Duration hd
  simp only [Swimming.Calories, Swimming.meanSpeed, hw, Duration.Hours_eq, F64.ofInt, MInKm,
    SwimmingCaloriesMeanSpeedShift, SwimmingCaloriesWeightMultiplier, F64.fin_mul_fin,
    F64.fin_add_fin, F64.fin_div_fin _ _ hh,
    F64.fin_div_fin _ _ (by norm_num : (1000 : ℚ) ≠ 0)]

/-- C2, at the swimming workout of `main`: the calories are the formula at the swimming
mean speed, and differ from the formula at the stride-based mean speed. -/
theorem Swimming.Calories_swimming_formula_witness :
    main.swimming.Weight = F64.fin 85 ∧ main.swimming.Duration ≠ 0
      ∧ main.swimming.Calories
          = F64.fin ((((50 : ℚ) * 5 / 1000 / (5400000000000 / 3600000000000)) + 1.1) * 2 * 85
              * (5400000000000 / 3600000000000))
      ∧ main.swimming.Calories
          ≠ (main.swimming.toTraining.meanSpeed + F64.fin 1.1) * F64.fin 2
              * main.swimming.Weight * Duration.Hours main.swimming.Duration := by
  have h := (Swimming.Calories_swimming_formula main.swimming).2.2.2 85 rfl (by decide)
  refine ⟨rfl, by decide, ?_, ?_⟩
  · rw [h]
    norm_num [main.swimming, Duration.Minute]
  · rw [h]
    simp only [main.swimming, Training.meanSpeed, Training.distance, Duration.Hours_eq,
      F64.ofInt, MInKm, SwimmingLenStep, Duration.Minute]
    norm_num [F64.fin_div_fin, F64.fin_mul_fin, F64.fin_add_fin]

/-- C3: `Running.Calories` is `(18 × v + 1.79) × Weight / 1000 × hours × 60` with `v` the
base mean speed `(Action × LenStep / 1000) / hours`; for finite inputs and a non-zero
duration this is the number given by the formula. -/
theorem Running.Calories_running_formula (r : Running) :
    r.Calories
        = (F64.fin 18 * r.toTraining.meanSpeed + F64.fin 1.79) * r.Weight / F64.fin 1000
            * Duration.Hours r.Duration * F64.fin 60
      ∧ r.toTraining.meanSpeed
        = (F64.ofInt r.Action * r.LenStep / F64.fin 1000) / Duration.Hours r.Duration
      ∧ Duration.Hours r.Duration = F64.fin ((r.Duration : ℚ) / 3600000000000)
      ∧ ∀ l w : ℚ, r.LenStep = F64.fin l → r.Weight = F64.fin w → r.Duration ≠ 0 →
          r.Calories
            = F64.fin ((18 * (((r.Action : ℚ) * l / 1000)
                  / ((r.Duration : ℚ) / 3600000000000)) + 1.79) * w / 1000
                * ((r.Duration : ℚ) / 3600000000000) * 60) := by
  refine ⟨rfl, rfl, Duration.Hours_eq _, ?_⟩
  intro l w hl hw hd
  have hh := Duration.hours_ne_zero r.Duration hd
  simp only [Running.Calories, Training.meanSpeed, Training.distance, hl, hw,
    Duration.Hours_eq, F64.ofInt, MInKm, MinInHours, CaloriesMeanSpeedMultiplier,
    CaloriesMeanSpeedShift, F64.fin_mul_fin, F64.fin_add_fin, F64.fin_div_fin _ _ hh,
    F64.fin_div_fin _ _ (by norm_num : (1000 : ℚ) ≠ 0)]

/-- C3, at the running workout of `main`. -/
theorem Running.Calories_running_formula_witness :
    main.running.LenStep = F64.fin 0.65 ∧ main.running.Weight = F64.fin 85
      ∧ main.running.Duration ≠ 0
      ∧ main.running.Calories
          = F64.fin ((18 * (((5000 : ℚ) * 0.65 / 1000) / (1800000000000 / 3600000000000))
              + 1.79) * 85 / 1000 * (1800000000000 / 3600000000000) * 60) := by
  refine ⟨rfl, rfl, by decide, ?_⟩
  have h := (Running.Calories_running_formula main.running).2.2.2 0.65 85 rfl rfl (by decide)
  rw [h]
  norm_num [main.running, Duration.Minute]

/-- C4: `Walking.Calories` is
`(0.035 × Weight + (v × 0.278)² / (Height / 100) × 0.029 × Weight) × hours × 60` with `v`
the base mean speed `(Action × LenStep / 1000) / hours`; for finite inputs, a non-zero
height and a non-zero duration this is the number given by the formula. -/
theorem Walking.Calories_walking_formula (w : Walking) :
    w.Calories
        = (F64.fin 0.035 * w.Weight
            + F64.pow2 (w.toTraining.meanSpeed * F64.fin 0.278) / (w.Height / F64.fin 100)
              * F64.fin 0.029 * w.Weight)
            * Duration.Hours w.Duration * F64.fin 60
      ∧ w.toTraining.meanSpeed
        = (F64.ofInt w.Action * w.LenStep / F64.fin 1000) / Duration.Hours w.Duration
      ∧ Duration.Hours w.Duration = F64.fin ((w.Duration : ℚ) / 3600000000000)
      ∧ ∀ l m h : ℚ, w.LenStep = F64.fin l → w.Weight = F64.fin m → w.Height = F64.fin h →
          h ≠ 0 → w.Duration ≠ 0 →
          w.Calories
            = F64.fin ((0.035 * m
                  + ((((w.Action : ℚ) * l / 1000) / ((w.Duration : ℚ) / 3600000000000))
                      * 0.278) ^ 2 / (h / 100) * 0.029 * m)
                * ((w.Duration : ℚ) / 3600000000000) * 60) := by
  refine ⟨rfl, rfl, Duration.Hours_eq _, ?_⟩
  intro l m h hl hm hh0 hne hd
  have hh := Duration.hours_ne_zero w.Duration hd
  have hcm : h / 100 ≠ 0 := div_ne_zero hne (by norm_num)
  simp only [Walking.Calories, Training.meanSpeed, Training.distance, hl, hm, hh0,
    Duration.Hours_eq, F64.ofInt, MInKm, MinInHours, CaloriesWeightMultiplier,
    CaloriesSpeedHeightMultiplier, KmHInMsec, CmInM, F64.fin_mul_fin, F64.fin_add_fin,
    F64.pow2_fin, F64.fin_div_fin _ _ hh, F64.fin_div_fin _ _ hcm,
    F64.fin_div_fin _ _ (by norm_num : (1000 : ℚ) ≠ 0),
    F64.fin_div_fin _ _ (by norm_num : (100 : ℚ) ≠ 0)]

/-- C4, at the walking workout of `main`. -/
theorem Walking.Calories_walking_formula_witness :
    main.walking.LenStep = F64.fin 0.65 ∧ main.walking.Weight = F64.fin 85
      ∧ main.walking.Height = F64.fin 185 ∧ (185 : ℚ) ≠ 0 ∧ main.walking.Duration ≠ 0
      ∧ main.walking.Calories
          = F64.fin ((0.035 * 85
                + ((((20000 : ℚ) * 0.65 / 1000) / (13500000000000 / 3600000000000))
                    * 0.278) ^ 2 / (185 / 100) * 0.029 * 85)
              * (13500000000000 / 3600000000000) * 60) := by
  refine ⟨rfl, rfl, rfl, by norm_num, by decide, ?_⟩
  have h := (Walking.Calories_walking_formula main.walking).2.2.2 0.65 85 185 rfl rfl rfl
    (by norm_num) (by decide)
  rw [h]
  norm_num [main.walking, Duration.Minute, Duration.Hour]

/-! ## C5 -/

/-- C5: `ReadData` renders the summary of `TrainingInfo` with its `Calories` field, and no
other, replaced by the result of `Calories`: label, duration, distance and speed are those
of `TrainingInfo`, and the calories are those of the formula of the kind. -/
theorem ReadData_eq (fmtV : F64 → String) :
    (∀ x : CaloriesCalculator,
        ReadData fmtV x
          = InfoMessage.Message fmtV
              { TrainingType := x.TrainingInfo.TrainingType
                Duration := x.TrainingInfo.Duration
                Distance := x.TrainingInfo.Distance
                Speed := x.TrainingInfo.Speed
                Calories := x.Calories })
      ∧ (∀ r : Running,
          ReadData fmtV (CaloriesCalculator.running r)
            = InfoMessage.Message fmtV
                { TrainingType := r.TrainingInfo.TrainingType
                  Duration := r.TrainingInfo.Duration
                  Distance := r.TrainingInfo.Distance
                  Speed := r.TrainingInfo.Speed
                  Calories := r.Calories })
      ∧ (∀ w : Walking,
          ReadData fmtV (CaloriesCalculator.walking w)
            = InfoMessage.Message fmtV
                { TrainingType := w.TrainingInfo.TrainingType
                  Duration := w.TrainingInfo.Duration
                  Distance := w.TrainingInfo.Distance
                  Speed := w.TrainingInfo.Speed
                  Calories := w.Calories })
      ∧ (∀ s : Swimming,
          ReadData fmtV (CaloriesCalculator.swimming s)
            = InfoMessage.Message fmtV
                { TrainingType := s.TrainingInfo.TrainingType
                  Duration := s.TrainingInfo.Duration
                  Distance := s.TrainingInfo.Distance
                  Speed := s.TrainingInfo.Speed
                  Calories := s.Calories }) :=
  ⟨fun _ => rfl, fun _ => rfl, fun _ => rfl, fun _ => rfl⟩

/-! ## C6 -/

/-- C6, as amended: for every `InfoMessage`, `Message` is the fixed template with the
fields in the order label, duration, distance, speed, calories, and the duration is its
value in minutes.  Each of distance, speed and calories that is a finite number is shown
in fixed-point with exactly two digits after the decimal point, rounded to two decimals;
one that is `NaN` or infinite is shown as `NaN`, `+Inf` or `-Inf`. -/
theorem InfoMessage.Message_template (fmtV : F64 → String) (i : InfoMessage) :
    i.Message fmtV
        = "Тип тренировки: " ++ i.TrainingType
          ++ "; Длительность: " ++ fmtV (F64.fin ((i.Duration : ℚ) / 60000000000))
          ++ " мин; Дистанция: " ++ fmtFixed2 i.Distance
          ++ " км.; Ср. скорость: " ++ fmtFixed2 i.Speed
          ++ "; Потрачено ккал: " ++ fmtFixed2 i.Calories
      ∧ (∀ q : ℚ, i.Distance = F64.fin q → IsRounded2 (fmtFixed2 i.Distance) q = true)
      ∧ (∀ q : ℚ, i.Speed = F64.fin q → IsRounded2 (fmtFixed2 i.Speed) q = true)
      ∧ (∀ q : ℚ, i.Calories = F64.fin q → IsRounded2 (fmtFixed2 i.Calories) q = true)
      ∧ (i.Distance = F64.nan → fmtFixed2 i.Distance = "NaN")
      ∧ (i.Distance = F64.inf false → fmtFixed2 i.Distance = "+Inf")
      ∧ (i.Distance = F64.inf true → fmtFixed2 i.Distance = "-Inf")
      ∧ (i.Speed = F64.nan → fmtFixed2 i.Speed = "NaN")
      ∧ (i.Speed = F64.inf false → fmtFixed2 i.Speed = "+Inf")
      ∧ (i.Speed = F64.inf true → fmtFixed2 i.Speed = "-Inf")
      ∧ (i.Calories = F64.nan → fmtFixed2 i.Calories = "NaN")
      ∧ (i.Calories = F64.inf false → fmtFixed2 i.Calories = "+Inf")
      ∧ (i.Calories = F64.inf true → fmtFixed2 i.Calories = "-Inf") := by
  refine ⟨?_, ?_, ?_, ?_, ?_, ?_, ?_, ?_, ?_, ?_, ?_, ?_, ?_⟩
  · simp only [InfoMessage.Message, Duration.Minutes_eq]
  · intro q h; rw [h]; exact fmtFixed2_fin_isRounded2 q
  · intro q h; rw [h]; exact fmtFixed2_fin_isRounded2 q
  · intro q h; rw [h]; exact fmtFixed2_fin_isRounded2 q
  all_goals
    intro h
    rw [h]
    rfl

/-- C6, as amended, at the summary of the running workout of `main` (all fields finite)
and at a summary with the speed `NaN` and the calories `+Inf`. -/
theorem InfoMessage.Message_template_witness :
    (∀ fmtV : F64 → String,
        main.runningInfo.Message fmtV
            = "Тип тренировки: " ++ main.runningInfo.TrainingType
              ++ "; Длительность: "
              ++ fmtV (F64.fin ((main.runningInfo.Duration : ℚ) / 60000000000))
              ++ " мин; Дистанция: " ++ fmtFixed2 main.runningInfo.Distance
              ++ " км.; Ср. скорость: " ++ fmtFixed2 main.runningInfo.Speed
              ++ "; Потрачено ккал: " ++ fmtFixed2 main.runningInfo.Calories)
      ∧ IsRounded2 (fmtFixed2 main.runningInfo.Distance) 3.25 = true
      ∧ IsRounded2 (fmtFixed2 main.runningInfo.Speed) 6.5 = true
      ∧ IsRounded2 (fmtFixed2 main.runningInfo.Calories) 302.9145 = true
      ∧ IsRounded2 (fmtFixed2 main.degenerateInfo.Distance) 2 = true
      ∧ fmtFixed2 main.degenerateInfo.Speed = "NaN"
      ∧ fmtFixed2 main.degenerateInfo.Calories = "+Inf" :=
  ⟨fun fmtV => (InfoMessage.Message_template fmtV main.runningInfo).1,
    (InfoMessage.Message_template fmtFixed2 main.runningInfo).2.1 3.25 rfl,
    (InfoMessage.Message_template fmtFixed2 main.runningInfo).2.2.1 6.5 rfl,
    (InfoMessage.Message_template fmtFixed2 main.runningInfo).2.2.2.1 302.9145 rfl,
    (InfoMessage.Message_template fmtFixed2 main.degenerateInfo).2.1 2 rfl,
    (InfoMessage.Message_template fmtFixed2 main.degenerateInfo).2.2.2.2.2.2.2.1 rfl,
    (InfoMessage.Message_template fmtFixed2 main.degenerateInfo).2.2.2.2.2.2.2.2.2.2.2.1 rfl⟩

/-- C6, as stated, fails: the summary of a running workout of zero steps and zero duration
has the speed `0 / 0 = NaN`, which `Message` shows as `NaN`, not as a number with two
digits after the decimal point. -/
theorem InfoMessage.Message_nan_speed :
    (Running.TrainingInfo
        { TrainingType := "Бег", Action := 0, LenStep := F64.fin LenStep, Duration := 0,
          Weight := F64.fin 85 }
      = { TrainingType := "Бег", Duration := 0, Distance := F64.fin 0, Speed := F64.nan,
          Calories := F64.fin 0 })
      ∧ (∀ fmtV : F64 → String,
          InfoMessage.Message fmtV
              { TrainingType := "Бег", Duration := 0, Distance := F64.fin 0,
                Speed := F64.nan, Calories := F64.fin 0 }
            = "Тип тренировки: Бег; Длительность: " ++ fmtV (F64.fin 0)
                ++ " мин; Дистанция: 0.00 км.; Ср. скорость: NaN; Потрачено ккал: 0.00")
      ∧ fmtFixed2 F64.nan = "NaN"
      ∧ readFixed2 (fmtFixed2 F64.nan) = none
      ∧ ∀ q : ℚ, IsRounded2 (fmtFixed2 F64.nan) q = false := by
  have h0 : fmtFixed2 (F64.fin 0) = "0.00" := by
    rw [fmtFixed2_fin_eq 0 0 (by norm_num) (by norm_num)]
    decide
  refine ⟨?_, ?_, rfl, by decide, ?_⟩
  · simp only [Running.TrainingInfo, Training.TrainingInfo, Training.meanSpeed,
      Training.distance, Training.Calories, Duration.Hours_eq, F64.ofInt, MInKm]
    norm_num [F64.fin_mul_fin, F64.fin_div_fin]
    rfl
  · intro fmtV
    have hn : fmtFixed2 F64.nan = "NaN" := rfl
    simp only [InfoMessage.Message, Duration.Minutes_eq, h0, hn]
    norm_num
    simp only [String.append_assoc]
    rfl
  · intro q
    have : readFixed2 (fmtFixed2 F64.nan) = none := by decide
    simp only [IsRounded2, this]

/-! ## C7, C8, C9: the workouts of `main` -/

/-- C7, as stated, fails: the calories of the swimming workout of `main` are `323`, shown
as `323.00`; they do not round to `323.25`. -/
theorem Swimming.main_calories_not_323_25 :
    main.swimming.Calories = F64.fin 323
      ∧ fmtFixed2 main.swimming.Calories ≠ "323.25"
      ∧ IsRounded2 "323.25" 323 = false := by
  have hc : main.swimming.Calories = F64.fin 323 := by
    simp only [main.swimming, Swimming.Calories, Swimming.meanSpeed, Duration.Hours_eq,
      F64.ofInt, MInKm, SwimmingCaloriesMeanSpeedShift, SwimmingCaloriesWeightMultiplier,
      Duration.Minute]
    norm_num [F64.fin_div_fin, F64.fin_mul_fin, F64.fin_add_fin]
  refine ⟨hc, ?_, ?_⟩
  · rw [hc, fmtFixed2_fin_eq 323 32300 (by norm_num) (by norm_num)]
    decide
  · have h1 : readFixed2 "323.25" = some (false, 32325) := by decide
    simp only [IsRounded2, h1]
    norm_num [abs_le]

/-- C7, as amended: for the swimming workout of `main` the swimming mean speed is
`50 × 5 / 1000 / 1.5 = 1/6` km/h and `Swimming.Calories` is `323`, which the report line
shows as `323.00`. -/
theorem Swimming.main_calories_323 :
    main.swimming.meanSpeed = F64.fin (50 * 5 / 1000 / 1.5)
      ∧ main.swimming.Calories = F64.fin ((50 * 5 / 1000 / 1.5 + 1.1) * 2 * 85 * 1.5)
      ∧ main.swimming.Calories = F64.fin 323
      ∧ fmtFixed2 main.swimming.Calories = "323.00"
      ∧ ∀ fmtV : F64 → String,
          ReadData fmtV (CaloriesCalculator.swimming main.swimming)
            = "Тип тренировки: Плавание; Длительность: " ++ fmtV (F64.fin 90)
                ++ " мин; Дистанция: 2.76 км.; Ср. скорость: 1.84; Потрачено ккал: 323.00" := by
  have hs : main.swimming.meanSpeed = F64.fin (1 / 6) := by
    simp only [main.swimming, Swimming.meanSpeed, Duration.Hours_eq, F64.ofInt, MInKm,
      Duration.Minute]
    norm_num [F64.fin_div_fin, F64.fin_mul_fin]
  have hc : main.swimming.Calories = F64.fin 323 := by
    simp only [Swimming.Calories, hs, SwimmingCaloriesMeanSpeedShift,
      SwimmingCaloriesWeightMultiplier, Duration.Hours_eq]
    norm_num [main.swimming, Duration.Minute, F64.fin_mul_fin, F64.fin_add_fin]
  have hf : fmtFixed2 (F64.fin 323) = "323.00" := by
    rw [fmtFixed2_fin_eq 323 32300 (by norm_num) (by norm_num)]
    decide
  have hd : fmtFixed2 (F64.fin (69 / 25)) = "2.76" := by
    rw [fmtFixed2_fin_eq (69 / 25) 276 (by norm_num) (by norm_num)]
    decide
  have hv : fmtFixed2 (F64.fin (46 / 25)) = "1.84" := by
    rw [fmtFixed2_fin_eq (46 / 25) 184 (by norm_num) (by norm_num)]
    decide
  have hdist : main.swimming.toTraining.distance = F64.fin (69 / 25) := by
    simp only [main.swimming, Training.distance, F64.ofInt, MInKm, SwimmingLenStep]
    norm_num [F64.fin_div_fin, F64.fin_mul_fin]
  have hspeed : main.swimming.toTraining.meanSpeed = F64.fin (46 / 25) := by
    simp only [Training.meanSpeed, hdist, Duration.Hours_eq]
    norm_num [main.swimming, Duration.Minute, F64.fin_div_fin]
  refine ⟨?_, ?_, hc, ?_, ?_⟩
  · rw [hs]; norm_num
  · rw [hc]; norm_num
  · rw [hc, hf]
  · intro fmtV
    simp only [ReadData, CaloriesCalculator.Calories, CaloriesCalculator.TrainingInfo,
      Swimming.TrainingInfo, Training.TrainingInfo, InfoMessage.Message, hc, hf, hdist,
      hspeed, hd, hv, Duration.Minutes_eq]
    norm_num [main.swimming, Duration.Minute]
    simp only [String.append_assoc]
    rfl

/-- C8: for the running workout of `main` the distance of the summary is `3.25` km, its
mean speed is `3.25 / 0.5 = 6.5` km/h, and the calories that `ReadData` shows are
`(18 × 6.5 + 1.79) × 85 / 1000 × 0.5 × 60 = 302.9145`, printed as `302.91`. -/
theorem Running.running_scenario_main :
    main.running.TrainingInfo.Distance = F64.fin 3.25
      ∧ main.running.TrainingInfo.Speed = F64.fin (3.25 / 0.5)
      ∧ main.running.TrainingInfo.Speed = F64.fin 6.5
      ∧ (CaloriesCalculator.running main.running).Calories
          = F64.fin ((18 * 6.5 + 1.79) * 85 / 1000 * 0.5 * 60)
      ∧ (CaloriesCalculator.running main.running).Calories = F64.fin 302.9145
      ∧ ∀ fmtV : F64 → String,
          ReadData fmtV (CaloriesCalculator.running main.running)
            = "Тип тренировки: Бег; Длительность: " ++ fmtV (F64.fin 30)
                ++ " мин; Дистанция: 3.25 км.; Ср. скорость: 6.50; Потрачено ккал: 302.91" := by
  have hdist : main.running.toTraining.distance = F64.fin (13 / 4) := by
    simp only [main.running, Training.distance, F64.ofInt, MInKm, LenStep]
    norm_num [F64.fin_div_fin, F64.fin_mul_fin]
  have hspeed : main.running.toTraining.meanSpeed = F64.fin (13 / 2) := by
    simp only [Training.meanSpeed, hdist, Duration.Hours_eq]
    norm_num [main.running, Duration.Minute, F64.fin_div_fin]
  have hc : main.running.Calories = F64.fin (605829 / 2000) := by
    simp only [Running.Calories, hspeed, Duration.Hours_eq, MInKm, MinInHours,
      CaloriesMeanSpeedMultiplier, CaloriesMeanSpeedShift]
    norm_num [main.running, Duration.Minute, F64.fin_div_fin, F64.fin_mul_fin,
      F64.fin_add_fin]
  have hfd : fmtFixed2 (F64.fin (13 / 4)) = "3.25" := by
    rw [fmtFixed2_fin_eq (13 / 4) 325 (by norm_num) (by norm_num)]
    decide
  have hfs : fmtFixed2 (F64.fin (13 / 2)) = "6.50" := by
    rw [fmtFixed2_fin_eq (13 / 2) 650 (by norm_num) (by norm_num)]
    decide
  have hfc : fmtFixed2 (F64.fin (605829 / 2000)) = "302.91" := by
    rw [fmtFixed2_fin_eq (605829 / 2000) 30291 (by norm_num)
      (by rw [abs_lt]; constructor <;> norm_num)]
    decide
  refine ⟨?_, ?_, ?_, ?_, ?_, ?_⟩
  · show main.running.toTraining.distance = _
    rw [hdist]; norm_num
  · show main.running.toTraining.meanSpeed = _
    rw [hspeed]; norm_num
  · show main.running.toTraining.meanSpeed = _
    rw [hspeed]; norm_num
  · show main.running.Calories = _
    rw [hc]; norm_num
  · show main.running.Calories = _
    rw [hc]; norm_num
  · intro fmtV
    simp only [ReadData, CaloriesCalculator.Calories, CaloriesCalculator.TrainingInfo,
      Running.TrainingInfo, Training.TrainingInfo, InfoMessage.Message, hc, hdist, hspeed,
      hfd, hfs, hfc, Duration.Minutes_eq]
    norm_num [main.running, Duration.Minute]
    simp only [String.append_assoc]
    rfl

/-- C9: for the walking workout of `main` the distance of the summary is
`20000 × 0.65 / 1000 = 13` km, its mean speed is `13 / 3.75` km/h, and the calories that
`ReadData` shows are the walking formula at mean speed `13 / 3.75`, weight `85`, height
`185` and `3.75` hours, printed as `947.82`. -/
theorem Walking.walking_scenario_main :
    main.walking.TrainingInfo.Distance = F64.fin (20000 * 0.65 / 1000)
      ∧ main.walking.TrainingInfo.Distance = F64.fin 13
      ∧ main.walking.TrainingInfo.Speed = F64.fin (13 / 3.75)
      ∧ Duration.Hours main.walking.Duration = F64.fin 3.75
      ∧ Duration.Minutes main.walking.Duration = F64.fin 225
      ∧ (CaloriesCalculator.walking main.walking).Calories
          = F64.fin ((0.035 * 85 + (13 / 3.75 * 0.278) ^ 2 / (185 / 100) * 0.029 * 85)
              * 3.75 * 60)
      ∧ ∀ fmtV : F64 → String,
          ReadData fmtV (CaloriesCalculator.walking main.walking)
            = "Тип тренировки: Ходьба; Длительность: " ++ fmtV (F64.fin 225)
                ++ " мин; Дистанция: 13.00 км.; Ср. скорость: 3.47; Потрачено ккал: 947.82" := by
  have hh : Duration.Hours main.walking.Duration = F64.fin (15 / 4) := by
    rw [Duration.Hours_eq]
    norm_num [main.walking, Duration.Minute, Duration.Hour]
  have hm : Duration.Minutes main.walking.Duration = F64.fin 225 := by
    rw [Duration.Minutes_eq]
    norm_num [main.walking, Duration.Minute, Duration.Hour]
  have hdist : main.walking.toTraining.distance = F64.fin 13 := by
    simp only [main.walking, Training.distance, F64.ofInt, MInKm, LenStep]
    norm_num [F64.fin_div_fin, F64.fin_mul_fin]
  have hspeed : main.walking.toTraining.meanSpeed = F64.fin (52 / 15) := by
    simp only [Training.meanSpeed, hdist, hh]
    norm_num [F64.fin_div_fin]
  have hc : main.walking.Calories = F64.fin (21918367903 / 23125000) := by
    simp only [Walking.Calories, hspeed, hh, MinInHours, CaloriesWeightMultiplier,
      CaloriesSpeedHeightMultiplier, KmHInMsec, CmInM]
    norm_num [main.walking, F64.fin_div_fin, F64.fin_mul_fin, F64.fin_add_fin, F64.pow2_fin]
  have hfd : fmtFixed2 (F64.fin 13) = "13.00" := by
    rw [fmtFixed2_fin_eq 13 1300 (by norm_num) (by norm_num)]
    decide
  have hfs : fmtFixed2 (F64.fin (52 / 15)) = "3.47" := by
    rw [fmtFixed2_fin_eq (52 / 15) 347 (by norm_num)
      (by rw [abs_lt]; constructor <;> norm_num)]
    decide
  have hfc : fmtFixed2 (F64.fin (21918367903 / 23125000)) = "947.82" := by
    rw [fmtFixed2_fin_eq (21918367903 / 23125000) 94782 (by norm_num)
      (by rw [abs_lt]; constructor <;> norm_num)]
    decide
  refine ⟨?_, ?_, ?_, ?_, hm, ?_, ?_⟩
  · show main.walking.toTraining.distance = _
    rw [hdist]; norm_num
  · exact hdist
  · show main.walking.toTraining.meanSpeed = _
    rw [hspeed]; norm_num
  · rw [hh]; norm_num
  · show main.walking.Calories = _
    rw [hc]; norm_num
  · intro fmtV
    simp only [ReadData, CaloriesCalculator.Calories, CaloriesCalculator.TrainingInfo,
      Walking.TrainingInfo, Training.TrainingInfo, InfoMessage.Message, hc, hdist, hspeed,
      hfd, hfs, hfc, hm]
    simp only [main.walking, String.append_assoc]
    rfl

/-! ## Comparisons with zero -/

/-- A non-negative float divided by a non-negative number of hours is non-negative, unless
both are zero. -/
theorem F64.le_zero_div (x : F64) (h : ℚ) (hx : F64.le (F64.fin 0) x = true) (hh : 0 ≤ h)
    (hne : h ≠ 0 ∨ x ≠ F64.fin 0) : F64.le (F64.fin 0) (x / F64.fin h) = true := by
  show F64.le (F64.fin 0) (F64.div x (F64.fin h)) = true
  cases x with
  | nan => simp [F64.le] at hx
  | inf b =>
    cases b with
    | true => simp [F64.le] at hx
    | false => simp [F64.div, F64.le, hh]
  | fin a =>
    have ha : 0 ≤ a := by simpa [F64.le] using hx
    by_cases h0 : h = 0
    · subst h0
      have ha0 : a ≠ 0 := by
        rcases hne with hne | hne
        · exact absurd rfl hne
        · intro h; apply hne; rw [h]
      have : ¬ a < 0 := not_lt.2 ha
      simp [F64.div, F64.le, ha0, this]
    · simp only [F64.div, h0, if_false, F64.le, decide_eq_true_eq]
      exact div_nonneg ha hh

/-! ## Closed forms for finite inputs -/

/-- The distance of a workout with a finite step length. -/
theorem Training.distance_fin (t : Training) (l : ℚ) (hl : t.LenStep = F64.fin l) :
    t.distance = F64.fin ((t.Action : ℚ) * l / 1000) := by
  simp only [Training.distance, hl, F64.ofInt, MInKm, F64.fin_mul_fin,
    F64.fin_div_fin _ _ (by norm_num : (1000 : ℚ) ≠ 0)]

/-- The base mean speed of a workout with a finite distance and a non-zero duration. -/
theorem Training.meanSpeed_fin (t : Training) (D : ℚ) (hD : t.distance = F64.fin D)
    (hd : t.Duration ≠ 0) :
    t.meanSpeed = F64.fin (D / ((t.Duration : ℚ) / 3600000000000)) := by
  simp only [Training.meanSpeed, hD, Duration.Hours_eq,
    F64.fin_div_fin _ _ (Duration.hours_ne_zero t.Duration hd)]

/-- The calories of a run with a finite distance and weight and a non-zero duration. -/
theorem Running.running_calories_fin (r : Running) (D w : ℚ)
    (hD : r.toTraining.distance = F64.fin D)
    (hw : r.Weight = F64.fin w) (hd : r.Duration ≠ 0) :
    r.Calories
      = F64.fin ((18 * (D / ((r.Duration : ℚ) / 3600000000000)) + 1.79) * w / 1000
          * ((r.Duration : ℚ) / 3600000000000) * 60) := by
  simp only [Running.Calories, Training.meanSpeed_fin _ D hD hd, hw, Duration.Hours_eq,
    MInKm, MinInHours, CaloriesMeanSpeedMultiplier, CaloriesMeanSpeedShift, F64.fin_mul_fin,
    F64.fin_add_fin, F64.fin_div_fin _ _ (by norm_num : (1000 : ℚ) ≠ 0)]

/-! ## C11 -/

/-- C11, as stated, fails: with zero units and a zero duration the distance is `0` and the
duration is `0`, both non-negative, and the mean speed is `0 / 0 = NaN`, which is not
non-negative; the same holds for the swimming mean speed with an empty pool count. -/
theorem meanSpeed_zero_over_zero :
    F64.le (F64.fin 0) ({ main.running with Action := 0, Duration := 0 } : Running).distance
        = true
      ∧ (0 : Int) ≤ ({ main.running with Action := 0, Duration := 0 } : Running).Duration
      ∧ ({ main.running with Action := 0, Duration := 0 } : Running).toTraining.meanSpeed
          = F64.nan
      ∧ F64.le (F64.fin 0)
          ({ main.running with Action := 0, Duration := 0 } : Running).toTraining.meanSpeed
          = false
      ∧ F64.le (F64.fin 0)
          (F64.ofInt ({ main.swimming with CountPool := 0, Duration := 0 } : Swimming).LengthPool
            * F64.ofInt ({ main.swimming with CountPool := 0, Duration := 0 } : Swimming).CountPool
            / F64.fin MInKm)
          = true
      ∧ ({ main.swimming with CountPool := 0, Duration := 0 } : Swimming).meanSpeed = F64.nan
      ∧ F64.le (F64.fin 0)
          ({ main.swimming with CountPool := 0, Duration := 0 } : Swimming).meanSpeed
          = false := by
  have h1 : ({ main.running with Action := 0, Duration := 0 } : Running).toTraining.distance
      = F64.fin 0 := by
    simp only [main.running, Training.distance, F64.ofInt, MInKm, LenStep]
    norm_num [F64.fin_div_fin, F64.fin_mul_fin]
  have h2 : ({ main.running with Action := 0, Duration := 0 } : Running).toTraining.meanSpeed
      = F64.nan := by
    simp only [Training.meanSpeed, h1, Duration.Hours_eq]
    norm_num [main.running]
    rfl
  have h3 : ({ main.swimming with CountPool := 0, Duration := 0 } : Swimming).meanSpeed
      = F64.nan := by
    simp only [main.swimming, Swimming.meanSpeed, Duration.Hours_eq, F64.ofInt, MInKm]
    norm_num [F64.fin_div_fin, F64.fin_mul_fin]
    rfl
  refine ⟨?_, le_refl _, h2, ?_, ?_, h3, ?_⟩
  · show F64.le (F64.fin 0)
      ({ main.running with Action := 0, Duration := 0 } : Running).toTraining.distance = true
    rw [h1]
    simp [F64.le]
  · rw [h2]; rfl
  · simp only [main.swimming, F64.ofInt, MInKm]
    norm_num [F64.fin_div_fin, F64.fin_mul_fin, F64.le]
  · rw [h3]; rfl

/-- C11, as amended: the base mean speed (used by running and walking) and the swimming
mean speed are non-negative whenever the distance they are computed from is non-negative
and the duration is non-negative, unless both are zero. -/
theorem meanSpeed_nonneg :
    (∀ t : Training, F64.le (F64.fin 0) t.distance = true → 0 ≤ t.Duration →
        (t.Duration ≠ 0 ∨ t.distance ≠ F64.fin 0) →
        F64.le (F64.fin 0) t.meanSpeed = true)
      ∧ (∀ s : Swimming,
        F64.le (F64.fin 0) (F64.ofInt s.LengthPool * F64.ofInt s.CountPool / F64.fin MInKm)
          = true →
        0 ≤ s.Duration →
        (s.Duration ≠ 0
          ∨ F64.ofInt s.LengthPool * F64.ofInt s.CountPool / F64.fin MInKm ≠ F64.fin 0) →
        F64.le (F64.fin 0) s.meanSpeed = true) := by
  have key : ∀ d : Duration, 0 ≤ d →
      (0 : ℚ) ≤ (d : ℚ) / 3600000000000 ∧ (d ≠ 0 → (d : ℚ) / 3600000000000 ≠ 0) := by
    intro d hd
    have : (0 : ℚ) ≤ (d : ℚ) := by exact_mod_cast hd
    exact ⟨div_nonneg this (by norm_num), Duration.hours_ne_zero d⟩
  constructor
  · intro t hx hd hne
    obtain ⟨h0, h1⟩ := key t.Duration hd
    simp only [Training.meanSpeed, Duration.Hours_eq]
    exact F64.le_zero_div _ _ hx h0 (hne.imp h1 id)
  · intro s hx hd hne
    obtain ⟨h0, h1⟩ := key s.Duration hd
    simp only [Swimming.meanSpeed, Duration.Hours_eq]
    exact F64.le_zero_div _ _ hx h0 (hne.imp h1 id)

/-- C11, as amended, at the running and the swimming workout of `main`. -/
theorem meanSpeed_nonneg_witness :
    F64.le (F64.fin 0) main.running.toTraining.meanSpeed = true
      ∧ F64.le (F64.fin 0) main.swimming.meanSpeed = true := by
  have hr : main.running.toTraining.distance = F64.fin (13 / 4) := by
    simp only [main.running, Training.distance, F64.ofInt, MInKm, LenStep]
    norm_num [F64.fin_div_fin, F64.fin_mul_fin]
  have hs : F64.ofInt main.swimming.LengthPool * F64.ofInt main.swimming.CountPool
      / F64.fin MInKm = F64.fin (1 / 4) := by
    simp only [main.swimming, F64.ofInt, MInKm]
    norm_num [F64.fin_div_fin, F64.fin_mul_fin]
  refine ⟨meanSpeed_nonneg.1 main.running.toTraining ?_ (by decide)
      (Or.inl (by decide)),
    meanSpeed_nonneg.2 main.swimming ?_ (by decide) (Or.inl (by decide))⟩
  · rw [hr]; norm_num [F64.le]
  · rw [hs]; norm_num [F64.le]

/-! ## C13 -/

/-- C13: for every kind and every workout the `Calories` field of the summary returned by
`TrainingInfo` is the placeholder `0` of `Training.Calories`, whatever the formula of the
kind gives (for the run of `main`: `302.9145`); the calories of a report are those that
`ReadData` writes over it. -/
theorem TrainingInfo_calories_placeholder :
    (∀ t : Training, t.TrainingInfo.Calories = F64.fin 0)
      ∧ (∀ r : Running, r.TrainingInfo.Calories = F64.fin 0)
      ∧ (∀ w : Walking, w.TrainingInfo.Calories = F64.fin 0)
      ∧ (∀ s : Swimming, s.TrainingInfo.Calories = F64.fin 0)
      ∧ (∀ x : CaloriesCalculator, x.TrainingInfo.Calories = F64.fin 0)
      ∧ (∀ (fmtV : F64 → String) (x : CaloriesCalculator),
          ReadData fmtV x
            = InfoMessage.Message fmtV { x.TrainingInfo with Calories := x.Calories })
      ∧ main.running.Calories = F64.fin 302.9145
      ∧ main.running.TrainingInfo.Calories ≠ main.running.Calories := by
  have hc : main.running.Calories = F64.fin 302.9145 := by
    have hd : main.running.toTraining.distance = F64.fin (13 / 4) := by
      rw [Training.distance_fin _ LenStep rfl]
      norm_num [main.running, LenStep]
    rw [Running.running_calories_fin main.running (13 / 4) 85 hd rfl (by decide)]
    norm_num [main.running, Duration.Minute]
  refine ⟨fun _ => rfl, fun _ => rfl, fun _ => rfl, fun _ => rfl, ?_, fun _ _ => rfl, hc, ?_⟩
  · intro x
    cases x <;> rfl
  · rw [hc]
    show F64.fin 0 ≠ F64.fin 302.9145
    intro h
    injection h with h
    norm_num at h

/-! ## C15 -/

/-- C15: two swimming workouts that agree on duration, weight, pool length and pool count
have the same swimming mean speed and the same calories, whatever their unit counts and
per-unit lengths. -/
theorem Swimming.units_are_dead_data (s₁ s₂ : Swimming) (hd : s₁.Duration = s₂.Duration)
    (hw : s₁.Weight = s₂.Weight) (hl : s₁.LengthPool = s₂.LengthPool)
    (hc : s₁.CountPool = s₂.CountPool) :
    s₁.meanSpeed = s₂.meanSpeed ∧ s₁.Calories = s₂.Calories := by
  have h : s₁.meanSpeed = s₂.meanSpeed := by
    simp only [Swimming.meanSpeed, hd, hl, hc]
  exact ⟨h, by simp only [Swimming.Calories, h, hd, hw]⟩

/-- C15, at the swimming workout of `main` against the same workout with `4000` strokes
of `0.65` m. -/
theorem Swimming.units_are_dead_data_witness :
    main.swimming.Action ≠ main.swimmingOtherUnits.Action
      ∧ main.swimming.LenStep ≠ main.swimmingOtherUnits.LenStep
      ∧ main.swimming.meanSpeed = main.swimmingOtherUnits.meanSpeed
      ∧ main.swimming.Calories = main.swimmingOtherUnits.Calories := by
  refine ⟨by decide, ?_,
    Swimming.units_are_dead_data main.swimming main.swimmingOtherUnits rfl rfl rfl rfl⟩
  show F64.fin SwimmingLenStep ≠ F64.fin LenStep
  intro h
  injection h with h
  norm_num [SwimmingLenStep, LenStep] at h

/-! ## C16 -/

/-- C16: the summary depends only on the embedded `Training`: a `Running`, a `Walking` and
a `Swimming` value that embed the same `Training` have the same summary, whatever the
height, the pool length and the pool count; its distance is `Action × LenStep / 1000` and
its speed is that distance divided by the hours. -/
theorem TrainingInfo_depends_on_base (t : Training) (height : F64)
    (lengthPool countPool : Int) :
    Running.TrainingInfo { toTraining := t } = t.TrainingInfo
      ∧ Walking.TrainingInfo { toTraining := t, Height := height } = t.TrainingInfo
      ∧ Swimming.TrainingInfo
          { toTraining := t, LengthPool := lengthPool, CountPool := countPool }
        = t.TrainingInfo
      ∧ t.TrainingInfo.TrainingType = t.TrainingType
      ∧ t.TrainingInfo.Duration = t.Duration
      ∧ t.TrainingInfo.Distance = F64.ofInt t.Action * t.LenStep / F64.fin 1000
      ∧ t.TrainingInfo.Speed = t.TrainingInfo.Distance / Duration.Hours t.Duration
      ∧ Duration.Hours t.Duration = F64.fin ((t.Duration : ℚ) / 3600000000000) :=
  ⟨rfl, rfl, rfl, rfl, rfl, rfl, rfl, Duration.Hours_eq _⟩

/-! # Binary64 arithmetic

The theorems below are about the computations with every operation rounded to binary64. -/

/-! ## Rounding to an integer -/

/-- Rounding does not go below a natural number below the argument. -/
theorem roundHalfEven_ge (x : ℚ) (N : ℕ) (h : (N : ℚ) ≤ x) : N ≤ roundHalfEven x := by
  have hx : 0 ≤ x := le_trans (Nat.cast_nonneg N) h
  have hs := roundHalfEven_spec x hx
  rw [abs_le] at hs
  have h1 : ((N : ℤ) : ℚ) - 1 < ((roundHalfEven x : ℤ) : ℚ) := by
    push_cast
    linarith [hs.1]
  have h2 : (N : ℤ) - 1 < (roundHalfEven x : ℤ) := by exact_mod_cast h1
  omega

/-- Rounding does not go above a natural number above the argument. -/
theorem roundHalfEven_le (x : ℚ) (N : ℕ) (hx : 0 ≤ x) (h : x ≤ (N : ℚ)) :
    roundHalfEven x ≤ N := by
  have hs := roundHalfEven_spec x hx
  rw [abs_le] at hs
  have h1 : ((roundHalfEven x : ℤ) : ℚ) < ((N : ℤ) : ℚ) + 1 := by
    push_cast
    linarith [hs.2]
  have h2 : (roundHalfEven x : ℤ) < (N : ℤ) + 1 := by exact_mod_cast h1
  omega

/-- A natural number rounds to itself. -/
theorem roundHalfEven_natCast (N : ℕ) : roundHalfEven (N : ℚ) = N :=
  roundHalfEven_of_close N N (Nat.cast_nonneg N) (by simp)

/-- A number up to one half rounds to zero: the tie goes to the even neighbour. -/
theorem roundHalfEven_le_half (x : ℚ) (hx : 0 ≤ x) (h : x ≤ 1 / 2) : roundHalfEven x = 0 := by
  have hf : ⌊x⌋ = 0 := by
    rw [Int.floor_eq_iff]
    constructor
    · simpa using hx
    · norm_num; linarith
  unfold roundHalfEven
  simp only [hf, Int.toNat_zero, Nat.cast_zero, sub_zero]
  split_ifs with h1 h2
  · rfl
  · linarith
  · rfl

/-- A number above one half rounds to at least one. -/
theorem roundHalfEven_pos (x : ℚ) (h : 1 / 2 < x) : 1 ≤ roundHalfEven x := by
  have hx : 0 ≤ x := by linarith
  have hs := roundHalfEven_spec x hx
  rw [abs_le] at hs
  have h1 : ((0 : ℤ) : ℚ) < ((roundHalfEven x : ℤ) : ℚ) := by
    push_cast
    linarith [hs.1]
  have h2 : (0 : ℤ) < (roundHalfEven x : ℤ) := by exact_mod_cast h1
  omega

/-! ## The binade of a number -/

namespace F64

theorem two_zpow_pos (k : ℤ) : (0 : ℚ) < 2 ^ k := by positivity

theorem two_zpow_le {a b : ℤ} (h : a ≤ b) : (2 : ℚ) ^ a ≤ 2 ^ b :=
  zpow_le_zpow_right₀ (by norm_num) h

theorem two_zpow_lt {a b : ℤ} (h : a < b) : (2 : ℚ) ^ a < 2 ^ b :=
  zpow_lt_zpow_right₀ (by norm_num) h

/-- The binade of a number between two consecutive powers of two, normal range. -/
theorem binade_eq (q : ℚ) (e : ℤ) (he : -1022 ≤ e) (hlo : (2 : ℚ) ^ e ≤ |q|)
    (hhi : |q| < 2 ^ (e + 1)) : binade q = e := by
  have hpos : 0 < |q| := lt_of_lt_of_le (two_zpow_pos e) hlo
  have h1 : e ≤ Int.log 2 |q| := (Int.zpow_le_iff_le_log (by norm_num) hpos).1 (by exact_mod_cast hlo)
  have h2 : Int.log 2 |q| < e + 1 :=
    (Int.lt_zpow_iff_log_lt (by norm_num) hpos).1 (by exact_mod_cast hhi)
  unfold binade
  rw [max_eq_left (by omega)]
  omega

/-- The binade of a non-zero number below the smallest normal number. -/
theorem binade_subnormal (q : ℚ) (h0 : q ≠ 0) (h : |q| < 2 ^ (-1022 : ℤ)) :
    binade q = -1022 := by
  unfold binade
  apply max_eq_right
  have hpos : 0 < |q| := abs_pos.2 h0
  have : Int.log 2 |q| < -1022 :=
    (Int.lt_zpow_iff_log_lt (by norm_num) hpos).1 (by exact_mod_cast h)
  omega

/-- The binade is at least that of the subnormal numbers. -/
theorem binade_ge (q : ℚ) : -1022 ≤ binade q := le_max_right _ _

/-- A number is below the top of its binade. -/
theorem abs_lt_binade (q : ℚ) : |q| < 2 ^ (binade q + 1) := by
  have h := Int.lt_zpow_succ_log_self (b := 2) (by norm_num) |q|
  have h' : |q| < (2 : ℚ) ^ (Int.log 2 |q| + 1) := by exact_mod_cast h
  exact lt_of_lt_of_le h' (two_zpow_le (by unfold binade; have := le_max_left (Int.log 2 |q|) (-1022); omega))

/-- A normal number is at least the bottom of its binade. -/
theorem binade_le_abs (q : ℚ) (h : (2 : ℚ) ^ (-1022 : ℤ) ≤ |q|) : (2 : ℚ) ^ binade q ≤ |q| := by
  have hpos : 0 < |q| := lt_of_lt_of_le (two_zpow_pos _) h
  have h1 : (-1022 : ℤ) ≤ Int.log 2 |q| :=
    (Int.zpow_le_iff_le_log (by norm_num) hpos).1 (by exact_mod_cast h)
  have h2 : binade q = Int.log 2 |q| := by
    unfold binade
    exact max_eq_left h1
  rw [h2]
  have := Int.zpow_log_le_self (b := 2) (by norm_num) hpos
  exact_mod_cast this

theorem ulp_pos (q : ℚ) : 0 < ulp q := two_zpow_pos _

/-- Rounding of zero. -/
theorem round_zero : round 0 = fin 0 := by
  have h : roundHalfEven 0 = 0 := roundHalfEven_le_half 0 le_rfl (by norm_num)
  simp only [round, roundMag, abs_zero, zero_div, h]
  norm_num

end F64

/-! ## The rounded magnitude -/

namespace F64

theorem roundMag_nonneg (q : ℚ) : 0 ≤ roundMag q :=
  mul_nonneg (Nat.cast_nonneg _) (le_of_lt (ulp_pos q))

/-- A power of two, as a natural number. -/
theorem two_zpow_natCast (j : ℤ) (hj : 0 ≤ j) : (2 : ℚ) ^ j = ((2 ^ j.toNat : ℕ) : ℚ) := by
  obtain ⟨n, rfl⟩ := Int.eq_ofNat_of_zero_le hj
  simp

/-- The quotient of two powers of two. -/
theorem two_zpow_div (a b : ℤ) : (2 : ℚ) ^ a / 2 ^ b = 2 ^ (a - b) := by
  rw [zpow_sub₀ (by norm_num)]

/-- The rounded magnitude is at least a power of two that is a multiple of the spacing and
at most the magnitude. -/
theorem roundMag_ge (q : ℚ) (k : ℤ) (hk : binade q - 52 ≤ k) (hq : (2 : ℚ) ^ k ≤ |q|) :
    (2 : ℚ) ^ k ≤ roundMag q := by
  have hu := ulp_pos q
  have hN : (2 : ℚ) ^ (k - (binade q - 52)) = ((2 ^ (k - (binade q - 52)).toNat : ℕ) : ℚ) :=
    two_zpow_natCast _ (by omega)
  have h1 : ((2 ^ (k - (binade q - 52)).toNat : ℕ) : ℚ) ≤ |q| / ulp q := by
    rw [← hN, ← two_zpow_div]
    exact div_le_div_of_nonneg_right hq (le_of_lt hu)
  have h2 := roundHalfEven_ge _ _ h1
  have h3 : ((2 ^ (k - (binade q - 52)).toNat : ℕ) : ℚ) ≤ (roundHalfEven (|q| / ulp q) : ℚ) := by
    exact_mod_cast h2
  have h4 : (2 : ℚ) ^ k = ((2 ^ (k - (binade q - 52)).toNat : ℕ) : ℚ) * ulp q := by
    rw [← hN]
    unfold ulp
    rw [← zpow_add₀ (by norm_num)]
    congr 1
    ring
  rw [h4]
  exact mul_le_mul_of_nonneg_right h3 (le_of_lt hu)

/-- The rounded magnitude is at most a power of two that is a multiple of the spacing and
at least the magnitude. -/
theorem roundMag_le (q : ℚ) (k : ℤ) (hk : binade q - 52 ≤ k) (hq : |q| ≤ (2 : ℚ) ^ k) :
    roundMag q ≤ (2 : ℚ) ^ k := by
  have hu := ulp_pos q
  have hN : (2 : ℚ) ^ (k - (binade q - 52)) = ((2 ^ (k - (binade q - 52)).toNat : ℕ) : ℚ) :=
    two_zpow_natCast _ (by omega)
  have h1 : |q| / ulp q ≤ ((2 ^ (k - (binade q - 52)).toNat : ℕ) : ℚ) := by
    rw [← hN, ← two_zpow_div]
    exact div_le_div_of_nonneg_right hq (le_of_lt hu)
  have h2 := roundHalfEven_le _ _ (div_nonneg (abs_nonneg q) (le_of_lt hu)) h1
  have h3 : (roundHalfEven (|q| / ulp q) : ℚ) ≤ ((2 ^ (k - (binade q - 52)).toNat : ℕ) : ℚ) := by
    exact_mod_cast h2
  have h4 : (2 : ℚ) ^ k = ((2 ^ (k - (binade q - 52)).toNat : ℕ) : ℚ) * ulp q := by
    rw [← hN]
    unfold ulp
    rw [← zpow_add₀ (by norm_num)]
    congr 1
    ring
  rw [h4]
  exact mul_le_mul_of_nonneg_right h3 (le_of_lt hu)

/-- The rounded magnitude is within half a spacing of the magnitude. -/
theorem roundMag_err (q : ℚ) : abs (roundMag q - abs q) ≤ ulp q / 2 := by
  have hu := ulp_pos q
  have hs := roundHalfEven_spec (|q| / ulp q) (div_nonneg (abs_nonneg q) (le_of_lt hu))
  have e : roundMag q - |q| = ((roundHalfEven (|q| / ulp q) : ℚ) - |q| / ulp q) * ulp q := by
    unfold roundMag
    field_simp
  rw [e, abs_mul, abs_of_pos hu]
  calc abs ((roundHalfEven (|q| / ulp q) : ℚ) - |q| / ulp q) * ulp q
      ≤ 1 / 2 * ulp q := mul_le_mul_of_nonneg_right hs (le_of_lt hu)
    _ = ulp q / 2 := by ring

/-- Evaluation of the rounded magnitude from the binade and the nearest mantissa. -/
theorem roundMag_eq (q : ℚ) (e : ℤ) (m : ℕ) (hb : binade q = e)
    (hm : abs (abs q / 2 ^ (e - 52) - m) < 1 / 2) : roundMag q = m * 2 ^ (e - 52) := by
  unfold roundMag ulp
  rw [hb, roundHalfEven_of_close _ m (div_nonneg (abs_nonneg q) (le_of_lt (two_zpow_pos _))) hm]

/-- Doubling a normal number doubles its rounded magnitude. -/
theorem roundMag_two_mul (q : ℚ) (hq : (2 : ℚ) ^ (-1022 : ℤ) ≤ |q|) :
    roundMag (2 * q) = 2 * roundMag q := by
  have h2 : |2 * q| = 2 * |q| := by rw [abs_mul]; norm_num
  have hb : binade (2 * q) = binade q + 1 := by
    apply binade_eq _ _ (by have := binade_ge q; omega)
    · rw [h2, zpow_add_one₀ (by norm_num)]
      linarith [binade_le_abs q hq]
    · rw [h2, zpow_add_one₀ (by norm_num : (2 : ℚ) ≠ 0) (binade q + 1)]
      linarith [abs_lt_binade q]
  have hu : ulp (2 * q) = 2 * ulp q := by
    unfold ulp
    rw [hb, show binade q + 1 - 52 = (binade q - 52) + 1 by ring, zpow_add_one₀ (by norm_num)]
    ring
  unfold roundMag
  rw [hu, h2]
  have hne : ulp q ≠ 0 := ne_of_gt (ulp_pos q)
  have : 2 * |q| / (2 * ulp q) = |q| / ulp q := by
    field_simp
    ring
  rw [this]
  ring

end F64

/-! ## Rounding of positive numbers -/

namespace F64

/-- Rounding of a non-negative number, unfolded. -/
theorem round_of_nonneg (x : ℚ) (hx : 0 ≤ x) :
    round x = if (2 : ℚ) ^ (1024 : ℤ) ≤ roundMag x then inf false else fin (roundMag x) := by
  have h : ¬ x < 0 := not_lt.2 hx
  simp [round, h]

/-- The spacing at a positive number is at most any power of two, down to the smallest
subnormal, that the number reaches. -/
theorem binade_sub_le_of_le (x : ℚ) (k : ℤ) (hk : -1074 ≤ k) (hx0 : 0 < x) (hx : x ≤ 2 ^ k) :
    binade x - 52 ≤ k := by
  by_cases hn : (2 : ℚ) ^ (-1022 : ℤ) ≤ |x|
  · have h1 := binade_le_abs x hn
    rw [abs_of_pos hx0] at h1
    have h2 : (2 : ℚ) ^ binade x ≤ 2 ^ k := le_trans h1 hx
    have h3 : binade x ≤ k := by
      by_contra hc
      exact absurd h2 (not_le.2 (two_zpow_lt (not_le.1 hc)))
    omega
  · rw [binade_subnormal x (ne_of_gt hx0) (not_le.1 hn)]
    omega

/-- A positive number at least `2 ^ k`, for `k` down to the smallest subnormal, rounds to a
number at least `2 ^ k`. -/
theorem roundMag_ge_of_le (x : ℚ) (k : ℤ) (hk : -1074 ≤ k) (hx : (2 : ℚ) ^ k ≤ x) :
    (2 : ℚ) ^ k ≤ roundMag x := by
  have hx0 : 0 < x := lt_of_lt_of_le (two_zpow_pos k) hx
  by_cases hn : (2 : ℚ) ^ (-1022 : ℤ) ≤ |x|
  · have h1 := binade_le_abs x hn
    have h2 := roundMag_ge x (binade x) (by omega) h1
    have h3 : k ≤ binade x := by
      by_contra hc
      have h4 := abs_lt_binade x
      rw [abs_of_pos hx0] at h4
      have h5 : (2 : ℚ) ^ (binade x + 1) ≤ 2 ^ k := two_zpow_le (by omega)
      linarith
    exact le_trans (two_zpow_le h3) h2
  · have hb := binade_subnormal x (ne_of_gt hx0) (not_le.1 hn)
    apply roundMag_ge x k (by rw [hb]; omega)
    rw [abs_of_pos hx0]
    exact hx

theorem round_nonneg (x : ℚ) (hx : 0 ≤ x) : NonNeg (round x) := by
  rw [round_of_nonneg x hx]
  split_ifs with h
  · rfl
  · exact roundMag_nonneg x

theorem round_atLeast (x : ℚ) (k : ℤ) (hk : -1074 ≤ k) (hx : (2 : ℚ) ^ k ≤ x) :
    AtLeast k (round x) := by
  have hx0 : 0 < x := lt_of_lt_of_le (two_zpow_pos k) hx
  rw [round_of_nonneg x (le_of_lt hx0)]
  split_ifs with h
  · rfl
  · exact roundMag_ge_of_le x k hk hx

theorem round_within (x : ℚ) (a b : ℤ) (ha : -1074 ≤ a) (hb : b ≤ 1023)
    (hlo : (2 : ℚ) ^ a ≤ x) (hhi : x ≤ (2 : ℚ) ^ b) : Within a b (round x) := by
  have hx0 : 0 < x := lt_of_lt_of_le (two_zpow_pos a) hlo
  have hab : a ≤ b := by
    by_contra hc
    have := two_zpow_lt (not_le.1 hc)
    linarith
  have h1 : roundMag x ≤ (2 : ℚ) ^ b := by
    apply roundMag_le x b (binade_sub_le_of_le x b (by omega) hx0 hhi)
    rw [abs_of_pos hx0]
    exact hhi
  have h2 : ¬ (2 : ℚ) ^ (1024 : ℤ) ≤ roundMag x := by
    have : (2 : ℚ) ^ b < 2 ^ (1024 : ℤ) := two_zpow_lt (by omega)
    intro h
    linarith
  rw [round_of_nonneg x (le_of_lt hx0), if_neg h2]
  exact ⟨roundMag_ge_of_le x a ha hlo, h1⟩

/-- A positive number up to `2 ^ b` rounds to a non-negative number up to `2 ^ b`. -/
theorem round_le (x : ℚ) (b : ℤ) (hb1 : -1074 ≤ b) (hb : b ≤ 1023) (hx0 : 0 ≤ x)
    (hhi : x ≤ (2 : ℚ) ^ b) : ∃ r : ℚ, round x = fin r ∧ 0 ≤ r ∧ r ≤ (2 : ℚ) ^ b := by
  rcases eq_or_lt_of_le hx0 with h0 | h0
  · subst h0
    exact ⟨0, round_zero, le_rfl, le_of_lt (two_zpow_pos b)⟩
  · have h1 : roundMag x ≤ (2 : ℚ) ^ b := by
      apply roundMag_le x b (binade_sub_le_of_le x b hb1 h0 hhi)
      rw [abs_of_pos h0]
      exact hhi
    have h2 : ¬ (2 : ℚ) ^ (1024 : ℤ) ≤ roundMag x := by
      have : (2 : ℚ) ^ b < 2 ^ (1024 : ℤ) := two_zpow_lt (by omega)
      intro h
      linarith
    rw [round_of_nonneg x hx0, if_neg h2]
    exact ⟨roundMag x, rfl, roundMag_nonneg x, h1⟩

/-! ## Rounding of binary64 numbers -/

/-- A multiple of a spacing `2 ^ (e - 52)` with a mantissa below `2 ^ 53` rounds to itself. -/
theorem roundMag_of_mantissa (q : ℚ) (m : ℕ) (e : ℤ) (he : -1022 ≤ e) (hm : m < 2 ^ 53)
    (hq : |q| = m * 2 ^ (e - 52)) : roundMag q = |q| := by
  by_cases h0 : q = 0
  · subst h0
    simp [roundMag]
    left
    exact roundHalfEven_le_half 0 le_rfl (by norm_num)
  · have hpos : 0 < |q| := abs_pos.2 h0
    -- the binade of `q` is at most `e`
    have hlt : |q| < 2 ^ (e + 1) := by
      rw [hq, show e + 1 = (e - 52) + 53 by ring, zpow_add₀ (by norm_num : (2 : ℚ) ≠ 0),
        mul_comm]
      have h53 : ((m : ℚ)) < 2 ^ (53 : ℤ) := by
        have : ((m : ℚ)) < ((2 ^ 53 : ℕ) : ℚ) := by exact_mod_cast hm
        norm_num at this ⊢
        exact this
      exact mul_lt_mul_of_pos_left h53 (two_zpow_pos _)
    have hbe : binade q ≤ e := by
      unfold binade
      apply max_le _ he
      have := (Int.lt_zpow_iff_log_lt (b := 2) (by norm_num) hpos).1 (by exact_mod_cast hlt)
      omega
    -- so the magnitude is a whole number of spacings
    have hN : (2 : ℚ) ^ (e - binade q) = ((2 ^ (e - binade q).toNat : ℕ) : ℚ) :=
      two_zpow_natCast _ (by omega)
    have hdiv : |q| / ulp q = ((m * 2 ^ (e - binade q).toNat : ℕ) : ℚ) := by
      rw [hq]
      unfold ulp
      rw [mul_div_assoc, two_zpow_div, show e - 52 - (binade q - 52) = e - binade q by ring, hN]
      push_cast
      ring
    unfold roundMag
    rw [hdiv, roundHalfEven_natCast, ← hdiv]
    exact div_mul_cancel₀ _ (ne_of_gt (ulp_pos q))

/-- The result of a rounding is a multiple of a spacing with a mantissa below `2 ^ 53`. -/
theorem roundMag_mantissa (q : ℚ) :
    ∃ (m : ℕ) (e : ℤ), -1022 ≤ e ∧ m < 2 ^ 53 ∧ roundMag q = m * 2 ^ (e - 52) := by
  have hu := ulp_pos q
  have h1 : |q| / ulp q ≤ ((2 ^ 53 : ℕ) : ℚ) := by
    rw [div_le_iff₀ hu]
    have := abs_lt_binade q
    have e1 : (((2 ^ 53 : ℕ) : ℚ)) * ulp q = 2 ^ (binade q + 1) := by
      unfold ulp
      push_cast
      rw [show binade q + 1 = 53 + (binade q - 52) by ring, zpow_add₀ (by norm_num : (2 : ℚ) ≠ 0)]
      norm_num
    rw [e1]
    exact le_of_lt this
  have h2 := roundHalfEven_le _ _ (div_nonneg (abs_nonneg q) (le_of_lt hu)) h1
  rcases Nat.lt_or_ge (roundHalfEven (|q| / ulp q)) (2 ^ 53) with hlt | hge
  · exact ⟨roundHalfEven (|q| / ulp q), binade q, binade_ge q, hlt, rfl⟩
  · have heq : roundHalfEven (|q| / ulp q) = 2 ^ 53 := le_antisymm h2 hge
    refine ⟨2 ^ 52, binade q + 1, by have := binade_ge q; omega, by norm_num, ?_⟩
    unfold roundMag
    rw [heq]
    unfold ulp
    push_cast
    rw [show binade q + 1 - 52 = 1 + (binade q - 52) by ring, zpow_add₀ (by norm_num : (2 : ℚ) ≠ 0)]
    norm_num
    ring

/-- Rounding is idempotent: a result of a rounding rounds to itself. -/
theorem round_round (q r : ℚ) (h : round q = fin r) : round r = fin r := by
  unfold round at h
  split_ifs at h with h1 h2
  all_goals
    have hr := F64.fin.inj h
    obtain ⟨m, e, he, hm, hme⟩ := roundMag_mantissa q
    have hmag : |r| = roundMag q := by
      rw [← hr]
      first
        | rw [abs_neg, abs_of_nonneg (roundMag_nonneg q)]
        | rw [abs_of_nonneg (roundMag_nonneg q)]
    have hrm : roundMag r = |r| := roundMag_of_mantissa r m e he hm (by rw [hmag, hme])
    have hlt : ¬ (2 : ℚ) ^ (1024 : ℤ) ≤ roundMag r := by
      rw [hrm, hmag]
      exact h1
    unfold round
    rw [if_neg hlt, hrm]
    congr 1
    by_cases hneg : r < 0
    · rw [if_pos hneg, abs_of_neg hneg]
      ring
    · rw [if_neg hneg, abs_of_nonneg (not_lt.1 hneg)]

end F64

/-! ## Rounded operations on numbers in a range -/

namespace F64

theorem mulR_fin (a b : ℚ) : (fin a).mulR (fin b) = round (a * b) := rfl

theorem addR_fin (a b : ℚ) : (fin a).addR (fin b) = round (a + b) := rfl

theorem divR_fin (a b : ℚ) (h : b ≠ 0) : (fin a).divR (fin b) = round (a / b) := by
  show rnd (fin a / fin b) = round (a / b)
  rw [fin_div_fin a b h]
  rfl

/-- A natural number below `2 ^ 53` is a binary64 number. -/
theorem round_natCast (n : ℕ) (h : n < 2 ^ 53) : round (n : ℚ) = fin (n : ℚ) := by
  have hn : (0 : ℚ) ≤ (n : ℚ) := Nat.cast_nonneg n
  have hm : roundMag (n : ℚ) = |(n : ℚ)| :=
    roundMag_of_mantissa (n : ℚ) n 52 (by norm_num) h (by rw [abs_of_nonneg hn]; norm_num)
  rw [abs_of_nonneg hn] at hm
  have hlt : ¬ (2 : ℚ) ^ (1024 : ℤ) ≤ (n : ℚ) := by
    have h1 : (n : ℚ) < ((2 ^ 53 : ℕ) : ℚ) := by exact_mod_cast h
    have h2 : (((2 ^ 53 : ℕ) : ℚ)) ≤ (2 : ℚ) ^ (1024 : ℤ) := by norm_num
    intro h3
    linarith
  rw [round_of_nonneg _ hn, hm, if_neg hlt]

theorem within_pos {a b : ℤ} {r : ℚ} (h : Within a b (fin r)) : 0 < r :=
  lt_of_lt_of_le (two_zpow_pos a) h.1

theorem Within.exists {a b : ℤ} {x : F64} (h : Within a b x) :
    ∃ r : ℚ, x = fin r ∧ (2 : ℚ) ^ a ≤ r ∧ r ≤ (2 : ℚ) ^ b := by
  cases x with
  | nan => exact absurd h id
  | inf n => exact absurd h id
  | fin r => exact ⟨r, rfl, h.1, h.2⟩

theorem Within.atLeast {a b : ℤ} {x : F64} (h : Within a b x) : AtLeast a x := by
  obtain ⟨r, rfl, h1, _⟩ := h.exists
  exact h1

theorem AtLeast.nonNeg {a : ℤ} {x : F64} (h : AtLeast a x) : NonNeg x := by
  cases x with
  | nan => exact absurd h id
  | inf n => exact h
  | fin r => exact le_trans (le_of_lt (two_zpow_pos a)) h

/-- A float at least a power of two is `> 0`. -/
theorem AtLeast.lt_zero {a : ℤ} {x : F64} (h : AtLeast a x) : lt (fin 0) x = true := by
  cases x with
  | nan => exact absurd h id
  | inf n =>
    have hn : n = false := h
    subst hn
    rfl
  | fin r =>
    have : 0 < r := lt_of_lt_of_le (two_zpow_pos a) h
    simpa [lt] using this

/-- A float in a range is finite and not zero. -/
theorem Within.finite_ne_zero {a b : ℤ} {x : F64} (h : Within a b x) :
    x.isFinite = true ∧ x ≠ fin 0 ∧ lt (fin 0) x = true := by
  obtain ⟨r, rfl, h1, _⟩ := h.exists
  have hr : 0 < r := lt_of_lt_of_le (two_zpow_pos a) h1
  refine ⟨rfl, ?_, by simpa [lt] using hr⟩
  intro h0
  injection h0 with h0
  exact ne_of_gt hr h0

theorem two_zpow_mul (a b : ℤ) : (2 : ℚ) ^ a * 2 ^ b = 2 ^ (a + b) :=
  (zpow_add₀ (by norm_num) a b).symm

theorem mulR_within {x y : F64} {a b c d : ℤ} (hx : Within a b x) (hy : Within c d y)
    (hlo : -1074 ≤ a + c) (hhi : b + d ≤ 1023) : Within (a + c) (b + d) (x.mulR y) := by
  obtain ⟨r, rfl, h1, h2⟩ := hx.exists
  obtain ⟨s, rfl, h3, h4⟩ := hy.exists
  have hr : 0 < r := lt_of_lt_of_le (two_zpow_pos a) h1
  have hs : 0 < s := lt_of_lt_of_le (two_zpow_pos c) h3
  rw [mulR_fin]
  apply round_within _ _ _ hlo hhi
  · rw [← two_zpow_mul]
    exact mul_le_mul h1 h3 (le_of_lt (two_zpow_pos c)) (le_of_lt hr)
  · rw [← two_zpow_mul]
    exact mul_le_mul h2 h4 (le_of_lt hs) (le_of_lt (two_zpow_pos b))

theorem divR_within {x y : F64} {a b c d : ℤ} (hx : Within a b x) (hy : Within c d y)
    (hlo : -1074 ≤ a - d) (hhi : b - c ≤ 1023) : Within (a - d) (b - c) (x.divR y) := by
  obtain ⟨r, rfl, h1, h2⟩ := hx.exists
  obtain ⟨s, rfl, h3, h4⟩ := hy.exists
  have hr : 0 < r := lt_of_lt_of_le (two_zpow_pos a) h1
  have hs : 0 < s := lt_of_lt_of_le (two_zpow_pos c) h3
  rw [divR_fin r s (ne_of_gt hs)]
  apply round_within _ _ _ hlo hhi
  · rw [← two_zpow_div]
    exact div_le_div₀ (le_of_lt hr) h1 hs h4
  · rw [← two_zpow_div]
    exact div_le_div₀ (le_of_lt (two_zpow_pos b)) h2 (two_zpow_pos c) h3

theorem mulR_atLeast {x y : F64} {a c : ℤ} (hx : AtLeast a x) (hy : AtLeast c y)
    (hlo : -1074 ≤ a + c) : AtLeast (a + c) (x.mulR y) := by
  cases x with
  | nan => exact absurd hx id
  | inf n =>
    have hn : n = false := hx
    subst hn
    cases y with
    | nan => exact absurd hy id
    | inf m =>
      have hm : m = false := hy
      subst hm
      rfl
    | fin s =>
      have hs : 0 < s := lt_of_lt_of_le (two_zpow_pos c) hy
      show AtLeast (a + c) (rnd (mul (inf false) (fin s)))
      simp [mul, ne_of_gt hs, hs, rnd, AtLeast]
  | fin r =>
    have hr : 0 < r := lt_of_lt_of_le (two_zpow_pos a) hx
    cases y with
    | nan => exact absurd hy id
    | inf m =>
      have hm : m = false := hy
      subst hm
      show AtLeast (a + c) (rnd (mul (fin r) (inf false)))
      simp [mul, ne_of_gt hr, hr, rnd, AtLeast]
    | fin s =>
      rw [mulR_fin]
      apply round_atLeast _ _ hlo
      rw [← two_zpow_mul]
      exact mul_le_mul hx hy (le_of_lt (two_zpow_pos c)) (le_of_lt hr)

theorem divR_atLeast {x y : F64} {a c d : ℤ} (hx : AtLeast a x) (hy : Within c d y)
    (hlo : -1074 ≤ a - d) : AtLeast (a - d) (x.divR y) := by
  obtain ⟨s, rfl, h3, h4⟩ := hy.exists
  have hs : 0 < s := lt_of_lt_of_le (two_zpow_pos c) h3
  cases x with
  | nan => exact absurd hx id
  | inf n =>
    have hn : n = false := hx
    subst hn
    show AtLeast (a - d) (rnd (div (inf false) (fin s)))
    simp [div, le_of_lt hs, rnd, AtLeast]
  | fin r =>
    have hr : 0 < r := lt_of_lt_of_le (two_zpow_pos a) hx
    rw [divR_fin r s (ne_of_gt hs)]
    apply round_atLeast _ _ hlo
    rw [← two_zpow_div]
    exact div_le_div₀ (le_of_lt hr) hx hs h4

theorem mulR_nonNeg {x y : F64} {c d : ℤ} (hx : NonNeg x) (hy : Within c d y) :
    NonNeg (x.mulR y) := by
  obtain ⟨s, rfl, h3, h4⟩ := hy.exists
  have hs : 0 < s := lt_of_lt_of_le (two_zpow_pos c) h3
  cases x with
  | nan => exact absurd hx id
  | inf n =>
    have hn : n = false := hx
    subst hn
    show NonNeg (rnd (mul (inf false) (fin s)))
    simp [mul, ne_of_gt hs, hs, rnd, NonNeg]
  | fin r =>
    rw [mulR_fin]
    exact round_nonneg _ (mul_nonneg hx (le_of_lt hs))

theorem divR_nonNeg {x y : F64} {c d : ℤ} (hx : NonNeg x) (hy : Within c d y) :
    NonNeg (x.divR y) := by
  obtain ⟨s, rfl, h3, h4⟩ := hy.exists
  have hs : 0 < s := lt_of_lt_of_le (two_zpow_pos c) h3
  cases x with
  | nan => exact absurd hx id
  | inf n =>
    have hn : n = false := hx
    subst hn
    show NonNeg (rnd (div (inf false) (fin s)))
    simp [div, le_of_lt hs, rnd, NonNeg]
  | fin r =>
    rw [divR_fin r s (ne_of_gt hs)]
    exact round_nonneg _ (div_nonneg hx (le_of_lt hs))

theorem addR_atLeast_nonNeg {x y : F64} {a : ℤ} (hx : AtLeast a x) (hy : NonNeg y)
    (hlo : -1074 ≤ a) : AtLeast a (x.addR y) := by
  cases x with
  | nan => exact absurd hx id
  | inf n =>
    have hn : n = false := hx
    subst hn
    cases y with
    | nan => exact absurd hy id
    | inf m =>
      have hm : m = false := hy
      subst hm
      rfl
    | fin s => rfl
  | fin r =>
    cases y with
    | nan => exact absurd hy id
    | inf m =>
      have hm : m = false := hy
      subst hm
      rfl
    | fin s =>
      rw [addR_fin]
      apply round_atLeast _ _ hlo
      have h1 : (2 : ℚ) ^ a ≤ r := hx
      have h2 : 0 ≤ s := hy
      linarith

theorem addR_nonNeg_atLeast {x y : F64} {a : ℤ} (hx : NonNeg x) (hy : AtLeast a y)
    (hlo : -1074 ≤ a) : AtLeast a (x.addR y) := by
  cases x with
  | nan => exact absurd hx id
  | inf n =>
    have hn : n = false := hx
    subst hn
    cases y with
    | nan => exact absurd hy id
    | inf m =>
      have hm : m = false := hy
      subst hm
      rfl
    | fin s => rfl
  | fin r =>
    cases y with
    | nan => exact absurd hy id
    | inf m =>
      have hm : m = false := hy
      subst hm
      rfl
    | fin s =>
      rw [addR_fin]
      apply round_atLeast _ _ hlo
      have h1 : (2 : ℚ) ^ a ≤ s := hy
      have h2 : 0 ≤ r := hx
      linarith

theorem pow2R_nonNeg (x : F64) (hx : NonNeg x) : NonNeg (pow2R x) := by
  cases x with
  | nan => exact absurd hx id
  | inf n => rfl
  | fin q =>
    simp only [pow2R]
    split_ifs with h0
    · exact le_rfl
    · have hm : (0 : ℚ) ≤ |q| / 2 ^ (Int.log 2 |q| + 1) * (|q| / 2 ^ (Int.log 2 |q| + 1)) :=
        mul_self_nonneg _
      have h1 := round_nonneg _ hm
      generalize round (|q| / 2 ^ (Int.log 2 |q| + 1) * (|q| / 2 ^ (Int.log 2 |q| + 1))) = y
        at h1
      cases y with
      | nan => exact absurd h1 id
      | inf n => exact h1
      | fin x1 =>
        exact round_nonneg _ (mul_nonneg h1 (le_of_lt (two_zpow_pos _)))

end F64

/-! ## The constants and the conversions in binary64 -/

namespace F64

theorem round_MInKm : round MInKm = fin 1000 := by
  have := round_natCast 1000 (by norm_num)
  simpa [MInKm] using this

theorem round_MinInHours : round MinInHours = fin 60 := by
  have := round_natCast 60 (by norm_num)
  simpa [MinInHours] using this

theorem round_CmInM : round CmInM = fin 100 := by
  have := round_natCast 100 (by norm_num)
  simpa [CmInM] using this

theorem round_multiplier : round CaloriesMeanSpeedMultiplier = fin 18 := by
  have := round_natCast 18 (by norm_num)
  simpa [CaloriesMeanSpeedMultiplier] using this

theorem round_swimming_multiplier : round SwimmingCaloriesWeightMultiplier = fin 2 := by
  have := round_natCast 2 (by norm_num)
  simpa [SwimmingCaloriesWeightMultiplier] using this

theorem round_hour_ns : round (60 * 60 * 1000000000) = fin 3600000000000 := by
  have := round_natCast 3600000000000 (by norm_num)
  have e : (60 * 60 * 1000000000 : ℚ) = ((3600000000000 : ℕ) : ℚ) := by norm_num
  rw [e, this]
  norm_num

theorem within_MInKm : Within 9 10 (round MInKm) := by
  rw [round_MInKm]
  constructor <;> norm_num

theorem within_MinInHours : Within 5 6 (round MinInHours) := by
  rw [round_MinInHours]
  constructor <;> norm_num

theorem within_CmInM : Within 6 7 (round CmInM) := by
  rw [round_CmInM]
  constructor <;> norm_num

theorem within_multiplier : Within 4 5 (round CaloriesMeanSpeedMultiplier) := by
  rw [round_multiplier]
  constructor <;> norm_num

theorem within_swimming_multiplier : Within 1 1 (round SwimmingCaloriesWeightMultiplier) := by
  rw [round_swimming_multiplier]
  constructor <;> norm_num

theorem within_shift : Within 0 1 (round CaloriesMeanSpeedShift) :=
  round_within _ 0 1 (by norm_num) (by norm_num) (by norm_num [CaloriesMeanSpeedShift])
    (by norm_num [CaloriesMeanSpeedShift])

theorem within_swimming_shift : Within 0 1 (round SwimmingCaloriesMeanSpeedShift) :=
  round_within _ 0 1 (by norm_num) (by norm_num) (by norm_num [SwimmingCaloriesMeanSpeedShift])
    (by norm_num [SwimmingCaloriesMeanSpeedShift])

theorem within_weight_multiplier : Within (-5) (-4) (round CaloriesWeightMultiplier) :=
  round_within _ (-5) (-4) (by norm_num) (by norm_num) (by norm_num [CaloriesWeightMultiplier])
    (by norm_num [CaloriesWeightMultiplier])

theorem within_height_multiplier : Within (-6) (-5) (round CaloriesSpeedHeightMultiplier) :=
  round_within _ (-6) (-5) (by norm_num) (by norm_num)
    (by norm_num [CaloriesSpeedHeightMultiplier]) (by norm_num [CaloriesSpeedHeightMultiplier])

theorem within_KmHInMsec : Within (-2) (-1) (round KmHInMsec) :=
  round_within _ (-2) (-1) (by norm_num) (by norm_num) (by norm_num [KmHInMsec])
    (by norm_num [KmHInMsec])

/-- The conversion of an integer from `0` to `2 ^ 53` is exact. -/
theorem ofIntR_exact (n : ℤ) (h0 : 0 ≤ n) (h : n < 2 ^ 53) : ofIntR n = fin (n : ℚ) := by
  obtain ⟨k, rfl⟩ := Int.eq_ofNat_of_zero_le h0
  have hk : k < 2 ^ 53 := by exact_mod_cast h
  have := round_natCast k hk
  simpa [ofIntR] using this

/-- The conversion of a non-negative `int64` is a non-negative number. -/
theorem ofIntR_nonneg (n : ℤ) (h0 : 0 ≤ n) (h : n < 2 ^ 63) :
    ∃ r : ℚ, ofIntR n = fin r ∧ 0 ≤ r ∧ r ≤ 2 ^ (63 : ℤ) := by
  apply round_le _ 63 (by norm_num) (by norm_num)
  · exact_mod_cast h0
  · have : ((n : ℤ) : ℚ) < ((2 ^ 63 : ℤ) : ℚ) := by exact_mod_cast h
    norm_num at this ⊢
    exact le_of_lt this

end F64

/-- The hours of a positive `int64` duration are a number between `2 ^ (-42)` and
`2 ^ 22`. -/
theorem Duration.Hours64_within (d : Int) (h0 : 0 < d) (h : d < 2 ^ 63) :
    F64.Within (-42) 22 (Duration.Hours64 d) := by
  have hH : (Duration.Hour : Int) = 3600000000000 := by
    norm_num [Duration.Hour, Duration.Minute]
  have hdm := Int.tdiv_add_tmod d 3600000000000
  have hq0 : 0 ≤ Int.tdiv d 3600000000000 := Int.tdiv_nonneg (le_of_lt h0) (by norm_num)
  have hr0 : 0 ≤ Int.tmod d 3600000000000 := Int.tmod_nonneg _ (le_of_lt h0)
  have hr1 : Int.tmod d 3600000000000 < 3600000000000 := Int.tmod_lt_of_pos d (by norm_num)
  have hq1 : Int.tdiv d 3600000000000 < 4194303 := by
    have h' : d < 9223372036854775808 := by norm_num at h; exact h
    omega
  unfold Duration.Hours64
  simp only [hH, F64.round_hour_ns]
  rw [F64.ofIntR_exact _ hq0 (lt_trans hq1 (by norm_num)),
    F64.ofIntR_exact _ hr0 (lt_trans hr1 (by norm_num))]
  generalize Int.tdiv d 3600000000000 = hour at hdm hq0 hq1
  generalize Int.tmod d 3600000000000 = nsec at hdm hr0 hr1
  have hhq : (0 : ℚ) ≤ (hour : ℚ) := by exact_mod_cast hq0
  have hhq1 : (hour : ℚ) ≤ 2 ^ (22 : ℤ) - 1 := by
    have : (hour : ℚ) < ((4194303 : ℤ) : ℚ) := by exact_mod_cast hq1
    norm_num at this ⊢
    exact le_of_lt this
  rw [F64.divR_fin _ _ (by norm_num)]
  rcases eq_or_lt_of_le hr0 with hz | hz
  · -- a whole number of hours
    rw [← hz]
    have h1 : (1 : ℤ) ≤ hour := by omega
    have h1q : (1 : ℚ) ≤ (hour : ℚ) := by exact_mod_cast h1
    simp only [Int.cast_zero, zero_div, F64.round_zero, F64.addR_fin, add_zero]
    apply F64.round_within _ _ _ (by norm_num) (by norm_num)
    · have : (2 : ℚ) ^ (-42 : ℤ) ≤ 1 := by norm_num
      linarith
    · linarith
  · have h1 : (1 : ℤ) ≤ nsec := hz
    have h1q : (1 : ℚ) ≤ (nsec : ℚ) := by exact_mod_cast h1
    have h2q : (nsec : ℚ) < 3600000000000 := by exact_mod_cast hr1
    have hf : F64.Within (-42) 0 (F64.round ((nsec : ℚ) / 3600000000000)) := by
      apply F64.round_within _ _ _ (by norm_num) (by norm_num)
      · rw [le_div_iff₀ (by norm_num)]
        have : (2 : ℚ) ^ (-42 : ℤ) * 3600000000000 ≤ 1 := by norm_num
        linarith
      · rw [div_le_iff₀ (by norm_num)]
        norm_num
        exact le_of_lt h2q
    obtain ⟨f, hfe, hf1, hf2⟩ := hf.exists
    rw [hfe, F64.addR_fin]
    apply F64.round_within _ _ _ (by norm_num) (by norm_num)
    · linarith
    · norm_num at hf2 hhq1 ⊢
      linarith

namespace F64

theorem mul_symm (x y : F64) : x * y = y * x := by
  show mul x y = mul y x
  cases x <;> cases y <;> simp [mul, mul_comm]
  case inf.inf a b => cases a <;> cases b <;> rfl

theorem mulR_comm (x y : F64) : x.mulR y = y.mulR x := by
  show rnd (x * y) = rnd (y * x)
  rw [mul_symm]

/-- A non-negative float times a positive number is non-negative. -/
theorem mulR_nonNeg_fin {x : F64} (s : ℚ) (hx : NonNeg x) (hs : 0 < s) :
    NonNeg (x.mulR (fin s)) := by
  cases x with
  | nan => exact absurd hx id
  | inf n =>
    have hn : n = false := hx
    subst hn
    show NonNeg (rnd (mul (inf false) (fin s)))
    simp [mul, ne_of_gt hs, hs, rnd, NonNeg]
  | fin r =>
    rw [mulR_fin]
    exact round_nonneg _ (mul_nonneg hx (le_of_lt hs))

/-- The product of two non-negative numbers is non-negative. -/
theorem mulR_fin_nonNeg (r s : ℚ) (hr : 0 ≤ r) (hs : 0 ≤ s) : NonNeg ((fin r).mulR (fin s)) := by
  rw [mulR_fin]
  exact round_nonneg _ (mul_nonneg hr hs)

/-- A positive number times `+Inf` is `+Inf`. -/
theorem fin_mulR_inf (a : ℚ) (ha : 0 < a) : (fin a).mulR (inf false) = inf false := by
  show rnd (mul (fin a) (inf false)) = inf false
  simp [mul, ne_of_gt ha, ha, rnd]

end F64

/-! ## Underflow to zero -/

namespace F64

/-- A number rounds to zero exactly when its magnitude is at most half the smallest
subnormal number. -/
theorem round_eq_zero_iff (q : ℚ) : round q = fin 0 ↔ |q| ≤ (2 : ℚ) ^ (-1075 : ℤ) := by
  have hhalf : (2 : ℚ) ^ (-1075 : ℤ) = 2 ^ (-1074 : ℤ) / 2 := by
    rw [show (-1075 : ℤ) = -1074 - 1 by norm_num, zpow_sub₀ (by norm_num : (2 : ℚ) ≠ 0)]
    norm_num
  have hsub : (2 : ℚ) ^ (-1075 : ℤ) < 2 ^ (-1022 : ℤ) := two_zpow_lt (by norm_num)
  constructor
  · intro h
    by_cases h0 : q = 0
    · subst h0
      simp only [abs_zero]
      exact le_of_lt (two_zpow_pos _)
    · have hmag : roundMag q = 0 := by
        unfold round at h
        split_ifs at h with h1 h2
        · have := F64.fin.inj h
          linarith
        · exact F64.fin.inj h
      have hn : ¬ (2 : ℚ) ^ (-1022 : ℤ) ≤ |q| := by
        intro hn
        have h1 := roundMag_ge q (binade q) (by omega) (binade_le_abs q hn)
        have := two_zpow_pos (binade q)
        linarith
      have hb := binade_subnormal q h0 (not_le.1 hn)
      have hu : ulp q = 2 ^ (-1074 : ℤ) := by
        unfold ulp
        rw [hb]
        norm_num
      have hm : roundHalfEven (|q| / ulp q) = 0 := by
        unfold roundMag at hmag
        rcases mul_eq_zero.1 hmag with h1 | h1
        · exact_mod_cast h1
        · exact absurd h1 (ne_of_gt (ulp_pos q))
      have hle : |q| / ulp q ≤ 1 / 2 := by
        by_contra hc
        have := roundHalfEven_pos _ (not_le.1 hc)
        omega
      rw [div_le_iff₀ (ulp_pos q), hu] at hle
      rw [hhalf]
      linarith
  · intro h
    by_cases h0 : q = 0
    · subst h0
      exact round_zero
    · have hb := binade_subnormal q h0 (lt_of_le_of_lt h hsub)
      have hu : ulp q = 2 ^ (-1074 : ℤ) := by
        unfold ulp
        rw [hb]
        norm_num
      have hle : |q| / ulp q ≤ 1 / 2 := by
        rw [div_le_iff₀ (ulp_pos q), hu]
        rw [hhalf] at h
        linarith
      have hm : roundHalfEven (|q| / ulp q) = 0 :=
        roundHalfEven_le_half _ (div_nonneg (abs_nonneg q) (le_of_lt (ulp_pos q))) hle
      have hmag : roundMag q = 0 := by
        unfold roundMag
        rw [hm]
        simp
      unfold round
      rw [hmag]
      have : ¬ (2 : ℚ) ^ (1024 : ℤ) ≤ 0 := not_le.2 (two_zpow_pos _)
      simp [this]

/-- The height in meters is zero exactly for a height of magnitude at most fifty times the
smallest subnormal number. -/
theorem divR_CmInM_eq_zero_iff (h : ℚ) :
    (fin h).divR (round CmInM) = fin 0 ↔ |h| ≤ 50 * (2 : ℚ) ^ (-1074 : ℤ) := by
  rw [round_CmInM, divR_fin _ _ (by norm_num), round_eq_zero_iff, abs_div]
  have e : (2 : ℚ) ^ (-1075 : ℤ) = 2 ^ (-1074 : ℤ) / 2 := by
    rw [show (-1075 : ℤ) = -1074 - 1 by norm_num, zpow_sub₀ (by norm_num : (2 : ℚ) ≠ 0)]
    norm_num
  rw [e]
  have h100 : |(100 : ℚ)| = 100 := by norm_num
  rw [h100, div_le_iff₀ (by norm_num)]
  generalize (2 : ℚ) ^ (-1074 : ℤ) = u
  constructor <;> intro h' <;> linarith

end F64

/-! ## Rounding certificates -/

namespace F64

/-- A positive number in the binade `e` whose quotient by the spacing of that binade is
within one half of the natural number `m` (strictly) rounds to `m` times the spacing. -/
theorem round_cert (q : ℚ) (e : ℤ) (m : ℕ) (r : ℚ) (he : -1022 ≤ e) (hlo : (2 : ℚ) ^ e ≤ q)
    (hhi : q < (2 : ℚ) ^ (e + 1)) (hm : |q / (2 : ℚ) ^ (e - 52) - m| < 1 / 2)
    (hr : r = m * (2 : ℚ) ^ (e - 52)) (hov : r < (2 : ℚ) ^ (1024 : ℤ)) : round q = fin r := by
  have hq0 : 0 < q := lt_of_lt_of_le (two_zpow_pos e) hlo
  have habs : |q| = q := abs_of_pos hq0
  have hb : binade q = e := binade_eq q e he (by rw [habs]; exact hlo) (by rw [habs]; exact hhi)
  have hmag : roundMag q = m * (2 : ℚ) ^ (e - 52) :=
    roundMag_eq q e m hb (by rw [habs]; exact hm)
  unfold round
  rw [hmag, ← hr]
  simp [not_le.2 hov, not_lt.2 (le_of_lt hq0)]

theorem round_LenStep : round LenStep = fin (5854679515581645 / 9007199254740992) := by
  apply round_cert LenStep (-1) 5854679515581645
  · norm_num
  · norm_num [LenStep]
  · norm_num [LenStep]
  · norm_num [LenStep, abs_lt]
  · norm_num
  · norm_num

theorem round_SwimmingLenStep :
    round SwimmingLenStep = fin (1553741871442821 / 1125899906842624) := by
  apply round_cert SwimmingLenStep 0 6214967485771284
  · norm_num
  · norm_num [SwimmingLenStep]
  · norm_num [SwimmingLenStep]
  · norm_num [SwimmingLenStep, abs_lt]
  · norm_num
  · norm_num

theorem round_shift : round CaloriesMeanSpeedShift = fin (2015360833248297 / 1125899906842624) := by
  apply round_cert CaloriesMeanSpeedShift (0) 8061443332993188
  · norm_num
  · norm_num [CaloriesMeanSpeedShift]
  · norm_num [CaloriesMeanSpeedShift]
  · norm_num [CaloriesMeanSpeedShift, abs_lt]
  · norm_num
  · norm_num

end F64

/-! ## Ties -/

/-- A number half way between two natural numbers rounds to the even one. -/
theorem roundHalfEven_tie (x : ℚ) (n : ℕ) (hx : x = n + 1 / 2) :
    roundHalfEven x = if n % 2 = 0 then n else n + 1 := by
  have hfl : ⌊x⌋ = (n : ℤ) := by
    rw [Int.floor_eq_iff]
    constructor
    · rw [hx]; push_cast; linarith
    · rw [hx]; push_cast; linarith
  have hf : ⌊x⌋.toNat = n := by
    rw [hfl]
    exact Int.toNat_natCast n
  unfold roundHalfEven
  simp only [hf]
  have e : x - (n : ℚ) = 1 / 2 := by rw [hx]; ring
  rw [e]
  simp

namespace F64

/-- A positive number in the binade `e` whose quotient by the spacing of that binade is half
way between the natural numbers `n` and `n + 1` rounds to the even one times the spacing. -/
theorem round_cert_tie (q : ℚ) (e : ℤ) (n m : ℕ) (r : ℚ) (he : -1022 ≤ e)
    (hlo : (2 : ℚ) ^ e ≤ q) (hhi : q < (2 : ℚ) ^ (e + 1))
    (hn : q / (2 : ℚ) ^ (e - 52) = n + 1 / 2) (hm : m = if n % 2 = 0 then n else n + 1)
    (hr : r = m * (2 : ℚ) ^ (e - 52)) (hov : r < (2 : ℚ) ^ (1024 : ℤ)) : round q = fin r := by
  have hq0 : 0 < q := lt_of_lt_of_le (two_zpow_pos e) hlo
  have habs : |q| = q := abs_of_pos hq0
  have hb : binade q = e := binade_eq q e he (by rw [habs]; exact hlo) (by rw [habs]; exact hhi)
  have hmag : roundMag q = m * (2 : ℚ) ^ (e - 52) := by
    unfold roundMag ulp
    rw [hb, habs, roundHalfEven_tie _ n hn, ← hm]
  unfold round
  rw [hmag, ← hr]
  simp [not_le.2 hov, not_lt.2 (le_of_lt hq0)]

end F64

/-! ## Relative error of the rounded operations -/

namespace F64

theorem onePlusEps_gt_one : 1 < onePlusEps := by
  unfold onePlusEps
  linarith [two_zpow_pos (-52)]

theorem onePlusEps_pos : 0 < onePlusEps := lt_trans one_pos onePlusEps_gt_one

theorem onePlusEps_pow_pos (k : ℕ) : 0 < onePlusEps ^ k := pow_pos onePlusEps_pos k

theorem onePlusEps_pow_ge_one (k : ℕ) : 1 ≤ onePlusEps ^ k :=
  one_le_pow₀ (le_of_lt onePlusEps_gt_one)

theorem onePlusEps_pow_mono {j k : ℕ} (h : j ≤ k) : onePlusEps ^ j ≤ onePlusEps ^ k :=
  pow_le_pow_right₀ (le_of_lt onePlusEps_gt_one) h

/-- A number is itself up to no rounding. -/
theorem near_exact (v : ℚ) : Near 0 v (fin v) := by
  simp [Near]

/-- More roundings allow more distance. -/
theorem Near.mono_near {j k : ℕ} {v : ℚ} {x : F64} (h : Near j v x) (hv : 0 ≤ v) (hjk : j ≤ k) :
    Near k v x := by
  cases x with
  | nan => exact absurd h id
  | inf n => exact absurd h id
  | fin r =>
    obtain ⟨h1, h2⟩ := h
    constructor
    · refine le_trans ?_ h1
      exact div_le_div_of_nonneg_left hv (onePlusEps_pow_pos j) (onePlusEps_pow_mono hjk)
    · exact le_trans h2 (mul_le_mul_of_nonneg_left (onePlusEps_pow_mono hjk) hv)

/-- A float near a number is a number. -/
theorem Near.exists_near {k : ℕ} {v : ℚ} {x : F64} (h : Near k v x) :
    ∃ r : ℚ, x = fin r ∧ v / onePlusEps ^ k ≤ r ∧ r ≤ v * onePlusEps ^ k := by
  cases x with
  | nan => exact absurd h id
  | inf n => exact absurd h id
  | fin r => exact ⟨r, rfl, h⟩

/-- The rounding of a normal number is within one rounding of it. -/
theorem round_near (x : ℚ) (hlo : (2 : ℚ) ^ (-1022 : ℤ) ≤ x) (hhi : x ≤ (2 : ℚ) ^ (1023 : ℤ)) :
    Near 1 x (round x) := by
  have hx0 : 0 < x := lt_of_lt_of_le (two_zpow_pos _) hlo
  have habs : |x| = x := abs_of_pos hx0
  obtain ⟨r, hr, _, _⟩ := (round_within x (-1022) 1023 (by norm_num) (by norm_num) hlo hhi).exists
  have hmag : r = roundMag x := by
    rw [round_of_nonneg x (le_of_lt hx0)] at hr
    split_ifs at hr with h
    exact (F64.fin.inj hr).symm
  have herr := roundMag_err x
  rw [habs, ← hmag] at herr
  have hb := binade_le_abs x (by rw [habs]; exact hlo)
  rw [habs] at hb
  have hu : ulp x ≤ x * 2 ^ (-52 : ℤ) := by
    unfold ulp
    rw [show binade x - 52 = binade x + -52 by ring, ← two_zpow_mul]
    exact mul_le_mul_of_nonneg_right hb (le_of_lt (two_zpow_pos _))
  have hd0 := two_zpow_pos (-52)
  have hd1 : (2 : ℚ) ^ (-52 : ℤ) ≤ 1 := by
    have := two_zpow_le (show (-52 : ℤ) ≤ 0 by norm_num)
    rwa [zpow_zero] at this
  obtain ⟨e1, e2⟩ := abs_le.1 herr
  rw [hr]
  show x / onePlusEps ^ 1 ≤ r ∧ r ≤ x * onePlusEps ^ 1
  rw [pow_one, div_le_iff₀ onePlusEps_pos]
  unfold onePlusEps
  generalize (2 : ℚ) ^ (-52 : ℤ) = δ at hu hd0 hd1
  constructor
  · nlinarith [mul_nonneg (le_of_lt hx0) (le_of_lt hd0),
      mul_nonneg (mul_nonneg (le_of_lt hx0) (le_of_lt hd0)) (sub_nonneg.2 hd1)]
  · nlinarith [mul_nonneg (le_of_lt hx0) (le_of_lt hd0)]

/-- The rounding of a normal number that is within `k` roundings of `u` is within `k + 1`
roundings of `u`. -/
theorem round_near_of (x u : ℚ) (k : ℕ) (h1 : u / onePlusEps ^ k ≤ x)
    (h2 : x ≤ u * onePlusEps ^ k) (hlo : (2 : ℚ) ^ (-1022 : ℤ) ≤ x)
    (hhi : x ≤ (2 : ℚ) ^ (1023 : ℤ)) : Near (k + 1) u (round x) := by
  obtain ⟨r, hr, e1, e2⟩ := (round_near x hlo hhi).exists_near
  rw [pow_one] at e1 e2
  have hE := onePlusEps_pos
  have hk := onePlusEps_pow_pos k
  rw [hr]
  show u / onePlusEps ^ (k + 1) ≤ r ∧ r ≤ u * onePlusEps ^ (k + 1)
  rw [pow_succ]
  constructor
  · refine le_trans ?_ e1
    rw [div_le_div_iff₀ (mul_pos hk hE) hE]
    rw [div_le_iff₀ hk] at h1
    nlinarith
  · refine le_trans e2 ?_
    nlinarith

/-- The rounded product of two positive numbers. -/
theorem mulR_near {x y : F64} {j k : ℕ} {u v : ℚ} {a b c d : ℤ} (hx : Near j u x)
    (hy : Near k v y) (wx : Within a b x) (wy : Within c d y) (hlo : -1022 ≤ a + c)
    (hhi : b + d ≤ 1023) : Near (j + k + 1) (u * v) (x.mulR y) := by
  obtain ⟨r, rfl, hr1, hr2⟩ := wx.exists
  obtain ⟨s, rfl, hs1, hs2⟩ := wy.exists
  obtain ⟨x1, x2⟩ := hx
  obtain ⟨y1, y2⟩ := hy
  have hr0 : 0 < r := lt_of_lt_of_le (two_zpow_pos a) hr1
  have hs0 : 0 < s := lt_of_lt_of_le (two_zpow_pos c) hs1
  have hj := onePlusEps_pow_pos j
  have hk := onePlusEps_pow_pos k
  have hu0 : 0 < u := by
    by_contra hc
    have : u * onePlusEps ^ j ≤ 0 := mul_nonpos_of_nonpos_of_nonneg (not_lt.1 hc) (le_of_lt hj)
    linarith
  have hv0 : 0 < v := by
    by_contra hc
    have : v * onePlusEps ^ k ≤ 0 := mul_nonpos_of_nonpos_of_nonneg (not_lt.1 hc) (le_of_lt hk)
    linarith
  rw [mulR_fin]
  apply round_near_of
  · rw [pow_add, ← div_mul_div_comm]
    exact mul_le_mul x1 y1 (le_of_lt (div_pos hv0 hk)) (le_of_lt hr0)
  · rw [pow_add, mul_mul_mul_comm]
    exact mul_le_mul x2 y2 (le_of_lt hs0) (le_of_lt (mul_pos hu0 hj))
  · refine le_trans (two_zpow_le hlo) ?_
    rw [← two_zpow_mul]
    exact mul_le_mul hr1 hs1 (le_of_lt (two_zpow_pos _)) (le_of_lt hr0)
  · refine le_trans ?_ (two_zpow_le hhi)
    rw [← two_zpow_mul]
    exact mul_le_mul hr2 hs2 (le_of_lt hs0) (le_of_lt (two_zpow_pos _))

/-- The rounded quotient of two positive numbers. -/
theorem divR_near {x y : F64} {j k : ℕ} {u v : ℚ} {a b c d : ℤ} (hx : Near j u x)
    (hy : Near k v y) (wx : Within a b x) (wy : Within c d y) (hlo : -1022 ≤ a - d)
    (hhi : b - c ≤ 1023) : Near (j + k + 1) (u / v) (x.divR y) := by
  obtain ⟨r, rfl, hr1, hr2⟩ := wx.exists
  obtain ⟨s, rfl, hs1, hs2⟩ := wy.exists
  obtain ⟨x1, x2⟩ := hx
  obtain ⟨y1, y2⟩ := hy
  have hr0 : 0 < r := lt_of_lt_of_le (two_zpow_pos a) hr1
  have hs0 : 0 < s := lt_of_lt_of_le (two_zpow_pos c) hs1
  have hj := onePlusEps_pow_pos j
  have hk := onePlusEps_pow_pos k
  have hu0 : 0 < u := by
    by_contra hc
    have : u * onePlusEps ^ j ≤ 0 := mul_nonpos_of_nonpos_of_nonneg (not_lt.1 hc) (le_of_lt hj)
    linarith
  have hv0 : 0 < v := by
    by_contra hc
    have : v * onePlusEps ^ k ≤ 0 := mul_nonpos_of_nonpos_of_nonneg (not_lt.1 hc) (le_of_lt hk)
    linarith
  rw [divR_fin _ _ (ne_of_gt hs0)]
  apply round_near_of
  · have e : u / v / onePlusEps ^ (j + k) = (u / onePlusEps ^ j) / (v * onePlusEps ^ k) := by
      rw [pow_add, div_div, div_div]
      congr 1
      ring
    rw [e]
    exact div_le_div₀ (le_of_lt hr0) x1 hs0 y2
  · have e : u / v * onePlusEps ^ (j + k) = (u * onePlusEps ^ j) / (v / onePlusEps ^ k) := by
      rw [pow_add, div_div_eq_mul_div, div_mul_eq_mul_div]
      congr 1
      ring
    rw [e]
    exact div_le_div₀ (le_of_lt (mul_pos hu0 hj)) x2 (div_pos hv0 hk) y1
  · refine le_trans (two_zpow_le hlo) ?_
    rw [show a - d = a + -d by ring, ← two_zpow_mul, zpow_neg, ← div_eq_mul_inv]
    exact div_le_div₀ (le_of_lt hr0) hr1 hs0 hs2
  · refine le_trans ?_ (two_zpow_le hhi)
    rw [show b - c = b + -c by ring, ← two_zpow_mul, zpow_neg, ← div_eq_mul_inv]
    exact div_le_div₀ (le_of_lt (two_zpow_pos _)) hr2 (two_zpow_pos _) hs1

/-- The rounded sum of two positive numbers. -/
theorem addR_near {x y : F64} {k : ℕ} {u v : ℚ} {a b c d e : ℤ} (hx : Near k u x)
    (hy : Near k v y) (wx : Within a b x) (wy : Within c d y) (hlo : -1022 ≤ a)
    (hb : b ≤ e) (hd : d ≤ e) (hhi : e + 1 ≤ 1023) :
    Near (k + 1) (u + v) (x.addR y) ∧ Within a (e + 1) (x.addR y) := by
  obtain ⟨r, rfl, hr1, hr2⟩ := wx.exists
  obtain ⟨s, rfl, hs1, hs2⟩ := wy.exists
  obtain ⟨x1, x2⟩ := hx
  obtain ⟨y1, y2⟩ := hy
  have hr0 : 0 < r := lt_of_lt_of_le (two_zpow_pos a) hr1
  have hs0 : 0 < s := lt_of_lt_of_le (two_zpow_pos c) hs1
  have hsum1 : (2 : ℚ) ^ a ≤ r + s := by linarith
  have hsum2 : r + s ≤ (2 : ℚ) ^ (e + 1) := by
    rw [zpow_add_one₀ (by norm_num)]
    have := le_trans hr2 (two_zpow_le hb)
    have := le_trans hs2 (two_zpow_le hd)
    linarith
  rw [addR_fin]
  constructor
  · apply round_near_of
    · rw [add_div]
      exact add_le_add x1 y1
    · rw [add_mul]
      exact add_le_add x2 y2
    · exact le_trans (two_zpow_le hlo) hsum1
    · exact le_trans hsum2 (two_zpow_le hhi)
  · exact round_within _ _ _ (by omega) hhi hsum1 hsum2

end F64

/-! ## The hours and the conversions up to rounding -/

/-- The hours of a positive `int64` duration are within two roundings of the duration
divided by the nanoseconds of an hour. -/
theorem Duration.Hours64_near (d : Int) (h0 : 0 < d) (h : d < 2 ^ 63) :
    F64.Near 2 ((d : ℚ) / 3600000000000) (Duration.Hours64 d) := by
  have hH : (Duration.Hour : Int) = 3600000000000 := by
    norm_num [Duration.Hour, Duration.Minute]
  have hdm := Int.tdiv_add_tmod d 3600000000000
  have hq0 : 0 ≤ Int.tdiv d 3600000000000 := Int.tdiv_nonneg (le_of_lt h0) (by norm_num)
  have hr0 : 0 ≤ Int.tmod d 3600000000000 := Int.tmod_nonneg _ (le_of_lt h0)
  have hr1 : Int.tmod d 3600000000000 < 3600000000000 := Int.tmod_lt_of_pos d (by norm_num)
  have hq1 : Int.tdiv d 3600000000000 < 4194303 := by
    have h' : d < 9223372036854775808 := by norm_num at h; exact h
    omega
  unfold Duration.Hours64
  simp only [hH, F64.round_hour_ns]
  rw [F64.ofIntR_exact _ hq0 (lt_trans hq1 (by norm_num)),
    F64.ofIntR_exact _ hr0 (lt_trans hr1 (by norm_num))]
  have hd : (d : ℚ) = (Int.tdiv d 3600000000000 : ℚ) * 3600000000000
      + (Int.tmod d 3600000000000 : ℚ) := by
    have : ((3600000000000 * Int.tdiv d 3600000000000 + Int.tmod d 3600000000000 : ℤ) : ℚ)
        = (d : ℚ) := by rw [hdm]
    push_cast at this
    linarith
  rw [hd]
  generalize Int.tdiv d 3600000000000 = hour at hdm hq0 hq1
  generalize Int.tmod d 3600000000000 = nsec at hdm hr0 hr1
  have hhq : (0 : ℚ) ≤ (hour : ℚ) := by exact_mod_cast hq0
  have hhq1 : (hour : ℚ) ≤ 2 ^ (22 : ℤ) - 1 := by
    have : (hour : ℚ) < ((4194303 : ℤ) : ℚ) := by exact_mod_cast hq1
    norm_num at this ⊢
    exact le_of_lt this
  have hval : ((hour : ℚ) * 3600000000000 + (nsec : ℚ)) / 3600000000000
      = (hour : ℚ) + (nsec : ℚ) / 3600000000000 := by
    field_simp
  rw [hval, F64.divR_fin _ _ (by norm_num)]
  have hE := F64.onePlusEps_pos
  have hE1 := F64.onePlusEps_gt_one
  rcases eq_or_lt_of_le hr0 with hz | hz
  · -- a whole number of hours
    rw [← hz]
    have h1 : (1 : ℤ) ≤ hour := by omega
    have h1q : (1 : ℚ) ≤ (hour : ℚ) := by exact_mod_cast h1
    simp only [Int.cast_zero, zero_div, F64.round_zero, F64.addR_fin, add_zero]
    have hn := F64.round_near (hour : ℚ)
      (le_trans (F64.two_zpow_le (by norm_num : (-1022 : ℤ) ≤ 0)) (by rw [zpow_zero]; exact h1q))
      (le_trans hhq1 (by
        have := F64.two_zpow_le (by norm_num : (22 : ℤ) ≤ 1023)
        linarith))
    exact hn.mono_near hhq (by norm_num)
  · have h1 : (1 : ℤ) ≤ nsec := hz
    have h1q : (1 : ℚ) ≤ (nsec : ℚ) := by exact_mod_cast h1
    have h2q : (nsec : ℚ) < 3600000000000 := by exact_mod_cast hr1
    have hlo : (2 : ℚ) ^ (-42 : ℤ) ≤ (nsec : ℚ) / 3600000000000 := by
      rw [le_div_iff₀ (by norm_num)]
      have : (2 : ℚ) ^ (-42 : ℤ) * 3600000000000 ≤ 1 := by norm_num
      linarith
    have hhi : (nsec : ℚ) / 3600000000000 ≤ (2 : ℚ) ^ (0 : ℤ) := by
      rw [div_le_iff₀ (by norm_num)]
      norm_num
      exact le_of_lt h2q
    have hf := F64.round_within _ (-42) 0 (by norm_num) (by norm_num) hlo hhi
    have hn := F64.round_near _ (le_trans (F64.two_zpow_le (by norm_num)) hlo)
      (le_trans hhi (F64.two_zpow_le (by norm_num)))
    obtain ⟨f, hfe, hf1, hf2⟩ := hf.exists
    rw [hfe] at hn
    obtain ⟨n1, n2⟩ := hn
    rw [pow_one] at n1 n2
    rw [hfe, F64.addR_fin]
    have h42 := F64.two_zpow_pos (-42)
    apply F64.round_near_of
    · rw [pow_one, add_div]
      have : (hour : ℚ) / F64.onePlusEps ≤ (hour : ℚ) := by
        rw [div_le_iff₀ hE]
        nlinarith
      linarith
    · rw [pow_one, add_mul]
      have : (hour : ℚ) ≤ (hour : ℚ) * F64.onePlusEps := by nlinarith
      linarith
    · have := F64.two_zpow_le (by norm_num : (-1022 : ℤ) ≤ -42)
      linarith
    · have := F64.two_zpow_le (by norm_num : (22 : ℤ) ≤ 1023)
      rw [zpow_zero] at hf2
      linarith

/-- The conversion of a positive `int64` is within one rounding of it. -/
theorem F64.ofIntR_near (n : ℤ) (h0 : 1 ≤ n) (h : n < 2 ^ 63) :
    F64.Near 1 (n : ℚ) (F64.ofIntR n) ∧ F64.Within 0 63 (F64.ofIntR n) := by
  have h1 : (2 : ℚ) ^ (0 : ℤ) ≤ (n : ℚ) := by
    rw [zpow_zero]
    exact_mod_cast h0
  have h2 : (n : ℚ) ≤ (2 : ℚ) ^ (63 : ℤ) := by
    have : ((n : ℤ) : ℚ) < ((2 ^ 63 : ℤ) : ℚ) := by exact_mod_cast h
    norm_num at this ⊢
    exact le_of_lt this
  exact ⟨F64.round_near _ (le_trans (F64.two_zpow_le (by norm_num)) h1)
      (le_trans h2 (F64.two_zpow_le (by norm_num))),
    F64.round_within _ 0 63 (by norm_num) (by norm_num) h1 h2⟩

namespace F64

/-- A positive number below the normal range whose quotient by the smallest positive
`float64` is within one half of the natural number `m` (strictly) rounds to `m` times it. -/
theorem round_cert_subnormal (q : ℚ) (m : ℕ) (r : ℚ) (hq0 : 0 < q)
    (hq : q < (2 : ℚ) ^ (-1022 : ℤ)) (hm : |q / (2 : ℚ) ^ (-1074 : ℤ) - m| < 1 / 2)
    (hr : r = m * (2 : ℚ) ^ (-1074 : ℤ)) (hov : r < (2 : ℚ) ^ (1024 : ℤ)) :
    round q = fin r := by
  have habs : |q| = q := abs_of_pos hq0
  have hb : binade q = -1022 := binade_subnormal q (ne_of_gt hq0) (by rw [habs]; exact hq)
  have e : ((-1022 : ℤ) - 52) = -1074 := by norm_num
  have hmag : roundMag q = m * (2 : ℚ) ^ (-1022 - 52 : ℤ) :=
    roundMag_eq q (-1022) m hb (by rw [habs, e]; exact hm)
  rw [e] at hmag
  unfold round
  rw [hmag, ← hr]
  simp [not_le.2 hov, not_lt.2 (le_of_lt hq0)]

/-- A number at least `2 ^ 1024` rounds to `+Inf`. -/
theorem round_overflow (q : ℚ) (h : (2 : ℚ) ^ (1024 : ℤ) ≤ q) : round q = inf false := by
  have h1 := roundMag_ge_of_le q 1024 (by norm_num) h
  have h0 : ¬ q < 0 := not_lt.2 (le_trans (le_of_lt (two_zpow_pos _)) h)
  unfold round
  rw [if_pos h1]
  simp [h0]

end F64

/-! ## Zero units -/

namespace F64

/-- Zero times a number is zero. -/
theorem zero_mulR_fin (s : ℚ) : (fin 0).mulR (fin s) = fin 0 := by
  rw [mulR_fin, zero_mul, round_zero]

/-- A number in a range times zero is zero. -/
theorem mulR_zero {a b : ℤ} {x : F64} (hx : Within a b x) : x.mulR (fin 0) = fin 0 := by
  obtain ⟨r, rfl, _, _⟩ := hx.exists
  rw [mulR_fin, mul_zero, round_zero]

/-- Zero divided by a number in a range is zero. -/
theorem zero_divR {a b : ℤ} {y : F64} (hy : Within a b y) : (fin 0).divR y = fin 0 := by
  obtain ⟨s, rfl, h1, _⟩ := hy.exists
  have hs : 0 < s := lt_of_lt_of_le (two_zpow_pos a) h1
  rw [divR_fin 0 s (ne_of_gt hs), zero_div, round_zero]

theorem pow2R_zero : pow2R (fin 0) = fin 0 := by
  simp [pow2R]

/-- Adding zero to the result of a rounding returns the result. -/
theorem round_addR_zero (q : ℚ) : (round q).addR (fin 0) = round q := by
  cases h : round q with
  | nan => rfl
  | inf n => rfl
  | fin r =>
    rw [addR_fin, add_zero]
    exact round_round q r h

/-- Adding the result of a rounding to zero returns the result. -/
theorem zero_addR_round (q : ℚ) : (fin 0).addR (round q) = round q := by
  cases h : round q with
  | nan => rfl
  | inf n => rfl
  | fin r =>
    rw [addR_fin, zero_add]
    exact round_round q r h

/-- A rounded product is the rounding of a number, or a special value. -/
theorem mulR_addR_zero (x y : F64) : (x.mulR y).addR (fin 0) = x.mulR y := by
  show (rnd (x * y)).addR (fin 0) = rnd (x * y)
  cases x * y with
  | nan => rfl
  | inf n => rfl
  | fin q => exact round_addR_zero q

end F64

/-- At zero units the distance in binary64 is zero, for every finite per-unit length. -/
theorem distance64_zero_units (t : Training) (l : ℚ) (hA : t.Action = 0)
    (hl : t.LenStep = F64.fin l) : t.distance64 = F64.fin 0 := by
  have h0 : F64.ofIntR 0 = F64.fin 0 := by simp [F64.ofIntR, F64.round_zero]
  rw [Training.distance64, hA, hl, h0, F64.zero_mulR_fin, F64.zero_divR F64.within_MInKm]

/-- At zero units the base mean speed in binary64 is zero, for a positive duration. -/
theorem meanSpeed64_zero_units (t : Training) (l : ℚ) (hA : t.Action = 0)
    (hl : t.LenStep = F64.fin l) (hd : 0 < t.Duration) (hd2 : t.Duration < 2 ^ 63) :
    t.meanSpeed64 = F64.fin 0 := by
  simp only [Training.meanSpeed64, distance64_zero_units t l hA hl]
  exact F64.zero_divR (Duration.Hours64_within t.Duration hd hd2)

/-- At zero units the calories of running are computed from the shift alone. -/
theorem running_calories64_zero_units (r : Running) (l : ℚ) (hA : r.Action = 0)
    (hl : r.LenStep = F64.fin l) (hd : 0 < r.Duration) (hd2 : r.Duration < 2 ^ 63) :
    r.Calories64
      = ((((F64.round CaloriesMeanSpeedShift).mulR r.Weight).divR
          (F64.round MInKm)).mulR (Duration.Hours64 r.Duration)).mulR
          (F64.round MinInHours) := by
  simp only [Running.Calories64, meanSpeed64_zero_units r.toTraining l hA hl hd hd2,
    F64.mulR_zero F64.within_multiplier, F64.zero_addR_round]

/-- The height in meters of a height between `2 ^ (-1022)` and `2 ^ 1024` centimeters. -/
theorem height_meters_within (h : ℚ) (hh0 : (2 : ℚ) ^ (-1022 : ℤ) ≤ h)
    (hh1 : h ≤ (2 : ℚ) ^ (1024 : ℤ)) :
    F64.Within (-1029) 1018 ((F64.fin h).divR (F64.round CmInM)) := by
  rw [F64.round_CmInM, F64.divR_fin _ _ (by norm_num)]
  apply F64.round_within _ _ _ (by norm_num) (by norm_num)
  · have e : (2 : ℚ) ^ (-1029 : ℤ) = 2 ^ (-1022 : ℤ) * 2 ^ (-7 : ℤ) := by
      rw [F64.two_zpow_mul]; norm_num
    rw [e, le_div_iff₀ (by norm_num)]
    have : (2 : ℚ) ^ (-7 : ℤ) * 100 ≤ 1 := by norm_num
    nlinarith [F64.two_zpow_pos (-1022)]
  · have e : (2 : ℚ) ^ (1018 : ℤ) = 2 ^ (1024 : ℤ) * 2 ^ (-6 : ℤ) := by
      rw [F64.two_zpow_mul]; norm_num
    rw [e, div_le_iff₀ (by norm_num)]
    have : (1 : ℚ) ≤ 2 ^ (-6 : ℤ) * 100 := by norm_num
    nlinarith [F64.two_zpow_pos (1024)]

/-- Zero divided by a number that is at least a power of two, or by `+Inf`, is zero. -/
theorem F64.zero_divR_atLeast {a : ℤ} {y : F64} (hy : F64.AtLeast a y) :
    (F64.fin 0).divR y = F64.fin 0 := by
  cases y with
  | nan => exact absurd hy id
  | inf n =>
    show F64.rnd (F64.div (F64.fin 0) (F64.inf n)) = F64.fin 0
    simp [F64.div, F64.rnd, F64.round_zero]
  | fin s =>
    have hs : 0 < s := lt_of_lt_of_le (F64.two_zpow_pos a) hy
    rw [F64.divR_fin 0 s (ne_of_gt hs), zero_div, F64.round_zero]

/-- At zero units the calories of walking are computed from the weight term alone. -/
theorem walking_calories64_zero_units (w : Walking) (l m : ℚ) (hA : w.Action = 0)
    (hl : w.LenStep = F64.fin l) (hd : 0 < w.Duration) (hd2 : w.Duration < 2 ^ 63)
    (hm : w.Weight = F64.fin m) (hH : F64.AtLeast (-1022) w.Height) :
    w.Calories64
      = (((F64.round CaloriesWeightMultiplier).mulR w.Weight).mulR
          (Duration.Hours64 w.Duration)).mulR (F64.round MinInHours) := by
  have hmeters : F64.AtLeast (-1022 - 7) (w.Height.divR (F64.round CmInM)) :=
    F64.divR_atLeast hH F64.within_CmInM (by norm_num)
  have hz : (F64.fin 0).mulR w.Weight = F64.fin 0 := by rw [hm, F64.zero_mulR_fin]
  have hk : (F64.fin 0).mulR (F64.round KmHInMsec) = F64.fin 0 := by
    rw [F64.mulR_comm]
    exact F64.mulR_zero F64.within_KmHInMsec
  have hc : (F64.fin 0).mulR (F64.round CaloriesSpeedHeightMultiplier) = F64.fin 0 := by
    rw [F64.mulR_comm]
    exact F64.mulR_zero F64.within_height_multiplier
  simp only [Walking.Calories64, meanSpeed64_zero_units w.toTraining l hA hl hd hd2, hk,
    F64.pow2R_zero, F64.zero_divR_atLeast hmeters, hc, hz, F64.mulR_addR_zero]

/-- The facts about the inputs used below: their durations and the smallest weight. -/
theorem main_durations :
    (0 : ℤ) < Duration.Minute * 30 ∧ Duration.Minute * 30 < 2 ^ 63
      ∧ (0 : ℤ) < Duration.Hour * 3 + Duration.Minute * 45
      ∧ Duration.Hour * 3 + Duration.Minute * 45 < 2 ^ 63
      ∧ (0 : ℤ) < Duration.Minute * 90 ∧ Duration.Minute * 90 < 2 ^ 63 := by
  simp only [Duration.Hour, Duration.Minute]
  norm_num

/-- A non-negative number that is at most half the smallest positive `float64` rounds to
zero. -/
theorem F64.round_tiny (x : ℚ) (h0 : 0 ≤ x) (h : x ≤ (2 : ℚ) ^ (-1075 : ℤ)) :
    F64.round x = F64.fin 0 :=
  (F64.round_eq_zero_iff x).2 (by rw [abs_of_nonneg h0]; exact h)

/-! ## Degenerate inputs -/

namespace F64

theorem zero_mul_inf (n : Bool) : fin 0 * inf n = nan := by
  show mul (fin 0) (inf n) = nan
  simp [mul]

theorem nan_div (y : F64) : nan / y = nan := by
  show div nan y = nan
  cases y <;> rfl

theorem nan_mul (y : F64) : nan * y = nan := by
  show mul nan y = nan
  cases y <;> rfl

theorem mul_nan (x : F64) : x * nan = nan := by
  show mul x nan = nan
  cases x <;> rfl

theorem nan_add (y : F64) : nan + y = nan := by
  show add nan y = nan
  cases y <;> rfl

theorem nan_divR (y : F64) : nan.divR y = nan := by
  show rnd (nan / y) = nan
  rw [nan_div]
  rfl

theorem nan_mulR (y : F64) : nan.mulR y = nan := by
  show rnd (nan * y) = nan
  rw [nan_mul]
  rfl

theorem mulR_nan (x : F64) : x.mulR nan = nan := by
  show rnd (x * nan) = nan
  rw [mul_nan]
  rfl

theorem nan_addR (y : F64) : nan.addR y = nan := by
  show rnd (nan + y) = nan
  rw [nan_add]
  rfl

theorem add_nan (x : F64) : x + nan = nan := by
  show add x nan = nan
  cases x <;> rfl

theorem addR_nan (x : F64) : x.addR nan = nan := by
  show rnd (x + nan) = nan
  rw [add_nan]
  rfl

theorem zero_divR_zero : (fin 0).divR (fin 0) = nan := by
  show rnd (div (fin 0) (fin 0)) = nan
  simp [div, rnd]

theorem zero_mulR_inf (n : Bool) : (fin 0).mulR (inf n) = nan := by
  show rnd (fin 0 * inf n) = nan
  rw [zero_mul_inf]
  rfl

theorem inf_divR_within {a b : ℤ} {y : F64} (hy : Within a b y) :
    (inf false).divR y = inf false := by
  obtain ⟨s, rfl, h1, _⟩ := hy.exists
  have hs : 0 < s := lt_of_lt_of_le (two_zpow_pos a) h1
  show rnd (div (inf false) (fin s)) = inf false
  simp [div, rnd, le_of_lt hs]

theorem inf_mulR_within {a b : ℤ} {y : F64} (hy : Within a b y) :
    (inf false).mulR y = inf false := by
  obtain ⟨s, rfl, h1, _⟩ := hy.exists
  have hs : 0 < s := lt_of_lt_of_le (two_zpow_pos a) h1
  show rnd (mul (inf false) (fin s)) = inf false
  simp [mul, rnd, ne_of_gt hs, hs]

theorem inf_divR_inf : (inf false).divR (inf false) = nan := rfl

theorem pow2R_inf : pow2R (inf false) = inf false := rfl

theorem smallest_pos : lt (fin 0) SmallestNonzeroFloat64 = true := by
  simp only [SmallestNonzeroFloat64, lt, decide_eq_true_eq]
  exact two_zpow_pos _

end F64

/-- With no step and the per-unit length `+Inf` the distance is `0 × +Inf = NaN`, in exact
arithmetic. -/
theorem runningNoStepsInfLen_distance :
    main.runningNoStepsInfLen.toTraining.distance = F64.nan := by
  show F64.fin ((0 : ℤ) : ℚ) * F64.inf false / F64.fin MInKm = F64.nan
  rw [Int.cast_zero, F64.zero_mul_inf, F64.nan_div]

/-- With no step and the per-unit length `+Inf` the distance is `NaN`, in binary64. -/
theorem runningNoStepsInfLen_distance64 :
    main.runningNoStepsInfLen.toTraining.distance64 = F64.nan := by
  show ((F64.ofIntR 0).mulR (F64.inf false)).divR (F64.round MInKm) = F64.nan
  have h0 : F64.ofIntR 0 = F64.fin 0 := by simp [F64.ofIntR, F64.round_zero]
  rw [h0]
  show F64.rnd (F64.rnd (F64.fin 0 * F64.inf false) / F64.round MInKm) = F64.nan
  rw [F64.zero_mul_inf]
  show F64.rnd (F64.nan / F64.round MInKm) = F64.nan
  rw [F64.nan_div]
  rfl

/-- With no step and the per-unit length `+Inf` the calories of running are `NaN`, in exact
arithmetic. -/
theorem runningNoStepsInfLen_calories : main.runningNoStepsInfLen.Calories = F64.nan := by
  simp only [Running.Calories, Training.meanSpeed, runningNoStepsInfLen_distance,
    F64.nan_div, F64.mul_nan, F64.nan_add, F64.nan_mul]

/-- With no step and the per-unit length `+Inf` the calories of running are `NaN`, in
binary64. -/
theorem runningNoStepsInfLen_calories64 : main.runningNoStepsInfLen.Calories64 = F64.nan := by
  simp only [Running.Calories64, Training.meanSpeed64, runningNoStepsInfLen_distance64,
    F64.nan_divR, F64.mulR_nan, F64.nan_addR, F64.nan_mulR]

/-- With no step and the smallest positive weight the calories of running underflow to `0`. -/
theorem runningNoStepsTinyWeight_calories64 :
    main.runningNoStepsTinyWeight.Calories64 = F64.fin 0 := by
  rw [running_calories64_zero_units main.runningNoStepsTinyWeight _ rfl F64.round_LenStep
    main_durations.1 main_durations.2.1]
  obtain ⟨c, hc, hc0, hc1⟩ := F64.within_shift.exists
  obtain ⟨d, hd, -, -⟩ :=
    (Duration.Hours64_within _ main_durations.1 main_durations.2.1).exists
  have hW : main.runningNoStepsTinyWeight.Weight = F64.fin (2 ^ (-1074 : ℤ)) := rfl
  have hD : main.runningNoStepsTinyWeight.Duration = Duration.Minute * 30 := rfl
  rw [hW, hD, hc, hd]
  rw [F64.mulR_fin]
  have hc0' : 0 ≤ c := le_trans (le_of_lt (F64.two_zpow_pos _)) hc0
  obtain ⟨p, hp, hp0', hp1⟩ := F64.round_le (c * 2 ^ (-1074 : ℤ)) (-1073) (by norm_num)
    (by norm_num) (mul_nonneg hc0' (le_of_lt (F64.two_zpow_pos _))) (by
      have e : (2 : ℚ) ^ (-1073 : ℤ) = 2 ^ (1 : ℤ) * 2 ^ (-1074 : ℤ) := by
        rw [F64.two_zpow_mul]
        norm_num
      rw [e]
      exact mul_le_mul_of_nonneg_right hc1 (le_of_lt (F64.two_zpow_pos _)))
  rw [hp, F64.round_MInKm, F64.divR_fin _ _ (by norm_num)]
  have hz : F64.round (p / 1000) = F64.fin 0 := by
    apply F64.round_tiny _ (div_nonneg hp0' (by norm_num))
    rw [div_le_iff₀ (by norm_num)]
    have e : (2 : ℚ) ^ (-1075 : ℤ) * 1000 = 2 ^ (-1073 : ℤ) * 250 := by
      rw [show (-1075 : ℤ) = -1073 + -2 by norm_num, ← F64.two_zpow_mul]
      norm_num
    rw [e]
    linarith
  rw [hz, F64.zero_mulR_fin, F64.round_MinInHours, F64.zero_mulR_fin]

/-- With no step and the smallest positive weight the calories of walking underflow to `0`. -/
theorem walkingNoStepsTinyWeight_calories64 :
    main.walkingNoStepsTinyWeight.Calories64 = F64.fin 0 := by
  have hH : F64.AtLeast (-1022) main.walkingNoStepsTinyWeight.Height := by
    show (2 : ℚ) ^ (-1022 : ℤ) ≤ 185
    exact le_trans (F64.two_zpow_le (by norm_num : (-1022 : ℤ) ≤ 0)) (by norm_num)
  rw [walking_calories64_zero_units main.walkingNoStepsTinyWeight _ _ rfl
    F64.round_LenStep main_durations.2.2.1 main_durations.2.2.2.1 rfl hH]
  obtain ⟨c, hc, hc0, hc1⟩ := F64.within_weight_multiplier.exists
  obtain ⟨d, hd, -, -⟩ :=
    (Duration.Hours64_within _ main_durations.2.2.1 main_durations.2.2.2.1).exists
  have hW : main.walkingNoStepsTinyWeight.Weight = F64.fin (2 ^ (-1074 : ℤ)) := rfl
  have hD : main.walkingNoStepsTinyWeight.Duration
      = Duration.Hour * 3 + Duration.Minute * 45 := rfl
  rw [hW, hD, hc, hd, F64.mulR_fin]
  have hc0' : 0 ≤ c := le_trans (le_of_lt (F64.two_zpow_pos _)) hc0
  have hz : F64.round (c * 2 ^ (-1074 : ℤ)) = F64.fin 0 := by
    apply F64.round_tiny _ (mul_nonneg hc0' (le_of_lt (F64.two_zpow_pos _)))
    have e : (2 : ℚ) ^ (-1075 : ℤ) = 2 ^ (-1 : ℤ) * 2 ^ (-1074 : ℤ) := by
      rw [F64.two_zpow_mul]
      norm_num
    rw [e]
    apply mul_le_mul_of_nonneg_right _ (le_of_lt (F64.two_zpow_pos _))
    exact le_trans hc1 (F64.two_zpow_le (by norm_num))
  rw [hz, F64.zero_mulR_fin, F64.round_MinInHours, F64.zero_mulR_fin]

/-- With no step and the smallest positive height the calories of walking are `NaN`: the
height in meters underflows to `0` and the speed term is `0 / 0`. -/
theorem walkingNoStepsTinyHeight_calories64 :
    main.walkingNoStepsTinyHeight.Calories64 = F64.nan := by
  have hv := meanSpeed64_zero_units main.walkingNoStepsTinyHeight.toTraining _ rfl
    F64.round_LenStep main_durations.2.2.1 main_durations.2.2.2.1
  have hk : (F64.fin 0).mulR (F64.round KmHInMsec) = F64.fin 0 := by
    rw [F64.mulR_comm]
    exact F64.mulR_zero F64.within_KmHInMsec
  have hH : main.walkingNoStepsTinyHeight.Height = F64.fin (2 ^ (-1074 : ℤ)) := rfl
  have hz : main.walkingNoStepsTinyHeight.Height.divR (F64.round CmInM) = F64.fin 0 := by
    rw [hH, F64.divR_CmInM_eq_zero_iff, abs_of_pos (F64.two_zpow_pos _)]
    have h1 := F64.two_zpow_pos (-1074)
    generalize (2 : ℚ) ^ (-1074 : ℤ) = u at h1
    linarith
  simp only [Walking.Calories64, hv, hk, F64.pow2R_zero, hz, F64.zero_divR_zero,
    F64.nan_mulR, F64.addR_nan]

/-- With no step and the weight `+Inf` the calories of walking are `NaN`: the speed term is
`0 × +Inf`. -/
theorem walkingNoStepsInfWeight_calories64 :
    main.walkingNoStepsInfWeight.Calories64 = F64.nan := by
  have hv := meanSpeed64_zero_units main.walkingNoStepsInfWeight.toTraining _ rfl
    F64.round_LenStep main_durations.2.2.1 main_durations.2.2.2.1
  have hk : (F64.fin 0).mulR (F64.round KmHInMsec) = F64.fin 0 := by
    rw [F64.mulR_comm]
    exact F64.mulR_zero F64.within_KmHInMsec
  have hc : (F64.fin 0).mulR (F64.round CaloriesSpeedHeightMultiplier) = F64.fin 0 := by
    rw [F64.mulR_comm]
    exact F64.mulR_zero F64.within_height_multiplier
  have hH : main.walkingNoStepsInfWeight.Height = F64.fin 185 := rfl
  have hW : main.walkingNoStepsInfWeight.Weight = F64.inf false := rfl
  have hm := height_meters_within 185
    (le_trans (F64.two_zpow_le (by norm_num : (-1022 : ℤ) ≤ 0)) (by norm_num))
    (le_trans (by norm_num) (F64.two_zpow_le (by norm_num : (8 : ℤ) ≤ 1024)))
  simp only [Walking.Calories64, hv, hk, F64.pow2R_zero, hH, F64.zero_divR hm, hc, hW,
    F64.zero_mulR_inf, F64.addR_nan, F64.nan_mulR]

/-- With the per-unit length `+Inf` and the height `+Inf` the calories of walking are `NaN`:
the speed term is `+Inf / +Inf`. -/
theorem walkingInfLenInfHeight_calories64 :
    main.walkingInfLenInfHeight.Calories64 = F64.nan := by
  have ha : F64.ofIntR main.walkingInfLenInfHeight.Action = F64.fin 20000 := by
    have := F64.ofIntR_exact 20000 (by norm_num) (by norm_num)
    simpa using this
  have hL : main.walkingInfLenInfHeight.LenStep = F64.inf false := rfl
  have hH : main.walkingInfLenInfHeight.Height = F64.inf false := rfl
  have hd := Duration.Hours64_within main.walkingInfLenInfHeight.Duration
    main_durations.2.2.1 main_durations.2.2.2.1
  have hD : main.walkingInfLenInfHeight.toTraining.distance64 = F64.inf false := by
    simp only [Training.distance64, ha, hL, F64.fin_mulR_inf 20000 (by norm_num),
      F64.inf_divR_within F64.within_MInKm]
  simp only [Walking.Calories64, Training.meanSpeed64, hD, F64.inf_divR_within hd,
    F64.inf_mulR_within F64.within_KmHInMsec, F64.pow2R_inf, hH,
    F64.inf_divR_within F64.within_CmInM, F64.inf_divR_inf, F64.nan_mulR, F64.addR_nan]

/-! ## An overflow of the calories of running -/

namespace F64

theorem overflowStep0 :
    (fin (2015360833248297 / 1125899906842624)).mulR (fin (2 ^ (1023 : ℤ)))
      = fin 160893535570177276935117309831169412309005280474278143967641939332902811249998949903313114193897249994835246710702018798052531793796895267486999231852079198500777141870984881834299563264852336664970863553096859655355515651966782668248448962127432999483367136579575388936146236116149012720601236283564096487424 := by
  rw [mulR_fin]
  apply round_cert _ (1023) 8061443332993188
  · norm_num
  · norm_num
  · norm_num
  · norm_num [abs_lt]
  · norm_num
  · norm_num

theorem overflowStep1 :
    (fin 160893535570177276935117309831169412309005280474278143967641939332902811249998949903313114193897249994835246710702018798052531793796895267486999231852079198500777141870984881834299563264852336664970863553096859655355515651966782668248448962127432999483367136579575388936146236116149012720601236283564096487424).divR (fin 1000)
      = fin 160893535570177286446543784957568514733906491040461935382839352345630157473075652143151036381929126001275551011544031801950130035651755414543149020290298987960892743072134619296826598422370013818861567311389220447687918887683920448965592537312830946531818025277285827056019307945923898672465940115672268800 := by
  rw [divR_fin _ _ (by norm_num)]
  apply round_cert _ (1013) 8254917972985025
  · norm_num
  · norm_num
  · norm_num
  · norm_num [abs_lt]
  · norm_num
  · norm_num

theorem overflowStep2 :
    (fin 160893535570177286446543784957568514733906491040461935382839352345630157473075652143151036381929126001275551011544031801950130035651755414543149020290298987960892743072134619296826598422370013818861567311389220447687918887683920448965592537312830946531818025277285827056019307945923898672465940115672268800).mulR (fin 24)
      = fin 3861444853684255030642075021381629639267873990974099423207774177815244209240318966842803925429116663480454278389220910851681780558180820884382294330216680456309222574733685575624281561440448809585312103314199664389303548971908152754143787701825941848705450454158309654588284240370614321448440002646760226816 := by
  rw [mulR_fin]
  apply round_cert _ (1018) 6191188479738769
  · norm_num
  · norm_num
  · norm_num
  · norm_num [abs_lt]
  · norm_num
  · norm_num

theorem overflowStep3 :
    (fin 3861444853684255030642075021381629639267873990974099423207774177815244209240318966842803925429116663480454278389220910851681780558180820884382294330216680456309222574733685575624281561440448809585312103314199664389303548971908152754143787701825941848705450454158309654588284240370614321448440002646760226816).mulR (fin 60) = inf false := by
  rw [mulR_fin]
  exact round_overflow _ (by norm_num)

end F64

/-- The hours of a duration of twenty-four hours. -/
theorem Duration.Hours64_day : Duration.Hours64 (Duration.Hour * 24) = F64.fin 24 := by
  have hH : (Duration.Hour : Int) = 3600000000000 := by
    norm_num [Duration.Hour, Duration.Minute]
  have e1 : Int.tdiv (3600000000000 * 24) 3600000000000 = 24 := by decide
  have e2 : Int.tmod (3600000000000 * 24) 3600000000000 = 0 := by decide
  have z : F64.ofIntR 0 = F64.fin 0 := by simp [F64.ofIntR, F64.round_zero]
  have h24 : F64.ofIntR 24 = F64.fin 24 := by
    have := F64.ofIntR_exact 24 (by norm_num) (by norm_num)
    simpa using this
  have r24 : F64.round 24 = F64.fin 24 := by
    have := F64.round_natCast 24 (by norm_num)
    simpa using this
  unfold Duration.Hours64
  simp only [hH, e1, e2, z, h24, F64.round_hour_ns]
  rw [F64.divR_fin _ _ (by norm_num), zero_div, F64.round_zero, F64.addR_fin, add_zero, r24]

/-- With no step, the weight `2 ^ 1023` and a duration of one day the calories of running
overflow. -/
theorem runningNoStepsHugeWeight_calories64 :
    main.runningNoStepsHugeWeight.Calories64 = F64.inf false := by
  rw [running_calories64_zero_units main.runningNoStepsHugeWeight _ rfl F64.round_LenStep
    (by decide) (by decide)]
  have hW : main.runningNoStepsHugeWeight.Weight = F64.fin (2 ^ (1023 : ℤ)) := rfl
  have hD : main.runningNoStepsHugeWeight.Duration = Duration.Hour * 24 := rfl
  rw [hW, hD, Duration.Hours64_day, F64.round_shift, F64.round_MInKm, F64.round_MinInHours,
    F64.overflowStep0, F64.overflowStep1, F64.overflowStep2, F64.overflowStep3]

/-! ## C10 -/

namespace F64

/-- The rounded magnitude depends on the magnitude only. -/
theorem roundMag_abs (q : ℚ) : roundMag |q| = roundMag q := by
  unfold roundMag ulp binade
  rw [abs_abs]

/-- The magnitude of a finite rounding is the rounded magnitude. -/
theorem round_fin_abs (q r : ℚ) (h : round q = fin r) :
    |r| = roundMag q ∧ roundMag q < (2 : ℚ) ^ (1024 : ℤ) := by
  unfold round at h
  split_ifs at h with h1 h2
  · have e := F64.fin.inj h
    rw [← e, abs_neg, abs_of_nonneg (roundMag_nonneg q)]
    exact ⟨rfl, not_le.1 h1⟩
  · have e := F64.fin.inj h
    rw [← e, abs_of_nonneg (roundMag_nonneg q)]
    exact ⟨rfl, not_le.1 h1⟩

/-- The rounding of a number of magnitude between two powers of two is a number of
magnitude between them. -/
theorem round_abs_within (q : ℚ) (a b : ℤ) (ha : -1074 ≤ a) (hb : b ≤ 1023)
    (hlo : (2 : ℚ) ^ a ≤ |q|) (hhi : |q| ≤ (2 : ℚ) ^ b) :
    ∃ r : ℚ, round q = fin r ∧ (2 : ℚ) ^ a ≤ |r| ∧ |r| ≤ (2 : ℚ) ^ b := by
  obtain ⟨r', hr', h1, h2⟩ := (round_within |q| a b ha hb hlo hhi).exists
  obtain ⟨e1, e2⟩ := round_fin_abs |q| r' hr'
  rw [roundMag_abs] at e1 e2
  have hr0 : 0 ≤ r' := le_trans (le_of_lt (two_zpow_pos a)) h1
  rw [abs_of_nonneg hr0] at e1
  refine ⟨if q < 0 then -roundMag q else roundMag q, ?_, ?_, ?_⟩
  · unfold round
    rw [if_neg (not_le.2 e2)]
  · split_ifs
    · rw [abs_neg, abs_of_nonneg (roundMag_nonneg q), ← e1]; exact h1
    · rw [abs_of_nonneg (roundMag_nonneg q), ← e1]; exact h1
  · split_ifs
    · rw [abs_neg, abs_of_nonneg (roundMag_nonneg q), ← e1]; exact h2
    · rw [abs_of_nonneg (roundMag_nonneg q), ← e1]; exact h2

/-- Doubling a normal number doubles its rounding, when the double does not overflow. -/
theorem round_two_mul (q r : ℚ) (hq : (2 : ℚ) ^ (-1022 : ℤ) ≤ |q|) (h : round q = fin r)
    (hr : |r| < (2 : ℚ) ^ (1023 : ℤ)) : round (2 * q) = fin (2 * r) := by
  obtain ⟨e1, _⟩ := round_fin_abs q r h
  have hm := roundMag_two_mul q hq
  have hlt : ¬ (2 : ℚ) ^ (1024 : ℤ) ≤ roundMag (2 * q) := by
    rw [hm, ← e1, not_le]
    have e : (2 : ℚ) ^ (1024 : ℤ) = 2 * 2 ^ (1023 : ℤ) := by
      rw [show (1024 : ℤ) = 1023 + 1 by norm_num, zpow_add_one₀ (by norm_num)]
      ring
    rw [e]
    linarith
  have hs : (2 * q < 0) ↔ (q < 0) := by
    constructor <;> intro h' <;> linarith
  unfold round at h ⊢
  rw [if_neg hlt, hm]
  split_ifs at h with h1 h2
  · rw [if_pos (hs.2 h2), ← F64.fin.inj h]
    congr 1
    ring
  · rw [if_neg (fun h' => h2 (hs.1 h')), ← F64.fin.inj h]

/-- The conversion of a non-zero integer of magnitude at most `2 ^ 62` is a number of
magnitude between `1` and `2 ^ 62`, and the conversion of its double is the double. -/
theorem ofIntR_two_mul (n : ℤ) (h0 : n ≠ 0) (h1 : -2 ^ 62 ≤ n) (h2 : n < 2 ^ 62) :
    ∃ a : ℚ, ofIntR n = fin a ∧ ofIntR (2 * n) = fin (2 * a) ∧ (2 : ℚ) ^ (0 : ℤ) ≤ |a|
      ∧ |a| ≤ (2 : ℚ) ^ (62 : ℤ) := by
  have hlo : (2 : ℚ) ^ (0 : ℤ) ≤ |(n : ℚ)| := by
    rw [zpow_zero]
    have : (1 : ℤ) ≤ |n| := Int.one_le_abs h0
    exact_mod_cast this
  have hhi : |(n : ℚ)| ≤ (2 : ℚ) ^ (62 : ℤ) := by
    have : |n| ≤ 2 ^ 62 := abs_le.2 ⟨h1, le_of_lt h2⟩
    have h' : ((|n| : ℤ) : ℚ) ≤ ((2 ^ 62 : ℤ) : ℚ) := by exact_mod_cast this
    rw [Int.cast_abs] at h'
    norm_num at h' ⊢
    exact h'
  obtain ⟨a, ha, ha0, ha1⟩ := round_abs_within (n : ℚ) 0 62 (by norm_num) (by norm_num) hlo hhi
  refine ⟨a, ha, ?_, ha0, ha1⟩
  unfold ofIntR
  rw [Int.cast_mul]
  have := round_two_mul (n : ℚ) a (le_trans (two_zpow_le (by norm_num)) hlo) ha
    (lt_of_le_of_lt ha1 (two_zpow_lt (by norm_num)))
  simpa using this

/-- Doubling the unit count doubles the distance, in binary64, when neither the product
`Action × LenStep` overflows nor the quotient by `1000` underflows. -/
theorem distance64_two_mul (n : ℤ) (l : ℚ) (h1 : -2 ^ 62 ≤ n) (h2 : n < 2 ^ 62)
    (hl : n = 0 ∨ l = 0 ∨ ((2 : ℚ) ^ (-1012 : ℤ) ≤ |l| ∧ |l| ≤ (2 : ℚ) ^ (960 : ℤ))) :
    ∃ D : ℚ, ((ofIntR n).mulR (fin l)).divR (round MInKm) = fin D
      ∧ ((ofIntR (2 * n)).mulR (fin l)).divR (round MInKm) = fin (2 * D)
      ∧ (fin 2).mulR (fin D) = fin (2 * D) := by
  have hz : ofIntR 0 = fin 0 := by simp [ofIntR, round_zero]
  have h20 : (fin 2).mulR (fin 0) = fin (2 * 0) := by
    rw [mulR_fin, mul_zero, round_zero]
  by_cases hn : n = 0
  · subst hn
    refine ⟨0, ?_, ?_, h20⟩
    · rw [hz, zero_mulR_fin, zero_divR within_MInKm]
    · rw [show (2 : ℤ) * 0 = 0 by norm_num, hz, zero_mulR_fin, zero_divR within_MInKm,
        mul_zero]
  obtain ⟨a, ha, ha2, ha0, ha1⟩ := ofIntR_two_mul n hn h1 h2
  rw [ha, ha2, round_MInKm]
  by_cases hl0 : l = 0
  · subst hl0
    refine ⟨0, ?_, ?_, h20⟩
    · rw [mulR_fin, mul_zero, round_zero, divR_fin _ _ (by norm_num), zero_div, round_zero]
    · rw [mulR_fin, mul_zero, round_zero, divR_fin _ _ (by norm_num), zero_div, round_zero,
        mul_zero]
  obtain ⟨hl1, hl2⟩ : (2 : ℚ) ^ (-1012 : ℤ) ≤ |l| ∧ |l| ≤ (2 : ℚ) ^ (960 : ℤ) := by
    rcases hl with h | h | h
    · exact absurd h hn
    · exact absurd h hl0
    · exact h
  -- the product
  have hp0 : (2 : ℚ) ^ (-1012 : ℤ) ≤ |a * l| := by
    rw [abs_mul]
    rw [zpow_zero] at ha0
    nlinarith [abs_nonneg l, two_zpow_pos (-1012)]
  have hp1 : |a * l| ≤ (2 : ℚ) ^ (1022 : ℤ) := by
    rw [abs_mul, show (1022 : ℤ) = 62 + 960 by norm_num, ← two_zpow_mul]
    exact mul_le_mul ha1 hl2 (abs_nonneg l) (le_of_lt (two_zpow_pos _))
  obtain ⟨p, hp, hpa, hpb⟩ := round_abs_within (a * l) (-1012) 1022 (by norm_num)
    (by norm_num) hp0 hp1
  have hp2 : round (2 * a * l) = fin (2 * p) := by
    rw [mul_assoc]
    exact round_two_mul (a * l) p (le_trans (two_zpow_le (by norm_num)) hp0) hp
      (lt_of_le_of_lt hpb (two_zpow_lt (by norm_num)))
  -- the quotient
  have hq0 : (2 : ℚ) ^ (-1022 : ℤ) ≤ |p / 1000| := by
    rw [abs_div, show |(1000 : ℚ)| = 1000 by norm_num, le_div_iff₀ (by norm_num)]
    have e : (2 : ℚ) ^ (-1012 : ℤ) = 2 ^ (-1022 : ℤ) * 1024 := by
      rw [show (-1012 : ℤ) = -1022 + 10 by norm_num, ← two_zpow_mul]
      norm_num
    rw [e] at hpa
    nlinarith [two_zpow_pos (-1022)]
  have hq1 : |p / 1000| ≤ (2 : ℚ) ^ (1022 : ℤ) := by
    rw [abs_div, show |(1000 : ℚ)| = 1000 by norm_num, div_le_iff₀ (by norm_num)]
    nlinarith [two_zpow_pos (1022), abs_nonneg p]
  obtain ⟨D, hD, hDa, hDb⟩ := round_abs_within (p / 1000) (-1022) 1022 (by norm_num)
    (by norm_num) hq0 hq1
  have hD2 : round (2 * p / 1000) = fin (2 * D) := by
    rw [mul_div_assoc]
    exact round_two_mul (p / 1000) D hq0 hD (lt_of_le_of_lt hDb (two_zpow_lt (by norm_num)))
  refine ⟨D, ?_, ?_, ?_⟩
  · rw [mulR_fin, hp, divR_fin _ _ (by norm_num), hD]
  · rw [mulR_fin, hp2, divR_fin _ _ (by norm_num), hD2]
  · rw [mulR_fin]
    exact round_two_mul D D hDa (round_round _ _ hD)
      (lt_of_le_of_lt hDb (two_zpow_lt (by norm_num)))

/-- Doubling a non-zero unit count keeps an infinite distance. -/
theorem distance64_two_mul_inf (n : ℤ) (b : Bool) (h0 : n ≠ 0) (h1 : -2 ^ 62 ≤ n)
    (h2 : n < 2 ^ 62) :
    ∃ c : Bool, ((ofIntR n).mulR (inf b)).divR (round MInKm) = inf c
      ∧ ((ofIntR (2 * n)).mulR (inf b)).divR (round MInKm) = inf c
      ∧ (fin 2).mulR (inf c) = inf c := by
  obtain ⟨a, ha, ha2, ha0, ha1⟩ := ofIntR_two_mul n h0 h1 h2
  have hane : a ≠ 0 := by
    intro h
    rw [h, abs_zero, zpow_zero] at ha0
    linarith
  have h2ane : 2 * a ≠ 0 := mul_ne_zero (by norm_num) hane
  have hs : (0 < 2 * a) ↔ (0 < a) := by
    constructor <;> intro h' <;> linarith
  refine ⟨if 0 < a then b else !b, ?_, ?_, ?_⟩
  · rw [ha, round_MInKm]
    show rnd (div (rnd (mul (fin a) (inf b))) (fin 1000)) = _
    simp [mul, div, rnd, hane]
  · rw [ha2, round_MInKm]
    show rnd (div (rnd (mul (fin (2 * a)) (inf b))) (fin 1000)) = _
    simp [mul, div, rnd, hane, hs]
  · show rnd (mul (fin 2) (inf _)) = _
    simp [mul, rnd]

/-- The comparison `==` holds of a float that is not `NaN` and itself. -/
theorem eq_self_fin (q : ℚ) : F64.eq (fin q) (fin q) = true := by
  simp [F64.eq]

theorem eq_self_inf (b : Bool) : F64.eq (inf b) (inf b) = true := by
  simp [F64.eq]

end F64

/-- C10, as amended: in binary64 the distance is `float64(Action) × LenStep / 1000` with
each operation rounded, and for a unit count `-2 ^ 62 ≤ n < 2 ^ 62` the distance with
`Action = 2 × n` equals (`==`) twice the distance with `Action = n`, for every kind of
workout, when the per-unit length `L` is an infinity and `n ≠ 0`, or is a number and `n = 0`
or `L = 0` or `2 ^ (-1012) ≤ |L| ≤ 2 ^ 960`. -/
theorem distance64_double (n : Int) (L : F64) (h1 : -2 ^ 62 ≤ n) (h2 : n < 2 ^ 62)
    (hL : (∃ l : ℚ, L = F64.fin l
        ∧ (n = 0 ∨ l = 0 ∨ ((2 : ℚ) ^ (-1012 : ℤ) ≤ |l| ∧ |l| ≤ (2 : ℚ) ^ (960 : ℤ))))
      ∨ (∃ b : Bool, L = F64.inf b ∧ n ≠ 0)) :
    (∀ t : Training,
        t.distance64 = ((F64.ofIntR t.Action).mulR t.LenStep).divR (F64.round MInKm))
      ∧ (∀ t : Training,
          F64.eq ({ t with Action := 2 * n, LenStep := L } : Training).distance64
            ((F64.fin 2).mulR ({ t with Action := n, LenStep := L } : Training).distance64)
            = true)
      ∧ (∀ r : Running,
          F64.eq ({ r with Action := 2 * n, LenStep := L } : Running).toTraining.distance64
            ((F64.fin 2).mulR
              ({ r with Action := n, LenStep := L } : Running).toTraining.distance64)
            = true)
      ∧ (∀ w : Walking,
          F64.eq ({ w with Action := 2 * n, LenStep := L } : Walking).toTraining.distance64
            ((F64.fin 2).mulR
              ({ w with Action := n, LenStep := L } : Walking).toTraining.distance64)
            = true)
      ∧ (∀ s : Swimming,
          F64.eq ({ s with Action := 2 * n, LenStep := L } : Swimming).toTraining.distance64
            ((F64.fin 2).mulR
              ({ s with Action := n, LenStep := L } : Swimming).toTraining.distance64)
            = true) := by
  have key : F64.eq (((F64.ofIntR (2 * n)).mulR L).divR (F64.round MInKm))
      ((F64.fin 2).mulR (((F64.ofIntR n).mulR L).divR (F64.round MInKm))) = true := by
    rcases hL with ⟨l, rfl, hl⟩ | ⟨b, rfl, hn⟩
    · obtain ⟨D, e1, e2, e3⟩ := F64.distance64_two_mul n l h1 h2 hl
      rw [e1, e2, e3]
      exact F64.eq_self_fin _
    · obtain ⟨c, e1, e2, e3⟩ := F64.distance64_two_mul_inf n b hn h1 h2
      rw [e1, e2, e3]
      exact F64.eq_self_inf _
  exact ⟨fun _ => rfl, fun _ => key, fun _ => key, fun _ => key, fun _ => key⟩

/-- C10, as amended, at the running workout of `main`: `5000` and `10000` steps. -/
theorem distance64_double_witness :
    F64.eq (main.runningWith (2 * 5000) (F64.round LenStep)).toTraining.distance64
      ((F64.fin 2).mulR (main.runningWith 5000 (F64.round LenStep)).toTraining.distance64)
      = true :=
  (distance64_double 5000 (F64.round LenStep) (by norm_num) (by norm_num)
    (Or.inl ⟨_, F64.round_LenStep, Or.inr (Or.inr ⟨by
      rw [abs_of_pos (by norm_num)]
      exact le_trans (F64.two_zpow_le (by norm_num : (-1012 : ℤ) ≤ -1)) (by norm_num), by
      rw [abs_of_pos (by norm_num)]
      exact le_trans (by norm_num) (F64.two_zpow_le (by norm_num : (0 : ℤ) ≤ 960))⟩)⟩)).2.2.1
    main.running

namespace F64

theorem ofIntR_one : ofIntR 1 = fin 1 := by
  have := ofIntR_exact 1 (by norm_num) (by norm_num)
  simpa using this

theorem ofIntR_two : ofIntR 2 = fin 2 := by
  have := ofIntR_exact 2 (by norm_num) (by norm_num)
  simpa using this

theorem inf_divR_MInKm (b : Bool) : (inf b).divR (round MInKm) = inf b := by
  rw [round_MInKm]
  show rnd (div (inf b) (fin 1000)) = inf b
  simp [div, rnd]

/-- The distance of two units of the length `2 ^ 1023` overflows. -/
theorem distance64_overflow_two :
    ((ofIntR 2).mulR (fin (2 ^ (1023 : ℤ)))).divR (round MInKm) = inf false := by
  rw [ofIntR_two, mulR_fin, round_overflow _ (by norm_num), inf_divR_MInKm]

/-- Twice the distance of one unit of the length `2 ^ 1023` is a number. -/
theorem distance64_overflow_one :
    (fin 2).mulR (((ofIntR 1).mulR (fin (2 ^ (1023 : ℤ)))).divR (round MInKm))
      = fin (2 * (4611686018427388 * 2 ^ (961 : ℤ))) := by
  have h1 : round (1 * 2 ^ (1023 : ℤ)) = fin (2 ^ (1023 : ℤ)) := by
    apply round_cert _ 1023 4503599627370496
    · norm_num
    · norm_num
    · norm_num
    · norm_num [abs_lt]
    · norm_num
    · norm_num
  have h2 : round (2 ^ (1023 : ℤ) / 1000) = fin (4611686018427388 * 2 ^ (961 : ℤ)) := by
    apply round_cert _ 1013 4611686018427388
    · norm_num
    · norm_num
    · norm_num
    · norm_num [abs_lt]
    · norm_num
    · norm_num
  rw [ofIntR_one, mulR_fin, h1, round_MInKm, divR_fin _ _ (by norm_num), h2, mulR_fin]
  apply round_two_mul _ _ _ (round_round _ _ h2)
  · rw [abs_of_pos (by norm_num)]
    norm_num
  · rw [abs_of_pos (by norm_num)]
    norm_num

/-- The distance of one and of two units of the length `1300 × 2 ^ (-1074)`: the quotient
by `1000` underflows. -/
theorem distance64_underflow :
    ((ofIntR 2).mulR (fin (1300 * 2 ^ (-1074 : ℤ)))).divR (round MInKm)
        = fin (3 * 2 ^ (-1074 : ℤ))
      ∧ (fin 2).mulR (((ofIntR 1).mulR (fin (1300 * 2 ^ (-1074 : ℤ)))).divR (round MInKm))
        = fin (2 * 2 ^ (-1074 : ℤ)) := by
  have hu := two_zpow_pos (-1074)
  have h1 : round (1 * (1300 * 2 ^ (-1074 : ℤ))) = fin (1300 * 2 ^ (-1074 : ℤ)) := by
    apply round_cert_subnormal _ 1300
    · norm_num
    · norm_num
    · norm_num [abs_lt]
    · norm_num
    · norm_num
  have h2 : round (2 * (1300 * 2 ^ (-1074 : ℤ))) = fin (2600 * 2 ^ (-1074 : ℤ)) := by
    apply round_cert_subnormal _ 2600
    · norm_num
    · norm_num
    · norm_num [abs_lt]
    · norm_num
    · norm_num
  have h3 : round (1300 * 2 ^ (-1074 : ℤ) / 1000) = fin (1 * 2 ^ (-1074 : ℤ)) := by
    apply round_cert_subnormal _ 1
    · norm_num
    · norm_num
    · norm_num [abs_lt]
    · norm_num
    · norm_num
  have h4 : round (2600 * 2 ^ (-1074 : ℤ) / 1000) = fin (3 * 2 ^ (-1074 : ℤ)) := by
    apply round_cert_subnormal _ 3
    · norm_num
    · norm_num
    · norm_num [abs_lt]
    · norm_num
    · norm_num
  have h5 : round (2 * (1 * 2 ^ (-1074 : ℤ))) = fin (2 * 2 ^ (-1074 : ℤ)) := by
    apply round_cert_subnormal _ 2
    · norm_num
    · norm_num
    · norm_num [abs_lt]
    · norm_num
    · norm_num
  constructor
  · rw [ofIntR_two, mulR_fin, h2, round_MInKm, divR_fin _ _ (by norm_num), h4]
  · rw [ofIntR_one, mulR_fin, h1, round_MInKm, divR_fin _ _ (by norm_num), h3, mulR_fin, h5]

end F64

/-- C10 fails outside the range of the amended statement.  With `L = 2 ^ 1023` the distance
of two units is `+Inf` (the product overflows) and twice the distance of one unit is a
number.  With `L = 1300 × 2 ^ (-1074)` the distance of two units is `3 × 2 ^ (-1074)` and
twice the distance of one unit is `2 × 2 ^ (-1074)` (the quotient by `1000` underflows).
With `L = NaN`, and with `L = +Inf` at zero units, both sides are `NaN`, and `NaN == NaN` is
false, in exact arithmetic as in binary64. -/
theorem distance64_double_fails :
    ((main.runningWith (2 * 1) (F64.fin (2 ^ (1023 : ℤ)))).toTraining.distance64
          = F64.inf false
        ∧ (F64.fin 2).mulR
            (main.runningWith 1 (F64.fin (2 ^ (1023 : ℤ)))).toTraining.distance64
          = F64.fin (2 * (4611686018427388 * 2 ^ (961 : ℤ)))
        ∧ F64.eq (main.runningWith (2 * 1) (F64.fin (2 ^ (1023 : ℤ)))).toTraining.distance64
            ((F64.fin 2).mulR
              (main.runningWith 1 (F64.fin (2 ^ (1023 : ℤ)))).toTraining.distance64)
          = false)
      ∧ ((main.runningWith (2 * 1) (F64.fin (1300 * 2 ^ (-1074 : ℤ)))).toTraining.distance64
          = F64.fin (3 * 2 ^ (-1074 : ℤ))
        ∧ (F64.fin 2).mulR
            (main.runningWith 1 (F64.fin (1300 * 2 ^ (-1074 : ℤ)))).toTraining.distance64
          = F64.fin (2 * 2 ^ (-1074 : ℤ))
        ∧ F64.eq
            (main.runningWith (2 * 1) (F64.fin (1300 * 2 ^ (-1074 : ℤ)))).toTraining.distance64
            ((F64.fin 2).mulR
              (main.runningWith 1 (F64.fin (1300 * 2 ^ (-1074 : ℤ)))).toTraining.distance64)
          = false)
      ∧ (F64.eq (main.runningWith (2 * 5000) F64.nan).toTraining.distance64
            ((F64.fin 2).mulR (main.runningWith 5000 F64.nan).toTraining.distance64)
          = false
        ∧ F64.eq (main.runningWith (2 * 5000) F64.nan).toTraining.distance
            (F64.fin 2 * (main.runningWith 5000 F64.nan).toTraining.distance)
          = false)
      ∧ (F64.eq (main.runningWith (2 * 0) (F64.inf false)).toTraining.distance64
            ((F64.fin 2).mulR (main.runningWith 0 (F64.inf false)).toTraining.distance64)
          = false
        ∧ F64.eq (main.runningWith (2 * 0) (F64.inf false)).toTraining.distance
            (F64.fin 2 * (main.runningWith 0 (F64.inf false)).toTraining.distance)
          = false) := by
  have d2 : ∀ L : F64, (main.runningWith (2 * 1) L).toTraining.distance64
      = ((F64.ofIntR 2).mulR L).divR (F64.round MInKm) := fun _ => rfl
  have d1 : ∀ L : F64, (main.runningWith 1 L).toTraining.distance64
      = ((F64.ofIntR 1).mulR L).divR (F64.round MInKm) := fun _ => rfl
  have dn : ∀ n : Int, (main.runningWith n F64.nan).toTraining.distance64 = F64.nan := by
    intro n
    show ((F64.ofIntR n).mulR F64.nan).divR (F64.round MInKm) = F64.nan
    rw [F64.mulR_nan, F64.nan_divR]
  have en : ∀ n : Int, (main.runningWith n F64.nan).toTraining.distance = F64.nan := by
    intro n
    show F64.ofInt n * F64.nan / F64.fin MInKm = F64.nan
    rw [F64.mul_nan, F64.nan_div]
  have h0 : F64.ofIntR 0 = F64.fin 0 := by simp [F64.ofIntR, F64.round_zero]
  have di : ∀ n : Int, n = 0 →
      (main.runningWith n (F64.inf false)).toTraining.distance64 = F64.nan := by
    intro n hn
    show ((F64.ofIntR n).mulR (F64.inf false)).divR (F64.round MInKm) = F64.nan
    rw [hn, h0]
    show (F64.rnd (F64.fin 0 * F64.inf false)).divR (F64.round MInKm) = F64.nan
    rw [F64.zero_mul_inf]
    exact F64.nan_divR _
  have ei : ∀ n : Int, n = 0 →
      (main.runningWith n (F64.inf false)).toTraining.distance = F64.nan := by
    intro n hn
    show F64.fin ((n : ℤ) : ℚ) * F64.inf false / F64.fin MInKm = F64.nan
    rw [hn, Int.cast_zero, F64.zero_mul_inf, F64.nan_div]
  have hu := F64.two_zpow_pos (-1074)
  refine ⟨⟨?_, ?_, ?_⟩, ⟨?_, ?_, ?_⟩, ⟨?_, ?_⟩, ⟨?_, ?_⟩⟩
  · rw [d2]; exact F64.distance64_overflow_two
  · rw [d1]; exact F64.distance64_overflow_one
  · rw [d2, d1, F64.distance64_overflow_two, F64.distance64_overflow_one]
    rfl
  · rw [d2]; exact F64.distance64_underflow.1
  · rw [d1]; exact F64.distance64_underflow.2
  · rw [d2, d1, F64.distance64_underflow.1, F64.distance64_underflow.2]
    simp only [F64.eq, decide_eq_false_iff_not]
    intro h
    linarith
  · rw [dn, dn, F64.mulR_nan]; rfl
  · rw [en, en, F64.mul_nan]; rfl
  · rw [di _ (by norm_num), di _ rfl, F64.mulR_nan]; rfl
  · rw [ei _ (by norm_num), ei _ rfl, F64.mul_nan]; rfl

/-! ## C12 -/

/-- C12, as amended: at zero units, for a finite per-unit length and `0 < Duration < 2 ^ 63`,
the distance and the base mean speed computed in binary64 are `0`; for a weight between
`2 ^ (-1022)` and `2 ^ 990` (and, for walking, a height that is at least `2 ^ (-1022)`, or
`+Inf`) the calories of running and of walking are the binary64 values of
`1.79 × Weight / 1000 × hours × 60` and `0.035 × Weight × hours × 60`, finite and `> 0`. -/
theorem zero_units_boundary64 :
    (∀ (t : Training) (l : ℚ), t.Action = 0 → t.LenStep = F64.fin l → 0 < t.Duration →
        t.Duration < 2 ^ 63 →
        t.distance64 = F64.fin 0 ∧ t.meanSpeed64 = F64.fin 0)
      ∧ (∀ (r : Running) (l m : ℚ), r.Action = 0 → r.LenStep = F64.fin l →
          0 < r.Duration → r.Duration < 2 ^ 63 → r.Weight = F64.fin m →
          (2 : ℚ) ^ (-1022 : ℤ) ≤ m → m ≤ (2 : ℚ) ^ (990 : ℤ) →
          r.Calories64
              = ((((F64.round CaloriesMeanSpeedShift).mulR r.Weight).divR
                  (F64.round MInKm)).mulR (Duration.Hours64 r.Duration)).mulR
                  (F64.round MinInHours)
            ∧ r.Calories64.isFinite = true ∧ r.Calories64 ≠ F64.fin 0
            ∧ F64.lt (F64.fin 0) r.Calories64 = true)
      ∧ (∀ (w : Walking) (l m : ℚ), w.Action = 0 → w.LenStep = F64.fin l →
          0 < w.Duration → w.Duration < 2 ^ 63 → w.Weight = F64.fin m →
          (2 : ℚ) ^ (-1022 : ℤ) ≤ m → m ≤ (2 : ℚ) ^ (990 : ℤ) →
          F64.AtLeast (-1022) w.Height →
          w.Calories64
              = (((F64.round CaloriesWeightMultiplier).mulR w.Weight).mulR
                  (Duration.Hours64 w.Duration)).mulR (F64.round MinInHours)
            ∧ w.Calories64.isFinite = true ∧ w.Calories64 ≠ F64.fin 0
            ∧ F64.lt (F64.fin 0) w.Calories64 = true) := by
  refine ⟨fun t l hA hl hd hd2 =>
    ⟨distance64_zero_units t l hA hl, meanSpeed64_zero_units t l hA hl hd hd2⟩, ?_, ?_⟩
  · intro r l m hA hl hd hd2 hm hm0 hm1
    have hh := Duration.Hours64_within r.Duration hd hd2
    have hW : F64.Within (-1022) 990 r.Weight := by rw [hm]; exact ⟨hm0, hm1⟩
    have e := running_calories64_zero_units r l hA hl hd hd2
    have t1 := F64.mulR_within F64.within_shift hW (by norm_num) (by norm_num)
    have t2 := F64.divR_within t1 F64.within_MInKm (by norm_num) (by norm_num)
    have t3 := F64.mulR_within t2 hh (by norm_num) (by norm_num)
    have t4 := F64.mulR_within t3 F64.within_MinInHours (by norm_num) (by norm_num)
    rw [← e] at t4
    exact ⟨e, t4.finite_ne_zero⟩
  · intro w l m hA hl hd hd2 hm hm0 hm1 hH
    have hh := Duration.Hours64_within w.Duration hd hd2
    have hW : F64.Within (-1022) 990 w.Weight := by rw [hm]; exact ⟨hm0, hm1⟩
    have e := walking_calories64_zero_units w l m hA hl hd hd2 hm hH
    have t1 := F64.mulR_within F64.within_weight_multiplier hW (by norm_num) (by norm_num)
    have t3 := F64.mulR_within t1 hh (by norm_num) (by norm_num)
    have t4 := F64.mulR_within t3 F64.within_MinInHours (by norm_num) (by norm_num)
    rw [← e] at t4
    exact ⟨e, t4.finite_ne_zero⟩

/-- C12, as amended, at the running and the walking workout of `main` without a step. -/
theorem zero_units_boundary64_witness :
    (main.runningNoSteps.toTraining.distance64 = F64.fin 0
        ∧ main.runningNoSteps.toTraining.meanSpeed64 = F64.fin 0)
      ∧ (main.runningNoSteps.Calories64.isFinite = true
        ∧ main.runningNoSteps.Calories64 ≠ F64.fin 0)
      ∧ (main.walkingNoSteps.Calories64.isFinite = true
        ∧ main.walkingNoSteps.Calories64 ≠ F64.fin 0) := by
  have hH : F64.AtLeast (-1022) main.walkingNoSteps.Height := by
    show (2 : ℚ) ^ (-1022 : ℤ) ≤ 185
    exact le_trans (F64.two_zpow_le (by norm_num : (-1022 : ℤ) ≤ 0)) (by norm_num)
  have hr := zero_units_boundary64.2.1 main.runningNoSteps _ 85 rfl F64.round_LenStep
    main_durations.1 main_durations.2.1 rfl (by norm_num) (by norm_num)
  have hw := zero_units_boundary64.2.2 main.walkingNoSteps _ 85 rfl F64.round_LenStep
    main_durations.2.2.1 main_durations.2.2.2.1 rfl (by norm_num) (by norm_num) hH
  exact ⟨zero_units_boundary64.1 main.runningNoSteps.toTraining _ rfl F64.round_LenStep
      main_durations.1 main_durations.2.1, ⟨hr.2.1, hr.2.2.1⟩, ⟨hw.2.1, hw.2.2.1⟩⟩

/-- C12 fails outside the range of the amended statement.  The running workout of `main`
with `Action = 0` and `LenStep = +Inf` has `Duration > 0` and `Weight > 0`, and its distance
is `0 × +Inf = NaN`, in exact arithmetic as in binary64.  With `Action = 0` and the smallest
positive weight `2 ^ (-1074)` the calories of running and of walking are `0` in binary64:
`1.79 × Weight / 1000` and `0.035 × Weight` underflow.  With `Action = 0` and the smallest
positive height the calories of walking are `NaN`: `Height / 100` underflows to `0` and the
speed term is `0 / 0`.  With `Action = 0`, the weight `2 ^ 1023` and a duration of one day the
calories of running are `+Inf`: the product with the minutes overflows. -/
theorem zero_units_degenerate :
    (main.runningNoStepsInfLen.Action = 0 ∧ 0 < main.runningNoStepsInfLen.Duration
        ∧ F64.lt (F64.fin 0) main.runningNoStepsInfLen.Weight = true
        ∧ main.runningNoStepsInfLen.toTraining.distance = F64.nan
        ∧ main.runningNoStepsInfLen.toTraining.distance64 = F64.nan)
      ∧ (main.runningNoStepsTinyWeight.Action = 0 ∧ 0 < main.runningNoStepsTinyWeight.Duration
        ∧ F64.lt (F64.fin 0) main.runningNoStepsTinyWeight.Weight = true
        ∧ main.runningNoStepsTinyWeight.Calories64 = F64.fin 0)
      ∧ (main.walkingNoStepsTinyWeight.Action = 0 ∧ 0 < main.walkingNoStepsTinyWeight.Duration
        ∧ F64.lt (F64.fin 0) main.walkingNoStepsTinyWeight.Weight = true
        ∧ F64.lt (F64.fin 0) main.walkingNoStepsTinyWeight.Height = true
        ∧ main.walkingNoStepsTinyWeight.Calories64 = F64.fin 0)
      ∧ (main.walkingNoStepsTinyHeight.Action = 0 ∧ 0 < main.walkingNoStepsTinyHeight.Duration
        ∧ F64.lt (F64.fin 0) main.walkingNoStepsTinyHeight.Weight = true
        ∧ F64.lt (F64.fin 0) main.walkingNoStepsTinyHeight.Height = true
        ∧ main.walkingNoStepsTinyHeight.Calories64 = F64.nan
        ∧ main.walkingNoStepsTinyHeight.Calories64.isFinite = false)
      ∧ (main.runningNoStepsHugeWeight.Action = 0 ∧ 0 < main.runningNoStepsHugeWeight.Duration
        ∧ F64.lt (F64.fin 0) main.runningNoStepsHugeWeight.Weight = true
        ∧ main.runningNoStepsHugeWeight.Calories64 = F64.inf false
        ∧ main.runningNoStepsHugeWeight.Calories64.isFinite = false) := by
  have hhuge : F64.lt (F64.fin 0) main.runningNoStepsHugeWeight.Weight = true := by
    show F64.lt (F64.fin 0) (F64.fin (2 ^ (1023 : ℤ))) = true
    simp only [F64.lt, decide_eq_true_eq]
    exact F64.two_zpow_pos _
  exact ⟨⟨rfl, main_durations.1,
      by norm_num [main.runningNoStepsInfLen, main.running, F64.lt],
      runningNoStepsInfLen_distance, runningNoStepsInfLen_distance64⟩,
    ⟨rfl, main_durations.1, F64.smallest_pos, runningNoStepsTinyWeight_calories64⟩,
    ⟨rfl, main_durations.2.2.1, F64.smallest_pos,
      by norm_num [main.walkingNoStepsTinyWeight, main.walking64, main.walking, F64.lt],
      walkingNoStepsTinyWeight_calories64⟩,
    ⟨rfl, main_durations.2.2.1,
      by norm_num [main.walkingNoStepsTinyHeight, main.walking64, main.walking, F64.lt],
      F64.smallest_pos, walkingNoStepsTinyHeight_calories64,
      by rw [walkingNoStepsTinyHeight_calories64]; rfl⟩,
    ⟨rfl, by decide, hhuge, runningNoStepsHugeWeight_calories64,
      by rw [runningNoStepsHugeWeight_calories64]; rfl⟩⟩

/-! ## C14 -/

/-- The test `isZero` holds of the finite zero only. -/
theorem F64.isZero_iff (y : F64) : y.isZero = true ↔ y = F64.fin 0 := by
  cases y with
  | nan => simp [F64.isZero]
  | inf b => simp [F64.isZero]
  | fin q => simp [F64.isZero]

/-- A checked division fails exactly on a zero divisor. -/
theorem F64.divCheckedR_eq_none_iff (x y : F64) :
    F64.divCheckedR x y = none ↔ y = F64.fin 0 := by
  rw [← F64.isZero_iff]
  unfold F64.divCheckedR
  split_ifs with h <;> simp [h]

/-- A checked division by a non-zero divisor is the division. -/
theorem F64.divCheckedR_of_ne (x y : F64) (h : y ≠ F64.fin 0) :
    F64.divCheckedR x y = some (x.divR y) := by
  have : ¬ y.isZero = true := fun h' => h ((F64.isZero_iff y).1 h')
  simp [F64.divCheckedR, this]

/-- A non-zero number is a non-zero float. -/
theorem F64.fin_ne_zero (q : ℚ) (h : q ≠ 0) : F64.fin q ≠ F64.fin 0 := by
  intro h'
  injection h' with h'
  exact h h'

/-- No divisor of `Hours` is zero. -/
theorem Duration.HoursChecked64_eq (d : Duration) :
    Duration.HoursChecked64 d = some (Duration.Hours64 d) := by
  have hH : ¬ Duration.Hour = 0 := by decide
  have hc : F64.round (60 * 60 * 1000000000) ≠ F64.fin 0 := by
    rw [F64.round_hour_ns]
    exact F64.fin_ne_zero _ (by norm_num)
  simp only [Duration.HoursChecked64, if_neg hH, F64.divCheckedR_of_ne _ _ hc, Option.map_some']
  rfl

/-- The divisor of `distance` is not zero. -/
theorem Training.distanceChecked64_eq (t : Training) :
    t.distanceChecked64 = some t.distance64 := by
  have h1000 : F64.round MInKm ≠ F64.fin 0 := by
    rw [F64.round_MInKm]
    exact F64.fin_ne_zero _ (by norm_num)
  simp only [Training.distanceChecked64, F64.divCheckedR_of_ne _ _ h1000]
  rfl

/-- The only divisor of `meanSpeed` that can be zero is the hours. -/
theorem Training.meanSpeedChecked64_eq (t : Training) :
    t.meanSpeedChecked64 = F64.divCheckedR t.distance64 (Duration.Hours64 t.Duration) := by
  simp only [Training.meanSpeedChecked64, Training.distanceChecked64_eq,
    Duration.HoursChecked64_eq, Option.some_bind]

/-- The hours of a zero duration are zero, in binary64. -/
theorem Duration.Hours64_zero : Duration.Hours64 0 = F64.fin 0 := by
  have h1 : Int.tdiv 0 Duration.Hour = 0 := by decide
  have h2 : Int.tmod 0 Duration.Hour = 0 := by decide
  have h0 : F64.ofIntR 0 = F64.fin 0 := by simp [F64.ofIntR, F64.round_zero]
  simp only [Duration.Hours64, h1, h2, h0, F64.round_hour_ns]
  rw [F64.divR_fin _ _ (by norm_num), zero_div, F64.round_zero, F64.addR_fin, add_zero,
    F64.round_zero]

/-- The hours of a non-negative duration are zero, in binary64, for the zero duration
only. -/
theorem Duration.Hours64_eq_zero_iff (d : Int) (h0 : 0 ≤ d) (h : d < 2 ^ 63) :
    Duration.Hours64 d = F64.fin 0 ↔ d = 0 := by
  constructor
  · intro hz
    by_contra hne
    have hpos : 0 < d := lt_of_le_of_ne h0 (Ne.symm hne)
    exact (Duration.Hours64_within d hpos h).finite_ne_zero.2.1 hz
  · intro hd
    rw [hd]
    exact Duration.Hours64_zero

/-- The constant divisor `1000` is not zero. -/
theorem F64.round_MInKm_ne_zero : F64.round MInKm ≠ F64.fin 0 := by
  rw [F64.round_MInKm]
  exact F64.fin_ne_zero _ (by norm_num)

/-- The constant divisor `100` is not zero. -/
theorem F64.round_CmInM_ne_zero : F64.round CmInM ≠ F64.fin 0 := by
  rw [F64.round_CmInM]
  exact F64.fin_ne_zero _ (by norm_num)

/-- The checked base mean speed fails exactly when the hours are zero. -/
theorem meanSpeedChecked64_if (t : Training) :
    t.meanSpeedChecked64
      = if Duration.Hours64 t.Duration = F64.fin 0 then none else some t.meanSpeed64 := by
  rw [Training.meanSpeedChecked64_eq]
  split_ifs with h
  · exact (F64.divCheckedR_eq_none_iff _ _).2 h
  · rw [F64.divCheckedR_of_ne _ _ h]; rfl

/-- The checked summary fails exactly when the hours are zero. -/
theorem TrainingInfoChecked64_if (t : Training) :
    t.TrainingInfoChecked64
      = if Duration.Hours64 t.Duration = F64.fin 0 then none else some t.TrainingInfo64 := by
  simp only [Training.TrainingInfoChecked64, Training.distanceChecked64_eq,
    meanSpeedChecked64_if, Option.some_bind]
  split_ifs with h
  · rfl
  · rfl

/-- The checked calories of running fail exactly when the hours are zero. -/
theorem running_CaloriesChecked64_if (r : Running) :
    r.CaloriesChecked64
      = if Duration.Hours64 r.Duration = F64.fin 0 then none else some r.Calories64 := by
  simp only [Running.CaloriesChecked64, meanSpeedChecked64_if, Duration.HoursChecked64_eq,
    F64.divCheckedR_of_ne _ _ F64.round_MInKm_ne_zero]
  split_ifs with h
  · rfl
  · rfl

/-- The checked calories of walking fail exactly when the hours or the height in meters are
zero. -/
theorem walking_CaloriesChecked64_if (w : Walking) :
    w.CaloriesChecked64
      = if Duration.Hours64 w.Duration = F64.fin 0 then none
        else if w.Height.divR (F64.round CmInM) = F64.fin 0 then none
        else some w.Calories64 := by
  simp only [Walking.CaloriesChecked64, meanSpeedChecked64_if, Duration.HoursChecked64_eq,
    F64.divCheckedR_of_ne _ _ F64.round_CmInM_ne_zero]
  split_ifs with h hz
  · rfl
  · simp only [Option.some_bind, (F64.divCheckedR_eq_none_iff _ _).2 hz, Option.none_bind]
  · simp only [Option.some_bind, F64.divCheckedR_of_ne _ _ hz]
    rfl

/-- The checked swimming mean speed fails exactly when the hours are zero. -/
theorem swimming_meanSpeedChecked64_if (s : Swimming) :
    s.meanSpeedChecked64
      = if Duration.Hours64 s.Duration = F64.fin 0 then none else some s.meanSpeed64 := by
  simp only [Swimming.meanSpeedChecked64, Duration.HoursChecked64_eq,
    F64.divCheckedR_of_ne _ _ F64.round_MInKm_ne_zero, Option.some_bind]
  split_ifs with h
  · exact (F64.divCheckedR_eq_none_iff _ _).2 h
  · rw [F64.divCheckedR_of_ne _ _ h]; rfl

/-- The checked calories of swimming fail exactly when the hours are zero. -/
theorem swimming_CaloriesChecked64_if (s : Swimming) :
    s.CaloriesChecked64
      = if Duration.Hours64 s.Duration = F64.fin 0 then none else some s.Calories64 := by
  simp only [Swimming.CaloriesChecked64, swimming_meanSpeedChecked64_if,
    Duration.HoursChecked64_eq]
  split_ifs with h
  · rfl
  · rfl

/-- C14, as amended: in binary64, for `0 < Duration` (and, for walking, a height whose
quotient by `100` is not zero) no divisor evaluated by `distance`, the two `meanSpeed`, the
three `Calories` and `TrainingInfo` is zero: the computations with every divisor checked
succeed with the results of the program.  The constant divisors are never zero; a
computation meets a zero divisor exactly when the hours are zero or, for walking, when
`Height / 100` is zero.  The hours of a duration `d ≥ 0` are zero for `d = 0` only, and
`Height / 100` is zero exactly for the heights of magnitude at most `50 × 2 ^ (-1074)`, which
include non-zero heights: the precondition on the height is `|Height| > 50 × 2 ^ (-1074)`. -/
theorem divisors_nonzero64 :
    (∀ t : Training, 0 < t.Duration → t.Duration < 2 ^ 63 →
        t.distanceChecked64 = some t.distance64 ∧ t.meanSpeedChecked64 = some t.meanSpeed64
          ∧ t.TrainingInfoChecked64 = some t.TrainingInfo64)
      ∧ (∀ r : Running, 0 < r.Duration → r.Duration < 2 ^ 63 →
          r.CaloriesChecked64 = some r.Calories64)
      ∧ (∀ w : Walking, 0 < w.Duration → w.Duration < 2 ^ 63 →
          w.Height.divR (F64.round CmInM) ≠ F64.fin 0 →
          w.CaloriesChecked64 = some w.Calories64)
      ∧ (∀ (w : Walking) (h : ℚ), 0 < w.Duration → w.Duration < 2 ^ 63 →
          w.Height = F64.fin h → 50 * (2 : ℚ) ^ (-1074 : ℤ) < |h| →
          w.CaloriesChecked64 = some w.Calories64)
      ∧ (∀ s : Swimming, 0 < s.Duration → s.Duration < 2 ^ 63 →
          s.meanSpeedChecked64 = some s.meanSpeed64
            ∧ s.CaloriesChecked64 = some s.Calories64)
      ∧ (∀ t : Training, t.distanceChecked64 = some t.distance64)
      ∧ (∀ d : Int, Duration.HoursChecked64 d = some (Duration.Hours64 d))
      ∧ (∀ t : Training,
          t.meanSpeedChecked64 = none ↔ Duration.Hours64 t.Duration = F64.fin 0)
      ∧ (∀ t : Training,
          t.TrainingInfoChecked64 = none ↔ Duration.Hours64 t.Duration = F64.fin 0)
      ∧ (∀ r : Running,
          r.CaloriesChecked64 = none ↔ Duration.Hours64 r.Duration = F64.fin 0)
      ∧ (∀ w : Walking,
          w.CaloriesChecked64 = none
            ↔ Duration.Hours64 w.Duration = F64.fin 0
              ∨ w.Height.divR (F64.round CmInM) = F64.fin 0)
      ∧ (∀ s : Swimming,
          s.meanSpeedChecked64 = none ↔ Duration.Hours64 s.Duration = F64.fin 0)
      ∧ (∀ s : Swimming,
          s.CaloriesChecked64 = none ↔ Duration.Hours64 s.Duration = F64.fin 0)
      ∧ (∀ d : Int, 0 ≤ d → d < 2 ^ 63 → (Duration.Hours64 d = F64.fin 0 ↔ d = 0))
      ∧ (∀ h : ℚ, (F64.fin h).divR (F64.round CmInM) = F64.fin 0
          ↔ |h| ≤ 50 * (2 : ℚ) ^ (-1074 : ℤ)) := by
  have hms := meanSpeedChecked64_if
  have hti := TrainingInfoChecked64_if
  have hrun := running_CaloriesChecked64_if
  have hwalk := walking_CaloriesChecked64_if
  have hsm := swimming_meanSpeedChecked64_if
  have hsc := swimming_CaloriesChecked64_if
  have hpos : ∀ d : Int, 0 < d → d < 2 ^ 63 → Duration.Hours64 d ≠ F64.fin 0 := by
    intro d hd hd2
    exact (Duration.Hours64_within d hd hd2).finite_ne_zero.2.1
  refine ⟨?_, ?_, ?_, ?_, ?_, Training.distanceChecked64_eq, Duration.HoursChecked64_eq, ?_,
    ?_, ?_, ?_, ?_, ?_, Duration.Hours64_eq_zero_iff, F64.divR_CmInM_eq_zero_iff⟩
  · intro t hd hd2
    exact ⟨Training.distanceChecked64_eq t, by rw [hms, if_neg (hpos _ hd hd2)],
      by rw [hti, if_neg (hpos _ hd hd2)]⟩
  · intro r hd hd2
    rw [hrun, if_neg (hpos _ hd hd2)]
  · intro w hd hd2 hh
    rw [hwalk, if_neg (hpos _ hd hd2), if_neg hh]
  · intro w h hd hd2 hH hh
    rw [hwalk, if_neg (hpos _ hd hd2), if_neg]
    rw [hH, F64.divR_CmInM_eq_zero_iff]
    exact not_le.2 hh
  · intro s hd hd2
    exact ⟨by rw [hsm, if_neg (hpos _ hd hd2)], by rw [hsc, if_neg (hpos _ hd hd2)]⟩
  · intro t
    rw [hms]
    split_ifs with h <;> simp [h]
  · intro t
    rw [hti]
    split_ifs with h <;> simp [h]
  · intro r
    rw [hrun]
    split_ifs with h <;> simp [h]
  · intro w
    rw [hwalk]
    split_ifs with h hz
    · simp [h]
    · simp [hz]
    · simp [h, hz]
  · intro s
    rw [hsm]
    split_ifs with h <;> simp [h]
  · intro s
    rw [hsc]
    split_ifs with h <;> simp [h]

/-- C14, as amended, at the workouts of `main`, and at a zero duration and a zero height. -/
theorem divisors_nonzero64_witness :
    (main.running64.toTraining.meanSpeedChecked64
          = some main.running64.toTraining.meanSpeed64
        ∧ main.running64.toTraining.TrainingInfoChecked64
          = some main.running64.toTraining.TrainingInfo64)
      ∧ main.running64.CaloriesChecked64 = some main.running64.Calories64
      ∧ main.walking64.CaloriesChecked64 = some main.walking64.Calories64
      ∧ main.swimming64.CaloriesChecked64 = some main.swimming64.Calories64
      ∧ ({ main.running64 with Duration := 0 } : Running).CaloriesChecked64 = none
      ∧ ({ main.walking64 with Height := F64.fin 0 } : Walking).CaloriesChecked64 = none := by
  have h0 : Duration.Hours64 ({ main.running64 with Duration := 0 } : Running).Duration
      = F64.fin 0 :=
    (divisors_nonzero64.2.2.2.2.2.2.2.2.2.2.2.2.2.1 0 (le_refl _) (by norm_num)).2 rfl
  refine ⟨(divisors_nonzero64.1 main.running64.toTraining main_durations.1
      main_durations.2.1).2,
    divisors_nonzero64.2.1 main.running64 main_durations.1 main_durations.2.1,
    divisors_nonzero64.2.2.2.1 main.walking64 185 main_durations.2.2.1
      main_durations.2.2.2.1 rfl ?_,
    (divisors_nonzero64.2.2.2.2.1 main.swimming64 main_durations.2.2.2.2.1
      main_durations.2.2.2.2.2).2,
    (divisors_nonzero64.2.2.2.2.2.2.2.2.2.1 _).2 h0,
    (divisors_nonzero64.2.2.2.2.2.2.2.2.2.2.1 _).2 (Or.inr ?_)⟩
  · rw [abs_of_pos (by norm_num : (0 : ℚ) < 185)]
    have h1 : (2 : ℚ) ^ (-1074 : ℤ) ≤ 2 ^ (0 : ℤ) := F64.two_zpow_le (by norm_num)
    rw [zpow_zero] at h1
    generalize (2 : ℚ) ^ (-1074 : ℤ) = u at h1
    linarith
  · exact (divisors_nonzero64.2.2.2.2.2.2.2.2.2.2.2.2.2.2 0).2 (by
      rw [abs_zero]
      exact mul_nonneg (by norm_num) (le_of_lt (F64.two_zpow_pos _)))

/-- C14 fails for a height that is not zero.  The walking workout of `main` with the smallest
positive height `2 ^ (-1074)` has `Duration > 0` and `Height ≠ 0`, and `Height / 100` is `0`
in binary64: the division by the height in meters is a division by zero, and the calories
are `+Inf`. -/
theorem height_underflow_divides_by_zero :
    0 < main.walkingTinyHeight.Duration
      ∧ main.walkingTinyHeight.Height ≠ F64.fin 0
      ∧ main.walkingTinyHeight.Height.divR (F64.round CmInM) = F64.fin 0
      ∧ main.walkingTinyHeight.CaloriesChecked64 = none := by
  have hH : main.walkingTinyHeight.Height = F64.fin (2 ^ (-1074 : ℤ)) := rfl
  have hz : main.walkingTinyHeight.Height.divR (F64.round CmInM) = F64.fin 0 := by
    rw [hH, F64.divR_CmInM_eq_zero_iff, abs_of_pos (F64.two_zpow_pos _)]
    have h1 := F64.two_zpow_pos (-1074)
    generalize (2 : ℚ) ^ (-1074 : ℤ) = u at h1
    linarith
  have hne : main.walkingTinyHeight.Height ≠ F64.fin 0 := by
    rw [hH]
    exact F64.fin_ne_zero _ (ne_of_gt (F64.two_zpow_pos _))
  refine ⟨main_durations.2.2.1, hne, hz, ?_⟩
  have hh : Duration.Hours64 main.walkingTinyHeight.Duration ≠ F64.fin 0 :=
    (Duration.Hours64_within _ main_durations.2.2.1 main_durations.2.2.2.1).finite_ne_zero.2.1
  rw [walking_CaloriesChecked64_if, if_neg hh, if_pos hz]

/-! ## C17 -/

/-- The base mean speed of a workout with a non-negative unit count, a non-negative
per-unit length (`+Inf` only with a unit count that is not zero) and a positive duration is
non-negative (or `+Inf`). -/
theorem Training.meanSpeed64_nonNeg (t : Training) (hA : 0 ≤ t.Action)
    (hA2 : t.Action < 2 ^ 63) (hl : F64.NonNeg t.LenStep)
    (hI : t.LenStep = F64.inf false → t.Action ≠ 0) (hd : 0 < t.Duration)
    (hd2 : t.Duration < 2 ^ 63) : F64.NonNeg t.meanSpeed64 := by
  have hp : F64.NonNeg ((F64.ofIntR t.Action).mulR t.LenStep) := by
    cases hL : t.LenStep with
    | nan => rw [hL] at hl; exact absurd hl id
    | inf b =>
      rw [hL] at hl
      have hb : b = false := hl
      subst hb
      have h1 : 1 ≤ t.Action := by
        have := hI hL
        omega
      obtain ⟨a, ha, ha0, _⟩ := (F64.ofIntR_near t.Action h1 hA2).2.exists
      have hapos : 0 < a := lt_of_lt_of_le (F64.two_zpow_pos 0) ha0
      rw [ha, F64.fin_mulR_inf a hapos]
      rfl
    | fin l =>
      rw [hL] at hl
      obtain ⟨a, ha, ha0, _⟩ := F64.ofIntR_nonneg t.Action hA hA2
      rw [ha]
      exact F64.mulR_fin_nonNeg a l ha0 hl
  have hD : F64.NonNeg t.distance64 := F64.divR_nonNeg hp F64.within_MInKm
  exact F64.divR_nonNeg hD (Duration.Hours64_within t.Duration hd hd2)

/-- C17, as amended: in binary64, for `0 ≤ Action < 2 ^ 63`, a per-unit length that is a
number `≥ 0` or, with `Action ≠ 0`, `+Inf`, and `0 < Duration < 2 ^ 63`, the calories of
running are `> 0` for a weight that is at least the smallest normal binary64 number
`2 ^ (-1022)` (or `+Inf`), and the calories of walking are `> 0` for a finite weight
`≥ 2 ^ (-1022)` and a finite height `≥ 2 ^ (-1022)`; for `0 < Duration < 2 ^ 63`,
`0 ≤ LengthPool, CountPool < 2 ^ 63` and a weight `≥ 2 ^ (-1022)` (or `+Inf`) the calories of
swimming are `> 0`. -/
theorem calories64_pos :
    (∀ r : Running, 0 ≤ r.Action → r.Action < 2 ^ 63 → F64.NonNeg r.LenStep →
        (r.LenStep = F64.inf false → r.Action ≠ 0) → 0 < r.Duration → r.Duration < 2 ^ 63 →
        F64.AtLeast (-1022) r.Weight →
        F64.lt (F64.fin 0) r.Calories64 = true)
      ∧ (∀ (w : Walking) (m h : ℚ), 0 ≤ w.Action → w.Action < 2 ^ 63 →
        F64.NonNeg w.LenStep → (w.LenStep = F64.inf false → w.Action ≠ 0) →
        0 < w.Duration → w.Duration < 2 ^ 63 →
        w.Weight = F64.fin m → (2 : ℚ) ^ (-1022 : ℤ) ≤ m →
        w.Height = F64.fin h → (2 : ℚ) ^ (-1022 : ℤ) ≤ h → h ≤ (2 : ℚ) ^ (1024 : ℤ) →
        F64.lt (F64.fin 0) w.Calories64 = true)
      ∧ (∀ s : Swimming, 0 < s.Duration → s.Duration < 2 ^ 63 →
        F64.AtLeast (-1022) s.Weight →
        0 ≤ s.LengthPool → s.LengthPool < 2 ^ 63 → 0 ≤ s.CountPool → s.CountPool < 2 ^ 63 →
        F64.lt (F64.fin 0) s.Calories64 = true) := by
  refine ⟨?_, ?_, ?_⟩
  · intro r hA hA2 hl hI hd hd2 hW
    have hv := Training.meanSpeed64_nonNeg r.toTraining hA hA2 hl hI hd hd2
    have hh := Duration.Hours64_within r.Duration hd hd2
    have t1 : F64.NonNeg
        ((F64.round CaloriesMeanSpeedMultiplier).mulR r.toTraining.meanSpeed64) := by
      rw [F64.mulR_comm]
      exact F64.mulR_nonNeg hv F64.within_multiplier
    have t2 := F64.addR_nonNeg_atLeast t1 F64.within_shift.atLeast (by norm_num)
    have t3 := F64.mulR_atLeast t2 hW (by norm_num)
    have t4 := F64.divR_atLeast t3 F64.within_MInKm (by norm_num)
    have t5 := F64.mulR_atLeast t4 hh.atLeast (by norm_num)
    have t6 := F64.mulR_atLeast t5 F64.within_MinInHours.atLeast (by norm_num)
    exact t6.lt_zero
  · intro w m h hA hA2 hl hI hd hd2 hm hm0 hH hh0 hh1
    have hv := Training.meanSpeed64_nonNeg w.toTraining hA hA2 hl hI hd hd2
    have hh := Duration.Hours64_within w.Duration hd hd2
    have hW : F64.AtLeast (-1022) w.Weight := by rw [hm]; exact hm0
    have hmpos : 0 < m := lt_of_lt_of_le (F64.two_zpow_pos _) hm0
    -- the height in meters is a positive number
    have hmeters : F64.Within (-1029) 1018 (w.Height.divR (F64.round CmInM)) := by
      rw [hH]
      exact height_meters_within h hh0 hh1
    have s1 := F64.mulR_nonNeg hv F64.within_KmHInMsec
    have s2 := F64.pow2R_nonNeg _ s1
    have s3 := F64.divR_nonNeg s2 hmeters
    have s4 := F64.mulR_nonNeg s3 F64.within_height_multiplier
    have s5 : F64.NonNeg
        ((((F64.pow2R (w.toTraining.meanSpeed64.mulR (F64.round KmHInMsec))).divR
          (w.Height.divR (F64.round CmInM))).mulR
        (F64.round CaloriesSpeedHeightMultiplier)).mulR w.Weight) := by
      rw [hm]
      exact F64.mulR_nonNeg_fin m s4 hmpos
    have t1 := F64.mulR_atLeast F64.within_weight_multiplier.atLeast hW (by norm_num)
    have t2 := F64.addR_atLeast_nonNeg t1 s5 (by norm_num)
    have t3 := F64.mulR_atLeast t2 hh.atLeast (by norm_num)
    have t4 := F64.mulR_atLeast t3 F64.within_MinInHours.atLeast (by norm_num)
    exact t4.lt_zero
  · intro s hd hd2 hW hL hL2 hC hC2
    have hh := Duration.Hours64_within s.Duration hd hd2
    obtain ⟨a, ha, ha0, _⟩ := F64.ofIntR_nonneg s.LengthPool hL hL2
    obtain ⟨b, hb, hb0, _⟩ := F64.ofIntR_nonneg s.CountPool hC hC2
    have hp : F64.NonNeg ((F64.ofIntR s.LengthPool).mulR (F64.ofIntR s.CountPool)) := by
      rw [ha, hb]
      exact F64.mulR_fin_nonNeg a b ha0 hb0
    have hv : F64.NonNeg s.meanSpeed64 :=
      F64.divR_nonNeg (F64.divR_nonNeg hp F64.within_MInKm) hh
    have t1 := F64.addR_nonNeg_atLeast hv F64.within_swimming_shift.atLeast (by norm_num)
    have t2 := F64.mulR_atLeast t1 F64.within_swimming_multiplier.atLeast (by norm_num)
    have t3 := F64.mulR_atLeast t2 hW (by norm_num)
    have t4 := F64.mulR_atLeast t3 hh.atLeast (by norm_num)
    exact t4.lt_zero

/-- C17, as amended, at the three workouts of `main`. -/
theorem calories64_pos_witness :
    F64.lt (F64.fin 0) main.running64.Calories64 = true
      ∧ F64.lt (F64.fin 0) main.walking64.Calories64 = true
      ∧ F64.lt (F64.fin 0) main.swimming64.Calories64 = true := by
  have hL : F64.NonNeg (F64.round LenStep) := by
    rw [F64.round_LenStep]
    show (0 : ℚ) ≤ 5854679515581645 / 9007199254740992
    norm_num
  have hI : F64.round LenStep ≠ F64.inf false := by
    rw [F64.round_LenStep]
    exact fun h => F64.noConfusion h
  have h85 : (2 : ℚ) ^ (-1022 : ℤ) ≤ 85 :=
    le_trans (F64.two_zpow_le (by norm_num : (-1022 : ℤ) ≤ 0)) (by norm_num)
  have h185 : (2 : ℚ) ^ (-1022 : ℤ) ≤ 185 :=
    le_trans (F64.two_zpow_le (by norm_num : (-1022 : ℤ) ≤ 0)) (by norm_num)
  have h185' : (185 : ℚ) ≤ (2 : ℚ) ^ (1024 : ℤ) :=
    le_trans (by norm_num) (F64.two_zpow_le (by norm_num : (8 : ℤ) ≤ 1024))
  exact ⟨calories64_pos.1 main.running64 (by decide) (by decide) hL (fun h => absurd h hI)
      main_durations.1 main_durations.2.1 h85,
    calories64_pos.2.1 main.walking64 85 185 (by decide) (by decide) hL
      (fun h => absurd h hI) main_durations.2.2.1 main_durations.2.2.2.1 rfl h85 rfl h185
      h185',
    calories64_pos.2.2 main.swimming64 main_durations.2.2.2.2.1 main_durations.2.2.2.2.2 h85
      (by decide) (by decide) (by decide) (by decide)⟩

/-- C17 fails on inputs that satisfy its hypotheses.  The running workout of `main` with
`Action = 0` and `LenStep = +Inf` has calories `NaN`, in exact arithmetic as in binary64,
and `NaN > 0` is false.  With `Action = 0` and the smallest positive weight `2 ^ (-1074)` the
calories of running and of walking are `0` in binary64, and `0 > 0` is false.  The calories
of walking are `NaN` in binary64 with `Action = 0` and the smallest positive height, with
`Action = 0` and the weight `+Inf`, and with the per-unit length `+Inf` and the height
`+Inf`. -/
theorem calories_not_pos :
    ((0 : ℤ) ≤ main.runningNoStepsInfLen.Action
        ∧ F64.le (F64.fin 0) main.runningNoStepsInfLen.LenStep = true
        ∧ 0 < main.runningNoStepsInfLen.Duration
        ∧ F64.lt (F64.fin 0) main.runningNoStepsInfLen.Weight = true
        ∧ F64.lt (F64.fin 0) main.runningNoStepsInfLen.Calories = false
        ∧ F64.lt (F64.fin 0) main.runningNoStepsInfLen.Calories64 = false)
      ∧ ((0 : ℤ) ≤ main.runningNoStepsTinyWeight.Action
        ∧ F64.le (F64.fin 0) main.runningNoStepsTinyWeight.LenStep = true
        ∧ 0 < main.runningNoStepsTinyWeight.Duration
        ∧ F64.lt (F64.fin 0) main.runningNoStepsTinyWeight.Weight = true
        ∧ F64.lt (F64.fin 0) main.runningNoStepsTinyWeight.Calories64 = false)
      ∧ ((0 : ℤ) ≤ main.walkingNoStepsTinyWeight.Action
        ∧ F64.le (F64.fin 0) main.walkingNoStepsTinyWeight.LenStep = true
        ∧ 0 < main.walkingNoStepsTinyWeight.Duration
        ∧ F64.lt (F64.fin 0) main.walkingNoStepsTinyWeight.Weight = true
        ∧ F64.lt (F64.fin 0) main.walkingNoStepsTinyWeight.Height = true
        ∧ F64.lt (F64.fin 0) main.walkingNoStepsTinyWeight.Calories64 = false)
      ∧ ((0 : ℤ) ≤ main.walkingNoStepsTinyHeight.Action
        ∧ F64.le (F64.fin 0) main.walkingNoStepsTinyHeight.LenStep = true
        ∧ 0 < main.walkingNoStepsTinyHeight.Duration
        ∧ F64.lt (F64.fin 0) main.walkingNoStepsTinyHeight.Weight = true
        ∧ F64.lt (F64.fin 0) main.walkingNoStepsTinyHeight.Height = true
        ∧ F64.lt (F64.fin 0) main.walkingNoStepsTinyHeight.Calories64 = false)
      ∧ ((0 : ℤ) ≤ main.walkingNoStepsInfWeight.Action
        ∧ F64.le (F64.fin 0) main.walkingNoStepsInfWeight.LenStep = true
        ∧ 0 < main.walkingNoStepsInfWeight.Duration
        ∧ F64.lt (F64.fin 0) main.walkingNoStepsInfWeight.Weight = true
        ∧ F64.lt (F64.fin 0) main.walkingNoStepsInfWeight.Height = true
        ∧ F64.lt (F64.fin 0) main.walkingNoStepsInfWeight.Calories64 = false)
      ∧ ((0 : ℤ) ≤ main.walkingInfLenInfHeight.Action
        ∧ main.walkingInfLenInfHeight.Action ≠ 0
        ∧ F64.le (F64.fin 0) main.walkingInfLenInfHeight.LenStep = true
        ∧ 0 < main.walkingInfLenInfHeight.Duration
        ∧ F64.lt (F64.fin 0) main.walkingInfLenInfHeight.Weight = true
        ∧ F64.lt (F64.fin 0) main.walkingInfLenInfHeight.Height = true
        ∧ F64.lt (F64.fin 0) main.walkingInfLenInfHeight.Calories64 = false) := by
  have hl : F64.le (F64.fin 0) (F64.round LenStep) = true := by
    rw [F64.round_LenStep]
    norm_num [F64.le]
  have h85 : F64.lt (F64.fin 0) (F64.fin 85) = true := by norm_num [F64.lt]
  have h185 : F64.lt (F64.fin 0) (F64.fin 185) = true := by norm_num [F64.lt]
  refine ⟨⟨by decide, rfl, main_durations.1, h85, ?_, ?_⟩,
    ⟨by decide, hl, main_durations.1, F64.smallest_pos, ?_⟩,
    ⟨by decide, hl, main_durations.2.2.1, F64.smallest_pos, h185, ?_⟩,
    ⟨by decide, hl, main_durations.2.2.1, h85, F64.smallest_pos, ?_⟩,
    ⟨by decide, hl, main_durations.2.2.1, rfl, h185, ?_⟩,
    ⟨by decide, by decide, rfl, main_durations.2.2.1, h85, rfl, ?_⟩⟩
  · rw [runningNoStepsInfLen_calories]; rfl
  · rw [runningNoStepsInfLen_calories64]; rfl
  · rw [runningNoStepsTinyWeight_calories64]; simp [F64.lt]
  · rw [walkingNoStepsTinyWeight_calories64]; simp [F64.lt]
  · rw [walkingNoStepsTinyHeight_calories64]; rfl
  · rw [walkingNoStepsInfWeight_calories64]; rfl
  · rw [walkingInfLenInfHeight_calories64]; rfl

/-! ## C18 -/

/-- The calories of a run over a positive distance, in binary64, are within fourteen
roundings of the closed form. -/
theorem running_calories64_near_moving (r : Running) (l m : ℚ) (hA : 1 ≤ r.Action)
    (hA2 : r.Action < 2 ^ 63) (hl : r.LenStep = F64.fin l) (hl0 : (2 : ℚ) ^ (-100 : ℤ) ≤ l)
    (hl1 : l ≤ (2 : ℚ) ^ (100 : ℤ)) (hd : 0 < r.Duration) (hd2 : r.Duration < 2 ^ 63)
    (hm : r.Weight = F64.fin m) (hm0 : (2 : ℚ) ^ (-100 : ℤ) ≤ m)
    (hm1 : m ≤ (2 : ℚ) ^ (100 : ℤ)) :
    F64.Near 14
      (Running.affineCalories ((r.Action : ℚ) * l / 1000) ((r.Duration : ℚ) / 3600000000000) m)
      r.Calories64 := by
  have hdq : (0 : ℚ) < (r.Duration : ℚ) := by exact_mod_cast hd
  have hh0 : (0 : ℚ) < (r.Duration : ℚ) / 3600000000000 := div_pos hdq (by norm_num)
  have hnq : (0 : ℚ) < (r.Action : ℚ) := by
    have : (0 : ℤ) < r.Action := by omega
    exact_mod_cast this
  have hl0' : 0 < l := lt_of_lt_of_le (F64.two_zpow_pos _) hl0
  have hm0' : 0 < m := lt_of_lt_of_le (F64.two_zpow_pos _) hm0
  -- the constants
  have k1000n : F64.Near 0 1000 (F64.round MInKm) := by
    rw [F64.round_MInKm]; exact F64.near_exact _
  have k60n : F64.Near 0 60 (F64.round MinInHours) := by
    rw [F64.round_MinInHours]; exact F64.near_exact _
  have k18n : F64.Near 0 18 (F64.round CaloriesMeanSpeedMultiplier) := by
    rw [F64.round_multiplier]; exact F64.near_exact _
  have kcn : F64.Near 7 1.79 (F64.round CaloriesMeanSpeedShift) := by
    have := F64.round_near CaloriesMeanSpeedShift
      (le_trans (F64.two_zpow_le (by norm_num : (-1022 : ℤ) ≤ 0))
        (by norm_num [CaloriesMeanSpeedShift]))
      (le_trans (by norm_num [CaloriesMeanSpeedShift] : CaloriesMeanSpeedShift ≤ 2 ^ (1 : ℤ))
        (F64.two_zpow_le (by norm_num)))
    have e : CaloriesMeanSpeedShift = 1.79 := rfl
    rw [e] at this
    exact this.mono_near (by norm_num) (by norm_num)
  -- the inputs
  obtain ⟨an, aw⟩ := F64.ofIntR_near r.Action hA hA2
  have ln : F64.Near 0 l r.LenStep := by rw [hl]; exact F64.near_exact _
  have lw : F64.Within (-100) 100 r.LenStep := by rw [hl]; exact ⟨hl0, hl1⟩
  have mn : F64.Near 0 m r.Weight := by rw [hm]; exact F64.near_exact _
  have mw : F64.Within (-100) 100 r.Weight := by rw [hm]; exact ⟨hm0, hm1⟩
  have Hn := Duration.Hours64_near r.Duration hd hd2
  have Hw := Duration.Hours64_within r.Duration hd hd2
  -- the distance and the mean speed
  have pn := F64.mulR_near an ln aw lw (by norm_num) (by norm_num)
  have pw := F64.mulR_within aw lw (by norm_num) (by norm_num)
  have Dn := F64.divR_near pn k1000n pw F64.within_MInKm (by norm_num) (by norm_num)
  have Dw := F64.divR_within pw F64.within_MInKm (by norm_num) (by norm_num)
  have vn := F64.divR_near Dn Hn Dw Hw (by norm_num) (by norm_num)
  have vw := F64.divR_within Dw Hw (by norm_num) (by norm_num)
  -- the calories
  have s1n := F64.mulR_near k18n vn F64.within_multiplier vw (by norm_num) (by norm_num)
  have s1w := F64.mulR_within F64.within_multiplier vw (by norm_num) (by norm_num)
  obtain ⟨s2n, s2w⟩ := F64.addR_near (e := 201) s1n kcn s1w F64.within_shift (by norm_num)
    (by norm_num) (by norm_num) (by norm_num)
  have s3n := F64.mulR_near s2n mn s2w mw (by norm_num) (by norm_num)
  have s3w := F64.mulR_within s2w mw (by norm_num) (by norm_num)
  have s4n := F64.divR_near s3n k1000n s3w F64.within_MInKm (by norm_num) (by norm_num)
  have s4w := F64.divR_within s3w F64.within_MInKm (by norm_num) (by norm_num)
  have s5n := F64.mulR_near s4n Hn s4w Hw (by norm_num) (by norm_num)
  have s5w := F64.mulR_within s4w Hw (by norm_num) (by norm_num)
  have s6n := F64.mulR_near s5n k60n s5w F64.within_MinInHours (by norm_num) (by norm_num)
  have e : Running.affineCalories ((r.Action : ℚ) * l / 1000)
      ((r.Duration : ℚ) / 3600000000000) m
      = (18 * ((r.Action : ℚ) * l / 1000 / ((r.Duration : ℚ) / 3600000000000)) + 1.79) * m
          / 1000 * ((r.Duration : ℚ) / 3600000000000) * 60 := by
    unfold Running.affineCalories
    have := ne_of_gt hh0
    field_simp
    ring
  rw [e]
  simp only [Running.Calories64, Training.meanSpeed64, Training.distance64]
  exact s6n

/-- The calories of running with a zero mean speed are computed from the shift alone. -/
theorem running_calories64_zero_speed (r : Running)
    (hv : r.toTraining.meanSpeed64 = F64.fin 0) :
    r.Calories64
      = ((((F64.round CaloriesMeanSpeedShift).mulR r.Weight).divR
          (F64.round MInKm)).mulR (Duration.Hours64 r.Duration)).mulR
          (F64.round MinInHours) := by
  simp only [Running.Calories64, hv, F64.mulR_zero F64.within_multiplier,
    F64.zero_addR_round]

/-- The calories of a run over no distance, in binary64, are within seven roundings of the
closed form. -/
theorem running_calories64_near_still (r : Running) (l m : ℚ) (hA : 0 ≤ r.Action)
    (hA2 : r.Action < 2 ^ 63) (hl : r.LenStep = F64.fin l) (hz : r.Action = 0 ∨ l = 0)
    (hd : 0 < r.Duration) (hd2 : r.Duration < 2 ^ 63)
    (hm : r.Weight = F64.fin m) (hm0 : (2 : ℚ) ^ (-100 : ℤ) ≤ m)
    (hm1 : m ≤ (2 : ℚ) ^ (100 : ℤ)) :
    F64.Near 7
      (Running.affineCalories ((r.Action : ℚ) * l / 1000) ((r.Duration : ℚ) / 3600000000000) m)
      r.Calories64 := by
  have Hn := Duration.Hours64_near r.Duration hd hd2
  have Hw := Duration.Hours64_within r.Duration hd hd2
  have hD : r.toTraining.distance64 = F64.fin 0 := by
    rcases hz with h | h
    · exact distance64_zero_units r.toTraining l h hl
    · obtain ⟨a, ha, _, _⟩ := F64.ofIntR_nonneg r.Action hA hA2
      simp only [Training.distance64]
      rw [ha, hl, h, F64.mulR_fin, mul_zero, F64.round_zero, F64.zero_divR F64.within_MInKm]
  have hv : r.toTraining.meanSpeed64 = F64.fin 0 := by
    simp only [Training.meanSpeed64, hD]
    exact F64.zero_divR Hw
  have k1000n : F64.Near 0 1000 (F64.round MInKm) := by
    rw [F64.round_MInKm]; exact F64.near_exact _
  have k60n : F64.Near 0 60 (F64.round MinInHours) := by
    rw [F64.round_MinInHours]; exact F64.near_exact _
  have kcn : F64.Near 1 1.79 (F64.round CaloriesMeanSpeedShift) := by
    have := F64.round_near CaloriesMeanSpeedShift
      (le_trans (F64.two_zpow_le (by norm_num : (-1022 : ℤ) ≤ 0))
        (by norm_num [CaloriesMeanSpeedShift]))
      (le_trans (by norm_num [CaloriesMeanSpeedShift] : CaloriesMeanSpeedShift ≤ 2 ^ (1 : ℤ))
        (F64.two_zpow_le (by norm_num)))
    have e : CaloriesMeanSpeedShift = 1.79 := rfl
    rw [e] at this
    exact this
  have mn : F64.Near 0 m r.Weight := by rw [hm]; exact F64.near_exact _
  have mw : F64.Within (-100) 100 r.Weight := by rw [hm]; exact ⟨hm0, hm1⟩
  have s3n := F64.mulR_near kcn mn F64.within_shift mw (by norm_num) (by norm_num)
  have s3w := F64.mulR_within F64.within_shift mw (by norm_num) (by norm_num)
  have s4n := F64.divR_near s3n k1000n s3w F64.within_MInKm (by norm_num) (by norm_num)
  have s4w := F64.divR_within s3w F64.within_MInKm (by norm_num) (by norm_num)
  have s5n := F64.mulR_near s4n Hn s4w Hw (by norm_num) (by norm_num)
  have s5w := F64.mulR_within s4w Hw (by norm_num) (by norm_num)
  have s6n := F64.mulR_near s5n k60n s5w F64.within_MinInHours (by norm_num) (by norm_num)
  have e : Running.affineCalories ((r.Action : ℚ) * l / 1000)
      ((r.Duration : ℚ) / 3600000000000) m
      = 1.79 * m / 1000 * ((r.Duration : ℚ) / 3600000000000) * 60 := by
    have h0 : (r.Action : ℚ) * l = 0 := by
      rcases hz with h | h
      · rw [h]; simp
      · rw [h]; simp
    unfold Running.affineCalories
    rw [h0]
    ring
  rw [e, running_calories64_zero_speed r hv]
  exact s6n

/-- The calories of running, in binary64, are within fourteen roundings of the closed
form. -/
theorem running_calories64_near_closed (r : Running) (l m : ℚ) (hA : 0 ≤ r.Action)
    (hA2 : r.Action < 2 ^ 63) (hl : r.LenStep = F64.fin l)
    (hl0 : l = 0 ∨ ((2 : ℚ) ^ (-100 : ℤ) ≤ l ∧ l ≤ (2 : ℚ) ^ (100 : ℤ)))
    (hd : 0 < r.Duration) (hd2 : r.Duration < 2 ^ 63)
    (hm : r.Weight = F64.fin m) (hm0 : (2 : ℚ) ^ (-100 : ℤ) ≤ m)
    (hm1 : m ≤ (2 : ℚ) ^ (100 : ℤ)) :
    F64.Near 14
      (Running.affineCalories ((r.Action : ℚ) * l / 1000) ((r.Duration : ℚ) / 3600000000000) m)
      r.Calories64 := by
  have hnn : 0 ≤ Running.affineCalories ((r.Action : ℚ) * l / 1000)
      ((r.Duration : ℚ) / 3600000000000) m := by
    have h1 : (0 : ℚ) ≤ (r.Action : ℚ) := by exact_mod_cast hA
    have h2 : (0 : ℚ) ≤ (r.Duration : ℚ) := by exact_mod_cast le_of_lt hd
    have h3 : 0 ≤ l := by
      rcases hl0 with h | h
      · rw [h]
      · exact le_trans (le_of_lt (F64.two_zpow_pos _)) h.1
    have h4 : 0 ≤ m := le_trans (le_of_lt (F64.two_zpow_pos _)) hm0
    unfold Running.affineCalories
    positivity
  by_cases hz : r.Action = 0 ∨ l = 0
  · exact (running_calories64_near_still r l m hA hA2 hl hz hd hd2 hm hm0 hm1).mono_near hnn
      (by norm_num)
  · have hA1 : 1 ≤ r.Action := by
      have : r.Action ≠ 0 := fun h => hz (Or.inl h)
      omega
    rcases hl0 with h | h
    · exact absurd (Or.inr h) hz
    · exact running_calories64_near_moving r l m hA1 hA2 hl h.1 h.2 hd hd2 hm hm0 hm1

/-! ## Rounding certificates of two runs -/

namespace F64

theorem evalStep0 :
    (fin 100000).mulR (fin (5854679515581645 / 9007199254740992))
      = fin 65000 := by
  rw [mulR_fin]
  apply round_cert _ (15) 8933531975680000
  · norm_num
  · norm_num
  · norm_num
  · norm_num [abs_lt]
  · norm_num
  · norm_num

theorem evalStep1 :
    (fin 65000).divR (fin 1000)
      = fin 65 := by
  rw [divR_fin _ _ (by norm_num)]
  apply round_cert _ (6) 4573968371548160
  · norm_num
  · norm_num
  · norm_num
  · norm_num [abs_lt]
  · norm_num
  · norm_num

theorem evalStep2 :
    (fin 1800000000613).divR (fin 3600000000000)
      = fin (2251799814452111 / 4503599627370496) := by
  rw [divR_fin _ _ (by norm_num)]
  apply round_cert _ (-1) 4503599628904222
  · norm_num
  · norm_num
  · norm_num
  · norm_num [abs_lt]
  · norm_num
  · norm_num

theorem evalStep3 :
    (fin 0).addR (fin (2251799814452111 / 4503599627370496))
      = fin (2251799814452111 / 4503599627370496) := by
  rw [addR_fin]
  apply round_cert _ (-1) 4503599628904222
  · norm_num
  · norm_num
  · norm_num
  · norm_num [abs_lt]
  · norm_num
  · norm_num

theorem evalStep4 :
    (fin 65).divR (fin (2251799814452111 / 4503599627370496))
      = fin (2286984184995235 / 17592186044416) := by
  rw [divR_fin _ _ (by norm_num)]
  apply round_cert _ (7) 4573968369990470
  · norm_num
  · norm_num
  · norm_num
  · norm_num [abs_lt]
  · norm_num
  · norm_num

theorem evalStep5 :
    (fin 18).mulR (fin (2286984184995235 / 17592186044416))
      = fin (5145714416239279 / 2199023255552) := by
  rw [mulR_fin]
  apply round_cert _ (11) 5145714416239279
  · norm_num
  · norm_num
  · norm_num
  · norm_num [abs_lt]
  · norm_num
  · norm_num

theorem evalStep6 :
    (fin (5145714416239279 / 2199023255552)).addR (fin (2015360833248297 / 1125899906842624))
      = fin (5149650667866717 / 2199023255552) := by
  rw [addR_fin]
  apply round_cert _ (11) 5149650667866717
  · norm_num
  · norm_num
  · norm_num
  · norm_num [abs_lt]
  · norm_num
  · norm_num

theorem evalStep7 :
    (fin (5149650667866717 / 2199023255552)).mulR (fin 85)
      = fin (1709844948315121 / 8589934592) := by
  rw [mulR_fin]
  apply round_cert _ (17) 6839379793260484
  · norm_num
  · norm_num
  · norm_num
  · norm_num [abs_lt]
  · norm_num
  · norm_num

theorem evalStep8 :
    (fin (1709844948315121 / 8589934592)).divR (fin 1000)
      = fin (437720306768671 / 2199023255552) := by
  rw [divR_fin _ _ (by norm_num)]
  apply round_cert _ (7) 7003524908298736
  · norm_num
  · norm_num
  · norm_num
  · norm_num [abs_lt]
  · norm_num
  · norm_num

theorem evalStep9 :
    (fin (437720306768671 / 2199023255552)).mulR (fin (2251799814452111 / 4503599627370496))
      = fin (3501762455341913 / 35184372088832) := by
  rw [mulR_fin]
  apply round_cert _ (6) 7003524910683826
  · norm_num
  · norm_num
  · norm_num
  · norm_num [abs_lt]
  · norm_num
  · norm_num

theorem evalStep10 :
    (fin (3501762455341913 / 35184372088832)).mulR (fin 60)
      = fin (6565804603766087 / 1099511627776) := by
  rw [mulR_fin]
  apply round_cert _ (12) 6565804603766087
  · norm_num
  · norm_num
  · norm_num
  · norm_num [abs_lt]
  · norm_num
  · norm_num

theorem evalStep11 :
    (fin 1800000000614).divR (fin 3600000000000)
      = fin (1125899907226681 / 2251799813685248) := by
  rw [divR_fin _ _ (by norm_num)]
  apply round_cert _ (-1) 4503599628906724
  · norm_num
  · norm_num
  · norm_num
  · norm_num [abs_lt]
  · norm_num
  · norm_num

theorem evalStep12 :
    (fin 0).addR (fin (1125899907226681 / 2251799813685248))
      = fin (1125899907226681 / 2251799813685248) := by
  rw [addR_fin]
  apply round_cert _ (-1) 4503599628906724
  · norm_num
  · norm_num
  · norm_num
  · norm_num [abs_lt]
  · norm_num
  · norm_num

theorem evalStep13 :
    (fin 65).divR (fin (1125899907226681 / 2251799813685248))
      = fin (571746046248491 / 4398046511104) := by
  rw [divR_fin _ _ (by norm_num)]
  apply round_cert _ (7) 4573968369987928
  · norm_num
  · norm_num
  · norm_num
  · norm_num [abs_lt]
  · norm_num
  · norm_num

theorem evalStep14 :
    (fin 18).mulR (fin (571746046248491 / 4398046511104))
      = fin (5145714416236419 / 2199023255552) := by
  rw [mulR_fin]
  apply round_cert _ (11) 5145714416236419
  · norm_num
  · norm_num
  · norm_num
  · norm_num [abs_lt]
  · norm_num
  · norm_num

theorem evalStep15 :
    (fin (5145714416236419 / 2199023255552)).addR (fin (2015360833248297 / 1125899906842624))
      = fin (5149650667863857 / 2199023255552) := by
  rw [addR_fin]
  apply round_cert _ (11) 5149650667863857
  · norm_num
  · norm_num
  · norm_num
  · norm_num [abs_lt]
  · norm_num
  · norm_num

theorem evalStep16 :
    (fin (5149650667863857 / 2199023255552)).mulR (fin 85)
      = fin (6839379793256685 / 34359738368) := by
  rw [mulR_fin]
  apply round_cert _ (17) 6839379793256685
  · norm_num
  · norm_num
  · norm_num
  · norm_num [abs_lt]
  · norm_num
  · norm_num

theorem evalStep17 :
    (fin (6839379793256685 / 34359738368)).divR (fin 1000)
      = fin (7003524908294845 / 35184372088832) := by
  rw [divR_fin _ _ (by norm_num)]
  apply round_cert _ (7) 7003524908294845
  · norm_num
  · norm_num
  · norm_num
  · norm_num [abs_lt]
  · norm_num
  · norm_num

theorem evalStep18 :
    (fin (7003524908294845 / 35184372088832)).mulR (fin (1125899907226681 / 2251799813685248))
      = fin (7003524910683825 / 70368744177664) := by
  rw [mulR_fin]
  apply round_cert _ (6) 7003524910683825
  · norm_num
  · norm_num
  · norm_num
  · norm_num [abs_lt]
  · norm_num
  · norm_num

theorem evalStep19 :
    (fin (7003524910683825 / 70368744177664)).mulR (fin 60)
      = fin (3282902301883043 / 549755813888) := by
  rw [mulR_fin]
  apply round_cert _ (12) 6565804603766086
  · norm_num
  · norm_num
  · norm_num
  · norm_num [abs_lt]
  · norm_num
  · norm_num

theorem evalStep20 :
    (fin 18).mulR (fin 65)
      = fin 1170 := by
  rw [mulR_fin]
  apply round_cert _ (10) 5145714417991680
  · norm_num
  · norm_num
  · norm_num
  · norm_num [abs_lt]
  · norm_num
  · norm_num

theorem evalStep21 :
    (fin (2015360833248297 / 1125899906842624)).mulR (fin (2251799814452111 / 4503599627370496))
      = fin (4030721667869279 / 4503599627370496) := by
  rw [mulR_fin]
  apply round_cert _ (-1) 8061443335738558
  · norm_num
  · norm_num
  · norm_num
  · norm_num [abs_lt]
  · norm_num
  · norm_num

theorem evalStep22 :
    (fin 1170).addR (fin (4030721667869279 / 4503599627370496))
      = fin (5149650669620459 / 4398046511104) := by
  rw [addR_fin]
  apply round_cert _ (10) 5149650669620459
  · norm_num
  · norm_num
  · norm_num
  · norm_num [abs_lt]
  · norm_num
  · norm_num

theorem evalStep23 :
    (fin (5149650669620459 / 4398046511104)).mulR (fin 85)
      = fin (854922474448709 / 8589934592) := by
  rw [mulR_fin]
  apply round_cert _ (16) 6839379795589672
  · norm_num
  · norm_num
  · norm_num
  · norm_num [abs_lt]
  · norm_num
  · norm_num

theorem evalStep24 :
    (fin (854922474448709 / 8589934592)).mulR (fin 60)
      = fin (3205959279182659 / 536870912) := by
  rw [mulR_fin]
  apply round_cert_tie _ (22) 6411918558365317 6411918558365318
  · norm_num
  · norm_num
  · norm_num
  · norm_num
  · norm_num
  · norm_num
  · norm_num

theorem evalStep25 :
    (fin (3205959279182659 / 536870912)).divR (fin 1000)
      = fin (3282902301883043 / 549755813888) := by
  rw [divR_fin _ _ (by norm_num)]
  apply round_cert _ (12) 6565804603766086
  · norm_num
  · norm_num
  · norm_num
  · norm_num [abs_lt]
  · norm_num
  · norm_num

end F64

/-- The hours of a duration below one hour. -/
theorem Duration.Hours64_below_hour (d : Int) (h0 : 0 ≤ d) (h1 : d < 3600000000000) :
    Duration.Hours64 d
      = (F64.fin 0).addR ((F64.fin (d : ℚ)).divR (F64.fin 3600000000000)) := by
  have hH : (Duration.Hour : Int) = 3600000000000 := by
    norm_num [Duration.Hour, Duration.Minute]
  have e1 : Int.tdiv d 3600000000000 = 0 := Int.tdiv_eq_zero_of_lt h0 h1
  have e2 : Int.tmod d 3600000000000 = d := Int.tmod_eq_of_lt h0 h1
  have z : F64.ofIntR 0 = F64.fin 0 := by simp [F64.ofIntR, F64.round_zero]
  unfold Duration.Hours64
  simp only [hH, e1, e2, z, F64.round_hour_ns]
  rw [F64.ofIntR_exact d h0 (lt_trans h1 (by norm_num))]

theorem F64.ofIntR_100000 : F64.ofIntR 100000 = F64.fin 100000 := by
  have := F64.ofIntR_exact 100000 (by norm_num) (by norm_num)
  simpa using this

/-- The hours of the shorter of the two runs. -/
theorem runningFor_hours64_613 :
    Duration.Hours64 1800000000613 = F64.fin (2251799814452111 / 4503599627370496) := by
  have h := Duration.Hours64_below_hour 1800000000613 (by norm_num) (by norm_num)
  simp only [Int.cast_ofNat] at h
  rw [h, F64.evalStep2, F64.evalStep3]

/-- The hours of the longer of the two runs. -/
theorem runningFor_hours64_614 :
    Duration.Hours64 1800000000614 = F64.fin (1125899907226681 / 2251799813685248) := by
  have h := Duration.Hours64_below_hour 1800000000614 (by norm_num) (by norm_num)
  simp only [Int.cast_ofNat] at h
  rw [h, F64.evalStep11, F64.evalStep12]

/-- The distance of the two runs. -/
theorem runningFor_distance64 (d : Duration) :
    (main.runningFor d).toTraining.distance64 = F64.fin 65 := by
  simp only [Training.distance64, main.runningFor]
  rw [F64.round_MInKm, F64.round_LenStep, F64.ofIntR_100000, F64.evalStep0,
    F64.evalStep1]

/-- The calories of the shorter of the two runs. -/
theorem runningFor_calories64_613 :
    (main.runningFor 1800000000613).Calories64
      = F64.fin (6565804603766087 / 1099511627776) := by
  simp only [Running.Calories64, Training.meanSpeed64, runningFor_distance64]
  simp only [main.runningFor]
  rw [runningFor_hours64_613, F64.round_multiplier, F64.round_shift, F64.round_MInKm,
    F64.round_MinInHours,
    F64.evalStep4, F64.evalStep5, F64.evalStep6, F64.evalStep7, F64.evalStep8, F64.evalStep9,
    F64.evalStep10]

/-- The calories of the longer of the two runs. -/
theorem runningFor_calories64_614 :
    (main.runningFor 1800000000614).Calories64
      = F64.fin (3282902301883043 / 549755813888) := by
  simp only [Running.Calories64, Training.meanSpeed64, runningFor_distance64]
  simp only [main.runningFor]
  rw [runningFor_hours64_614, F64.round_multiplier, F64.round_shift, F64.round_MInKm,
    F64.round_MinInHours,
    F64.evalStep13, F64.evalStep14, F64.evalStep15, F64.evalStep16, F64.evalStep17,
    F64.evalStep18, F64.evalStep19]

/-- The closed form of the shorter of the two runs, evaluated in binary64. -/
theorem runningFor_affineCalories64_613 :
    Running.affineCalories64 (main.runningFor 1800000000613).toTraining.distance64
        (Duration.Hours64 (main.runningFor 1800000000613).Duration)
        (main.runningFor 1800000000613).Weight
      = F64.fin (3282902301883043 / 549755813888) := by
  simp only [Running.affineCalories64, runningFor_distance64]
  simp only [main.runningFor]
  rw [runningFor_hours64_613, F64.round_multiplier, F64.round_shift, F64.round_MInKm,
    F64.round_MinInHours,
    F64.evalStep20, F64.evalStep21, F64.evalStep22, F64.evalStep23, F64.evalStep24,
    F64.evalStep25]

/-- (6565804603766087 / 1099511627776)8, as amended: for a run with `1 ≤ Action < 2 ^ 63`, `0 < Duration < 2 ^ 63` and a
per-unit length and a weight between `2 ^ (-100)` and `2 ^ 100`, the calories computed in
binary64 are the closed form `(18 × distance + 1.79 × hours) × Weight × 60 / 1000`, with
`distance = Action × LenStep / 1000` and `hours = Duration / 3.6e12` in exact arithmetic, up
to fourteen roundings: they lie between the closed form divided by `(1 + 2 ^ (-52)) ^ 14` and
the closed form times `(1 + 2 ^ (-52)) ^ 14`.  The closed form is an affine function of the
hours with the slope `1.79 × Weight × 60 / 1000`, strictly increasing for a positive weight;
the computed calories of the longer of two runs over the same distance are strictly larger
when the closed forms differ by more than the factor `(1 + 2 ^ (-52)) ^ 28`. -/
theorem running_calories64_affine :
    (∀ (r : Running) (l m : ℚ), 0 ≤ r.Action → r.Action < 2 ^ 63 → r.LenStep = F64.fin l →
        (l = 0 ∨ ((2 : ℚ) ^ (-100 : ℤ) ≤ l ∧ l ≤ (2 : ℚ) ^ (100 : ℤ))) → 0 < r.Duration →
        r.Duration < 2 ^ 63 → r.Weight = F64.fin m → (2 : ℚ) ^ (-100 : ℤ) ≤ m →
        m ≤ (2 : ℚ) ^ (100 : ℤ) →
        F64.Near 14
          (Running.affineCalories ((r.Action : ℚ) * l / 1000)
            ((r.Duration : ℚ) / 3600000000000) m)
          r.Calories64)
      ∧ (∀ D h w : ℚ,
          Running.affineCalories D h w = 18 * D * w * 60 / 1000 + 1.79 * w * 60 / 1000 * h)
      ∧ (∀ D w h₁ h₂ : ℚ, 0 < w → h₁ < h₂ →
          Running.affineCalories D h₁ w < Running.affineCalories D h₂ w)
      ∧ (∀ (r₁ r₂ : Running) (l m : ℚ), r₁.Action = r₂.Action → 0 ≤ r₁.Action →
          r₁.Action < 2 ^ 63 → r₁.LenStep = F64.fin l → r₂.LenStep = F64.fin l →
          (l = 0 ∨ ((2 : ℚ) ^ (-100 : ℤ) ≤ l ∧ l ≤ (2 : ℚ) ^ (100 : ℤ))) → 0 < r₁.Duration →
          r₁.Duration < 2 ^ 63 → 0 < r₂.Duration → r₂.Duration < 2 ^ 63 →
          r₁.Weight = F64.fin m → r₂.Weight = F64.fin m → (2 : ℚ) ^ (-100 : ℤ) ≤ m →
          m ≤ (2 : ℚ) ^ (100 : ℤ) →
          Running.affineCalories ((r₁.Action : ℚ) * l / 1000)
              ((r₁.Duration : ℚ) / 3600000000000) m * F64.onePlusEps ^ 28
            < Running.affineCalories ((r₁.Action : ℚ) * l / 1000)
              ((r₂.Duration : ℚ) / 3600000000000) m →
          F64.lt r₁.Calories64 r₂.Calories64 = true) := by
  refine ⟨running_calories64_near_closed, ?_, ?_, ?_⟩
  · intro D h w
    unfold Running.affineCalories
    ring
  · intro D w h₁ h₂ hw hh
    unfold Running.affineCalories
    have : 0 < 1.79 * w * 60 / 1000 * (h₂ - h₁) := by
      have := sub_pos.2 hh
      positivity
    linarith
  · intro r₁ r₂ l m hA hA1 hA2 hl₁ hl₂ hl0 hd₁ hd₁' hd₂ hd₂' hm₁ hm₂ hm0 hm1 hlt
    have n1 := running_calories64_near_closed r₁ l m hA1 hA2 hl₁ hl0 hd₁ hd₁' hm₁ hm0 hm1
    have n2 := running_calories64_near_closed r₂ l m (hA ▸ hA1) (hA ▸ hA2) hl₂ hl0 hd₂
      hd₂' hm₂ hm0 hm1
    rw [← hA] at n2
    obtain ⟨c₁, e₁, -, u₁⟩ := n1.exists_near
    obtain ⟨c₂, e₂, l₂, -⟩ := n2.exists_near
    rw [e₁, e₂]
    have hE := F64.onePlusEps_pow_pos 14
    have hlt' : Running.affineCalories ((r₁.Action : ℚ) * l / 1000)
          ((r₁.Duration : ℚ) / 3600000000000) m * F64.onePlusEps ^ 14
        < Running.affineCalories ((r₁.Action : ℚ) * l / 1000)
          ((r₂.Duration : ℚ) / 3600000000000) m / F64.onePlusEps ^ 14 := by
      rw [lt_div_iff₀ hE, mul_assoc, ← pow_add]
      exact hlt
    simp only [F64.lt, decide_eq_true_eq]
    linarith

/-- (6565804603766087 / 1099511627776)8, as amended, at the running workout of `main` and at the same workout lasting one
hour. -/
theorem running_calories64_affine_witness :
    F64.Near 14
        (Running.affineCalories ((main.running64.Action : ℚ)
            * (5854679515581645 / 9007199254740992) / 1000)
          ((main.running64.Duration : ℚ) / 3600000000000) 85)
        main.running64.Calories64
      ∧ F64.lt main.running64.Calories64 main.running64OneHour.Calories64 = true := by
  have hl0 : (2 : ℚ) ^ (-100 : ℤ) ≤ 5854679515581645 / 9007199254740992 :=
    le_trans (F64.two_zpow_le (by norm_num : (-100 : ℤ) ≤ -1)) (by norm_num)
  have hl1 : (5854679515581645 / 9007199254740992 : ℚ) ≤ (2 : ℚ) ^ (100 : ℤ) :=
    le_trans (by norm_num) (F64.two_zpow_le (by norm_num : (0 : ℤ) ≤ 100))
  have hm0 : (2 : ℚ) ^ (-100 : ℤ) ≤ 85 :=
    le_trans (F64.two_zpow_le (by norm_num : (-100 : ℤ) ≤ 0)) (by norm_num)
  have hm1 : (85 : ℚ) ≤ (2 : ℚ) ^ (100 : ℤ) :=
    le_trans (by norm_num) (F64.two_zpow_le (by norm_num : (7 : ℤ) ≤ 100))
  have hd : (0 : ℤ) < Duration.Minute * 60 ∧ Duration.Minute * 60 < 2 ^ 63 := by
    simp only [Duration.Minute]
    norm_num
  refine ⟨running_calories64_affine.1 main.running64 _ 85 (by decide) (by decide)
      F64.round_LenStep (Or.inr ⟨hl0, hl1⟩) main_durations.1 main_durations.2.1 rfl hm0 hm1,
    running_calories64_affine.2.2.2 main.running64 main.running64OneHour _ 85 rfl (by decide)
      (by decide) F64.round_LenStep F64.round_LenStep (Or.inr ⟨hl0, hl1⟩) main_durations.1
      main_durations.2.1 hd.1 hd.2 rfl rfl hm0 hm1 ?_⟩
  have e1 : ((main.running64.Action : ℤ) : ℚ) = 5000 := by
    simp [main.running64, main.running]
  have e2 : ((main.running64.Duration : ℤ) : ℚ) = 1800000000000 := by
    simp [main.running64, main.running, Duration.Minute]
  have e3 : ((main.running64OneHour.Duration : ℤ) : ℚ) = 3600000000000 := by
    simp [main.running64OneHour, Duration.Minute]
  rw [e1, e2, e3]
  norm_num [Running.affineCalories, F64.onePlusEps]

/-- (6565804603766087 / 1099511627776)8 fails in binary64.  Two runs of `100000` steps of `0.65` m for a weight of `85` that
last `1800000000613` and `1800000000614` nanoseconds cover the same distance `65`, and the
calories of the longer run are strictly smaller: `5971.564500001557` and
`5971.564500001556`.  The calories of the shorter run differ from the closed form
`(18 × distance + 1.79 × hours) × Weight × 60 / 1000` evaluated in binary64 and from the
closed form in exact arithmetic. -/
theorem running_calories64_not_increasing :
    (main.runningFor 1800000000613).Duration < (main.runningFor 1800000000614).Duration
      ∧ 0 < (main.runningFor 1800000000613).Duration
      ∧ (main.runningFor 1800000000613).toTraining.distance64
          = (main.runningFor 1800000000614).toTraining.distance64
      ∧ (main.runningFor 1800000000613).Weight = (main.runningFor 1800000000614).Weight
      ∧ F64.lt (F64.fin 0) (main.runningFor 1800000000613).Weight = true
      ∧ (main.runningFor 1800000000613).Calories64
          = F64.fin (6565804603766087 / 1099511627776)
      ∧ (main.runningFor 1800000000614).Calories64
          = F64.fin (3282902301883043 / 549755813888)
      ∧ F64.lt (main.runningFor 1800000000613).Calories64
          (main.runningFor 1800000000614).Calories64 = false
      ∧ F64.lt (main.runningFor 1800000000614).Calories64
          (main.runningFor 1800000000613).Calories64 = true
      ∧ F64.eq (main.runningFor 1800000000613).Calories64
          (Running.affineCalories64 (main.runningFor 1800000000613).toTraining.distance64
            (Duration.Hours64 (main.runningFor 1800000000613).Duration)
            (main.runningFor 1800000000613).Weight) = false
      ∧ F64.eq (main.runningFor 1800000000613).Calories64
          (F64.fin (Running.affineCalories
            (100000 * (5854679515581645 / 9007199254740992) / 1000)
            (1800000000613 / 3600000000000) 85)) = false := by
  refine ⟨by decide, by decide, ?_, rfl, by norm_num [main.runningFor, F64.lt],
    runningFor_calories64_613, runningFor_calories64_614, ?_, ?_, ?_, ?_⟩
  · rw [runningFor_distance64, runningFor_distance64]
  · rw [runningFor_calories64_613, runningFor_calories64_614]
    norm_num [F64.lt]
  · rw [runningFor_calories64_613, runningFor_calories64_614]
    norm_num [F64.lt]
  · rw [runningFor_calories64_613, runningFor_affineCalories64_613]
    norm_num [F64.eq]
  · rw [runningFor_calories64_613]
    norm_num [F64.eq, Running.affineCalories]
